import Mathlib

/-!
RPMB protocol engine.

A shallow embedding of the RPMB engine of `src/Rpmbd.cpp` (class `Rpmbd`) with the
frame layout of `src/RpmbFrame.h`, its state file, and the ioctl callback of
`src/RpmbCuseDevice.cpp`.

* A byte buffer (`const uint8_t*`, `std::vector<uint8_t>`, `uint8_t[n]`) is a `List Nat`.
  The pointer `p + off` is `p.drop off`; `memcpy(dst + off, src, n)` is `memcpy dst off src n`.
* `uint16_t` and `uint32_t` values are `Nat`; a narrowing conversion is written `% 65536`
  or `% 4294967296` at the place where the C++ code narrows.
* OpenSSL's HMAC-SHA256 is a parameter (`HmacSha256`).
* The engine object is the record `State`; every member function takes the state and
  returns the new one.  `SaveState()` writes the state file and touches no member, so a
  handler that calls it leaves the record as it is at that point.
* The state file is a `List Nat`; `SaveState` gives the bytes written, `LoadState` reads
  them through `IfStream`, and `construct` is the constructor.
* The caller process of an ioctl is a parameter (`Caller`).
-/

namespace Rpmbd

/-! ## Frame layout (`RpmbFrame.h`) -/

def RPMB_FRAME_SIZE : Nat := 512
def OFF_STUFF : Nat := 0x000
def OFF_MAC : Nat := 0x0C4
def MAC_LEN : Nat := 32
def OFF_DATA : Nat := 0x0E4
def OFF_NONCE : Nat := 0x1E4
def OFF_WCOUNTER : Nat := 0x1F4
def OFF_ADDR : Nat := 0x1F8
def OFF_BLOCK_COUNT : Nat := 0x1FA
def OFF_RESULT : Nat := 0x1FC
def OFF_REQRESP : Nat := 0x1FE

def RPMB_REQ_PROGRAM_KEY : Nat := 0x0001
def RPMB_REQ_GET_COUNTER : Nat := 0x0002
def RPMB_REQ_DATA_WRITE : Nat := 0x0003
def RPMB_REQ_DATA_READ : Nat := 0x0004
def RPMB_REQ_RESULT_READ : Nat := 0x0005

def RPMB_RESP_PROGRAM_KEY : Nat := 0x0100
def RPMB_RESP_GET_COUNTER : Nat := 0x0200
def RPMB_RESP_DATA_WRITE : Nat := 0x0300
def RPMB_RESP_DATA_READ : Nat := 0x0400
def RPMB_RESP_RESULT_READ : Nat := 0x0500

def RPMB_RES_OK : Nat := 0x0000
def RPMB_RES_GENERAL_FAIL : Nat := 0x0001
def RPMB_RES_AUTH_FAIL : Nat := 0x0002
def RPMB_RES_COUNTER_FAIL : Nat := 0x0003
def RPMB_RES_ADDR_FAIL : Nat := 0x0004
def RPMB_RES_WRITE_FAIL : Nat := 0x0005
def RPMB_RES_READ_FAIL : Nat := 0x0006
def RPMB_RES_NO_KEY : Nat := 0x0007

/-! ## Buffers -/

/-- The `n` bytes at `p + off`. -/
def readAt (p : List Nat) (off n : Nat) : List Nat :=
  (p.drop off).take n

/-- Overwrite the bytes of `buf` from offset `off` on with `src`. -/
def writeAt (buf : List Nat) (off : Nat) (src : List Nat) : List Nat :=
  buf.take off ++ src ++ buf.drop (off + src.length)

/-- The call `memcpy(dst + off, src, n)`. -/
def memcpy (dst : List Nat) (off : Nat) (src : List Nat) (n : Nat) : List Nat :=
  writeAt dst off (src.take n)

/-! ## Big-endian helpers -/

/-- The function `Rpmbd::Be16`; `p[i]` is `p.getD i 0`. -/
def Be16 (p : List Nat) : Nat :=
  ((p.getD 0 0 <<< 8) ||| p.getD 1 0) % 65536

/-- The function `Rpmbd::Be32`. -/
def Be32 (p : List Nat) : Nat :=
  ((p.getD 0 0 <<< 24) ||| (p.getD 1 0 <<< 16) ||| (p.getD 2 0 <<< 8) ||| p.getD 3 0)
    % 4294967296

/-- The two bytes that `Rpmbd::SetBe16(p, v)` stores at `p[0]`, `p[1]`. -/
def SetBe16 (v : Nat) : List Nat :=
  [(v >>> 8) &&& 0xff, v &&& 0xff]

/-- The four bytes that `Rpmbd::SetBe32(p, v)` stores at `p[0..3]`. -/
def SetBe32 (v : Nat) : List Nat :=
  [(v >>> 24) &&& 0xff, (v >>> 16) &&& 0xff, (v >>> 8) &&& 0xff, v &&& 0xff]

/-! ## HMAC-SHA256 (OpenSSL) -/

/-- OpenSSL's `HMAC(EVP_sha256(), key, 32, msg, len, out, &outLen)`: a function of the key
and the message whose output has 32 bytes. `HMAC_Init_ex`, a run of `HMAC_Update` and
`HMAC_Final` compute the same function on the concatenation of the updates. -/
structure HmacSha256 where
  hmac : List Nat → List Nat → List Nat
  hmac_length : ∀ key msg, (hmac key msg).length = 32

/-- A small keyed checksum with a 32-byte output, used to run the engine on concrete
inputs. -/
def sampleMac (key msg : List Nat) : List Nat :=
  List.replicate 32 ((key.sum + 3 * msg.sum + 7) % 256)

/-- The checksum `sampleMac` as an `HmacSha256`. -/
def sampleHmac : HmacSha256 :=
  ⟨sampleMac, fun _ _ => List.length_replicate _ _⟩

/-! ## Engine state (`Rpmbd.h`) -/

/-- The fields of `Rpmbd::Options` the engine reads (`maxBlocks` is a `uint32_t`). -/
structure Options where
  maxBlocks : Nat
  allowRekey : Bool
deriving DecidableEq, Repr

/-- The member `pendingRead_`. -/
structure PendingRead where
  valid : Bool
  addr : Nat
  nonce : List Nat
deriving DecidableEq, Repr

/-- The members of `Rpmbd`. `lastResult_` is declared but never read or written. -/
structure State where
  opt : Options
  keyProgrammed : Bool
  key : List Nat
  writeCounter : Nat
  storage : List Nat
  respQueue : List Nat
  pendingRead : PendingRead
deriving DecidableEq, Repr

/-- The method `Rpmbd::HasPendingRead`. -/
def HasPendingRead (s : State) : Bool :=
  s.pendingRead.valid

/-! ## Storage -/

/-- The method `Rpmbd::StorageAddrValid`. -/
def StorageAddrValid (s : State) (addr count : Nat) : Bool :=
  if count == 0 then false
  else
    let endAddr := (addr + count) % 4294967296
    decide (endAddr ≤ s.opt.maxBlocks)

/-- The method `Rpmbd::ReadBlock`: `none` is the return value `false`, `some out256` the
return value `true` with the block copied out. -/
def ReadBlock (s : State) (addr : Nat) : Option (List Nat) :=
  if !StorageAddrValid s addr 1 then none
  else
    let off := addr * 256
    some (readAt s.storage off 256)

/-- The method `Rpmbd::WriteBlock`; `in256` is the pointer to the block to copy in. -/
def WriteBlock (s : State) (addr : Nat) (in256 : List Nat) : State :=
  if !StorageAddrValid s addr 1 then s
  else
    let off := addr * 256
    { s with storage := memcpy s.storage off in256 256 }

/-! ## MAC -/

/-- The method `Rpmbd::ComputeMac284`. -/
def ComputeMac284 (H : HmacSha256) (s : State) (frame : List Nat) : List Nat :=
  let region := frame.drop OFF_DATA
  let regionLen := 284
  H.hmac s.key (region.take regionLen)

/-- The method `Rpmbd::VerifyMac284`. -/
def VerifyMac284 (H : HmacSha256) (s : State) (frame : List Nat) : Bool :=
  let mac := ComputeMac284 H s frame
  decide (mac.take 32 = readAt frame OFF_MAC 32)

/-- The method `Rpmbd::ComputeMac284_Multi`. -/
def ComputeMac284_Multi (H : HmacSha256) (s : State) (frames : List Nat) (blkCnt : Nat) :
    List Nat :=
  H.hmac s.key
    ((List.range blkCnt).foldl
      (fun msg i =>
        let f := frames.drop (i * 512)
        msg ++ readAt f OFF_DATA 284)
      [])

/-! ## Responses -/

/-- The local array `frame` of `Rpmbd::MakeResponse` when it is appended to the queue. -/
def MakeResponseFrame (H : HmacSha256) (s : State) (respType result writeCounter : Nat)
    (data256 : Option (List Nat)) (addr count : Nat) (nonce16 : Option (List Nat))
    (addMac : Bool) : List Nat :=
  let frame := List.replicate 512 0
  let frame := match data256 with
    | some d => memcpy frame OFF_DATA d 256
    | none => frame
  let frame := match nonce16 with
    | some n => memcpy frame OFF_NONCE n 16
    | none => frame
  let frame := writeAt frame OFF_WCOUNTER (SetBe32 writeCounter)
  let frame := writeAt frame OFF_ADDR (SetBe16 addr)
  let frame := writeAt frame OFF_BLOCK_COUNT (SetBe16 count)
  let frame := writeAt frame OFF_RESULT (SetBe16 result)
  let frame := writeAt frame OFF_REQRESP (SetBe16 respType)
  if addMac && s.keyProgrammed then
    let mac := ComputeMac284 H s frame
    memcpy frame OFF_MAC mac 32
  else frame

/-- The method `Rpmbd::MakeResponse`. -/
def MakeResponse (H : HmacSha256) (s : State) (respType result writeCounter : Nat)
    (data256 : Option (List Nat)) (addr count : Nat) (nonce16 : Option (List Nat))
    (addMac : Bool) : State :=
  { s with respQueue := s.respQueue ++
      MakeResponseFrame H s respType result writeCounter data256 addr count nonce16 addMac }

/-! ## Request handlers -/

/-- The method `Rpmbd::HandleProgramKey`. -/
def HandleProgramKey (H : HmacSha256) (s : State) (req : List Nat) : State :=
  let newKey := req.drop OFF_MAC
  if s.keyProgrammed && !s.opt.allowRekey then
    MakeResponse H s RPMB_RESP_PROGRAM_KEY RPMB_RES_GENERAL_FAIL s.writeCounter none 0 0 none
      false
  else
    let s := { s with key := newKey.take 32 }
    let s := { s with keyProgrammed := true }
    -- SaveState()
    MakeResponse H s RPMB_RESP_PROGRAM_KEY RPMB_RES_OK s.writeCounter none 0 0 none false

/-- The method `Rpmbd::HandleGetCounter`. -/
def HandleGetCounter (H : HmacSha256) (s : State) (req : List Nat) : State :=
  let nonce := req.drop OFF_NONCE
  if !s.keyProgrammed then
    MakeResponse H s RPMB_RESP_GET_COUNTER RPMB_RES_NO_KEY s.writeCounter none 0 0 (some nonce)
      false
  else
    MakeResponse H s RPMB_RESP_GET_COUNTER RPMB_RES_OK s.writeCounter none 0 0 (some nonce)
      true

/-- The method `Rpmbd::HandleDataWrite`. -/
def HandleDataWrite (H : HmacSha256) (s : State) (firstFrame allFramesBase : List Nat)
    (framesTotal : Nat) : State :=
  let addr := Be16 (firstFrame.drop OFF_ADDR)
  let blkCnt := Be16 (firstFrame.drop OFF_BLOCK_COUNT)
  let wcReq := Be32 (firstFrame.drop OFF_WCOUNTER)
  if !s.keyProgrammed then
    MakeResponse H s RPMB_RESP_DATA_WRITE RPMB_RES_NO_KEY s.writeCounter none addr blkCnt none
      false
  else if blkCnt == 0 || blkCnt != framesTotal then
    MakeResponse H s RPMB_RESP_DATA_WRITE RPMB_RES_GENERAL_FAIL s.writeCounter none addr blkCnt
      none false
  else if !StorageAddrValid s addr blkCnt then
    MakeResponse H s RPMB_RESP_DATA_WRITE RPMB_RES_ADDR_FAIL s.writeCounter none addr blkCnt
      none false
  else if (List.range framesTotal).any
      (fun i =>
        let f := allFramesBase.drop (i * 512)
        !VerifyMac284 H s f) then
    MakeResponse H s RPMB_RESP_DATA_WRITE RPMB_RES_AUTH_FAIL s.writeCounter none addr blkCnt
      none false
  else if wcReq != s.writeCounter then
    MakeResponse H s RPMB_RESP_DATA_WRITE RPMB_RES_COUNTER_FAIL s.writeCounter none addr blkCnt
      none false
  else
    let s := (List.range blkCnt).foldl
      (fun st i =>
        let f := allFramesBase.drop (i * 512)
        WriteBlock st ((addr + i) % 65536) (f.drop OFF_DATA))
      s
    let s := { s with writeCounter := (s.writeCounter + 1) % 4294967296 }
    -- SaveState()
    MakeResponse H s RPMB_RESP_DATA_WRITE RPMB_RES_OK s.writeCounter none addr blkCnt none
      false

/-- The method `Rpmbd::StartPendingRead`. -/
def StartPendingRead (s : State) (req : List Nat) : State :=
  let s := { s with respQueue := [] }
  { s with pendingRead :=
      { valid := true
        addr := Be16 (req.drop OFF_ADDR)
        nonce := (req.drop OFF_NONCE).take 16 } }

/-- One pass of the frame loop of `Rpmbd::FinalizePendingRead` on the buffer `frames`:
`none` when `ReadBlock` fails (the `READ_FAIL` return). -/
def FinalizePendingRead.fillFrame (s : State) (addr blkCnt : Nat) (nonce : List Nat)
    (frames : List Nat) (i : Nat) : Option (List Nat) :=
  let f := i * 512
  match ReadBlock s ((addr + i) % 65536) with
  | none => none
  | some data =>
    let frames := memcpy frames (f + OFF_DATA) data 256
    let frames := memcpy frames (f + OFF_NONCE) nonce 16
    let frames := writeAt frames (f + OFF_WCOUNTER) (SetBe32 s.writeCounter)
    let frames := writeAt frames (f + OFF_ADDR) (SetBe16 (addr + i))
    let frames := writeAt frames (f + OFF_BLOCK_COUNT) (SetBe16 blkCnt)
    let frames := writeAt frames (f + OFF_RESULT) (SetBe16 RPMB_RES_OK)
    let frames := writeAt frames (f + OFF_REQRESP) (SetBe16 RPMB_RESP_DATA_READ)
    some frames

/-- The frame loop of `Rpmbd::FinalizePendingRead`, for `i = 0 .. blkCnt - 1`. -/
def FinalizePendingRead.fillFrames (s : State) (addr blkCnt : Nat) (nonce : List Nat)
    (frames : List Nat) : Option (List Nat) :=
  (List.range blkCnt).foldl
    (fun acc i =>
      match acc with
      | none => none
      | some fr => FinalizePendingRead.fillFrame s addr blkCnt nonce fr i)
    (some frames)

/-- The method `Rpmbd::FinalizePendingRead` (`blkCnt` is a `uint16_t`). -/
def FinalizePendingRead (H : HmacSha256) (s : State) (blkCnt : Nat) : State :=
  if !s.pendingRead.valid then s
  else
    let s := { s with pendingRead := { s.pendingRead with valid := false } }
    let blkCnt := if blkCnt == 0 then 1 else blkCnt
    let addr := s.pendingRead.addr
    let nonce := s.pendingRead.nonce
    let s := { s with respQueue := [] }
    if !s.keyProgrammed then
      MakeResponse H s RPMB_RESP_DATA_READ RPMB_RES_NO_KEY s.writeCounter none addr blkCnt
        (some nonce) false
    else if !StorageAddrValid s addr blkCnt then
      MakeResponse H s RPMB_RESP_DATA_READ RPMB_RES_ADDR_FAIL s.writeCounter none addr blkCnt
        (some nonce) false
    else
      let frames := List.replicate (blkCnt * 512) 0
      match FinalizePendingRead.fillFrames s addr blkCnt nonce frames with
      | none =>
        MakeResponse H s RPMB_RESP_DATA_READ RPMB_RES_READ_FAIL s.writeCounter none addr blkCnt
          (some nonce) false
      | some frames =>
        let mac := ComputeMac284_Multi H s frames blkCnt
        let frames := memcpy frames ((blkCnt - 1) * 512 + OFF_MAC) mac 32
        { s with respQueue := s.respQueue ++ frames }

/-- The method `Rpmbd::HandleResultRead`. -/
def HandleResultRead (H : HmacSha256) (s : State) (_req : List Nat) : State :=
  if s.pendingRead.valid then s
  else if !s.respQueue.isEmpty then s
  else
    MakeResponse H s RPMB_RESP_RESULT_READ RPMB_RES_GENERAL_FAIL s.writeCounter none 0 0 none
      false

/-- The method `Rpmbd::ProcessRequest`. -/
def ProcessRequest (H : HmacSha256) (s : State) (frame512 allFramesBase : List Nat)
    (framesTotal : Nat) : State :=
  let reqType := Be16 (frame512.drop OFF_REQRESP)
  if reqType = RPMB_REQ_PROGRAM_KEY then
    HandleProgramKey H { s with respQueue := [] } frame512
  else if reqType = RPMB_REQ_GET_COUNTER then
    HandleGetCounter H { s with respQueue := [] } frame512
  else if reqType = RPMB_REQ_DATA_WRITE then
    HandleDataWrite H { s with respQueue := [] } frame512 allFramesBase framesTotal
  else if reqType = RPMB_REQ_DATA_READ then
    StartPendingRead { s with respQueue := [] } frame512
  else if reqType = RPMB_REQ_RESULT_READ then
    let s := if s.pendingRead.valid && s.respQueue.isEmpty then FinalizePendingRead H s 1 else s
    HandleResultRead H s frame512
  else
    MakeResponse H { s with respQueue := [] } RPMB_RESP_RESULT_READ RPMB_RES_GENERAL_FAIL
      s.writeCounter none 0 0 none false

/-- The method `Rpmbd::HandleWriteRequestFrames`; `len` is `data.length`. -/
def HandleWriteRequestFrames (H : HmacSha256) (s : State) (data : List Nat) : State :=
  let len := data.length
  if len % 512 != 0 then s
  else
    let frames := len / 512
    let reqType0 := Be16 (data.drop OFF_REQRESP)
    if reqType0 == RPMB_REQ_DATA_WRITE then
      ProcessRequest H s data data frames
    else
      (List.range frames).foldl
        (fun st i => ProcessRequest H st (data.drop (i * 512)) (data.drop (i * 512)) 1)
        s

/-- The method `Rpmbd::ReadResponseFrames`: the new state and the `len` bytes stored in
`out`. -/
def ReadResponseFrames (s : State) (len : Nat) : State × List Nat :=
  if s.respQueue.length < len then
    (s, List.replicate len 0)
  else
    ({ s with respQueue := s.respQueue.drop len }, s.respQueue.take len)

/-! ## Frame fields and specification-level functions -/

/-- Bytes 0x000..0x0C3 of a frame. -/
def frameStuff (f : List Nat) : List Nat := readAt f OFF_STUFF 196

/-- The MAC field of a frame. -/
def frameMac (f : List Nat) : List Nat := readAt f OFF_MAC 32

/-- The data field of a frame. -/
def frameData (f : List Nat) : List Nat := readAt f OFF_DATA 256

/-- The nonce field of a frame. -/
def frameNonce (f : List Nat) : List Nat := readAt f OFF_NONCE 16

/-- The write counter field of a frame, as a number. -/
def frameWCounter (f : List Nat) : Nat := Be32 (f.drop OFF_WCOUNTER)

/-- The address field of a frame, as a number. -/
def frameAddr (f : List Nat) : Nat := Be16 (f.drop OFF_ADDR)

/-- The block count field of a frame, as a number. -/
def frameBlockCount (f : List Nat) : Nat := Be16 (f.drop OFF_BLOCK_COUNT)

/-- The result field of a frame, as a number. -/
def frameResult (f : List Nat) : Nat := Be16 (f.drop OFF_RESULT)

/-- The req/resp field of a frame, as a number. -/
def frameReqResp (f : List Nat) : Nat := Be16 (f.drop OFF_REQRESP)

/-- The MAC-covered region of a frame: the 284 bytes 0x0E4..0x1FF. -/
def macRegion (f : List Nat) : List Nat := readAt f OFF_DATA 284

/-- Frame `i` of a buffer of frames. -/
def frameAt (frames : List Nat) (i : Nat) : List Nat := readAt frames (i * 512) 512

/-- Storage block `a`: the 256 bytes at offset `a * 256`. -/
def storageBlock (storage : List Nat) (a : Nat) : List Nat := readAt storage (a * 256) 256

/-- The result of a DATA_WRITE in the words of the specification: the result of the first
failing check in the order key, frame count, address range, per-frame MAC, write counter;
`OK` when none fails. -/
def specDataWriteResult (H : HmacSha256) (s : State) (firstFrame allFrames : List Nat)
    (framesTotal : Nat) : Nat :=
  if s.keyProgrammed = false then RPMB_RES_NO_KEY
  else if frameBlockCount firstFrame = 0 ∨ frameBlockCount firstFrame ≠ framesTotal then
    RPMB_RES_GENERAL_FAIL
  else if StorageAddrValid s (frameAddr firstFrame) (frameBlockCount firstFrame) = false then
    RPMB_RES_ADDR_FAIL
  else if ∃ i, i < framesTotal ∧
      frameMac (frameAt allFrames i) ≠ H.hmac s.key (macRegion (frameAt allFrames i))
    then RPMB_RES_AUTH_FAIL
  else if frameWCounter firstFrame ≠ s.writeCounter then RPMB_RES_COUNTER_FAIL
  else RPMB_RES_OK

/-- The five header stores shared by `MakeResponse` and the frame loop of
`FinalizePendingRead`, applied to the frame that starts at offset `f` of `b`. -/
def storeHeader (b : List Nat) (f wc addr cnt res typ : Nat) : List Nat :=
  writeAt (writeAt (writeAt (writeAt (writeAt b (f + OFF_WCOUNTER) (SetBe32 wc))
    (f + OFF_ADDR) (SetBe16 addr)) (f + OFF_BLOCK_COUNT) (SetBe16 cnt))
    (f + OFF_RESULT) (SetBe16 res)) (f + OFF_REQRESP) (SetBe16 typ)

/-- The frame of `MakeResponse` before the header stores: zeros with the nonce copied in. -/
def nonceFrame (nonce16 : Option (List Nat)) : List Nat :=
  match nonce16 with
  | some n => memcpy (List.replicate 512 0) OFF_NONCE n 16
  | none => List.replicate 512 0

/-- The nonce field `MakeResponse` stores for the argument `nonce16`. -/
def nonceField (nonce16 : Option (List Nat)) : List Nat :=
  match nonce16 with
  | some n => n.take 16
  | none => List.replicate 16 0

/-- The state after the block loop of `HandleDataWrite`: frame `i` of `allFrames` is
written with `WriteBlock` at the 16-bit address `addr + i`. -/
def writtenStorage (s : State) (allFrames : List Nat) (addr blkCnt : Nat) : State :=
  (List.range blkCnt).foldl
    (fun st i => WriteBlock st ((addr + i) % 65536) ((allFrames.drop (i * 512)).drop OFF_DATA)) s

/-- The response frame `HandleDataWrite` appends to the queue. -/
def dataWriteResponse (H : HmacSha256) (s : State) (firstFrame allFrames : List Nat)
    (framesTotal : Nat) : List Nat :=
  (HandleDataWrite H s firstFrame allFrames framesTotal).respQueue.drop s.respQueue.length

/-! ## Engine operations -/

/-- One call of the transport into the engine. -/
inductive Op where
  | writeRequest (data : List Nat)
  | finalizeRead (blkCnt : Nat)
  | readResponse (len : Nat)

/-- The state after one engine operation: `HandleWriteRequestFrames(data, len)`,
`FinalizePendingRead(blkCnt)` or `ReadResponseFrames(out, len)`. -/
def step (H : HmacSha256) (s : State) : Op → State
  | .writeRequest data => HandleWriteRequestFrames H s data
  | .finalizeRead blkCnt => FinalizePendingRead H s blkCnt
  | .readResponse len => (ReadResponseFrames s len).1

/-- The state after a sequence of engine operations. -/
def run (H : HmacSha256) (s : State) (ops : List Op) : State :=
  ops.foldl (step H) s

/-! ## Concrete frames and states -/

/-- A 512-byte frame from its fields. -/
def mkFrame (mac data nonce : List Nat) (wc addr cnt res typ : Nat) : List Nat :=
  List.replicate 196 0 ++ mac ++ data ++ nonce ++ SetBe32 wc ++ SetBe16 addr ++ SetBe16 cnt ++
    SetBe16 res ++ SetBe16 typ

/-- The frame `f` with its MAC field set to the MAC of its 284-byte region under `key`. -/
def signFrame (H : HmacSha256) (key f : List Nat) : List Nat :=
  writeAt f OFF_MAC (H.hmac key (macRegion f))

/-- A 32-byte key. -/
def exKey : List Nat := List.range 32

/-- An engine with 4 blocks of zeros, the key `exKey` programmed and counter 0. -/
def exState : State :=
  { opt := { maxBlocks := 4, allowRekey := false }
    keyProgrammed := true
    key := exKey
    writeCounter := 0
    storage := List.replicate 1024 0
    respQueue := []
    pendingRead := { valid := false, addr := 0, nonce := List.replicate 16 0 } }

/-- An engine with 4 blocks of zeros and no key. -/
def exFresh : State :=
  { exState with keyProgrammed := false, key := List.replicate 32 0 }

/-- A signed DATA_WRITE of one block of `0xAB` at address 1 with write counter `wc`. -/
def exWriteFrame (wc : Nat) : List Nat :=
  signFrame sampleHmac exKey
    (mkFrame (List.replicate 32 0) (List.replicate 256 0xAB) (List.replicate 16 0) wc 1 1 0
      RPMB_REQ_DATA_WRITE)

/-- The frame `exWriteFrame 0` with the lowest bit of its first data byte flipped and the
MAC left as it was. -/
def exTamperedFrame : List Nat :=
  writeAt (exWriteFrame 0) OFF_DATA [0xAA]

/-- A request frame of type `typ` with address `addr`, nonce `0x41..0x50` and zeros
elsewhere. -/
def exRequest (typ addr : Nat) : List Nat :=
  mkFrame (List.replicate 32 0) (List.replicate 256 0)
    [0x41, 0x42, 0x43, 0x44, 0x45, 0x46, 0x47, 0x48, 0x49, 0x4A, 0x4B, 0x4C, 0x4D, 0x4E, 0x4F,
      0x50] 0 addr 0 0 typ

/-- An engine with 65537 blocks of zeros, the key `exKey` programmed and counter 0. -/
def exWideState : State :=
  { exState with
    opt := { maxBlocks := 65537, allowRekey := false }
    storage := List.replicate (65537 * 256) 0 }

/-- A signed frame of a two-block DATA_WRITE at address 65535 whose data bytes are all
`fill`. -/
def exWrapFrame (fill : Nat) : List Nat :=
  signFrame sampleHmac exKey
    (mkFrame (List.replicate 32 0) (List.replicate 256 fill) (List.replicate 16 0) 0 65535 2 0
      RPMB_REQ_DATA_WRITE)

/-- A two-block DATA_WRITE at address 65535: data `0x11..` then data `0x22..`. -/
def exWrapBatch : List Nat :=
  exWrapFrame 0x11 ++ exWrapFrame 0x22

/-- The number of request frames an operation hands to the dispatcher. -/
def opFrames : Op → Nat
  | .writeRequest data => data.length / 512
  | .finalizeRead _ => 0
  | .readResponse _ => 0

/-- The engine `exState` with the write counter at `0xFFFFFFFF`. -/
def exMaxCounterState : State :=
  { exState with writeCounter := 4294967295 }

/-- Frame `i` of the buffer `fr` carries zero stuff, the data block `data`, the nonce
`nonce`, the counter `wc`, the address `addr`, the block count `cnt`, result `OK` and
req/resp `0x0400`: every field of a DATA_READ response frame but the MAC. -/
def IsReadFrame (fr : List Nat) (i : Nat) (data nonce : List Nat) (wc addr cnt : Nat) : Prop :=
  readAt fr (i * 512 + OFF_STUFF) 196 = List.replicate 196 0 ∧
  readAt fr (i * 512 + OFF_DATA) 256 = data ∧
  (16 ≤ nonce.length → readAt fr (i * 512 + OFF_NONCE) 16 = nonce.take 16) ∧
  readAt fr (i * 512 + OFF_WCOUNTER) 4 = SetBe32 wc ∧
  readAt fr (i * 512 + OFF_ADDR) 2 = SetBe16 addr ∧
  readAt fr (i * 512 + OFF_BLOCK_COUNT) 2 = SetBe16 cnt ∧
  readAt fr (i * 512 + OFF_RESULT) 2 = SetBe16 RPMB_RES_OK ∧
  readAt fr (i * 512 + OFF_REQRESP) 2 = SetBe16 RPMB_RESP_DATA_READ

/-- The bytes the transport reads back after a write batch `wdata`, a DATA_READ request
`rreq`, `FinalizePendingRead(blkCnt)` and `ReadResponseFrames(blkCnt * 512)`. -/
def readBack (H : HmacSha256) (s : State) (wdata rreq : List Nat) (blkCnt : Nat) : List Nat :=
  let s1 := HandleWriteRequestFrames H s wdata
  let s2 := HandleWriteRequestFrames H s1 rreq
  let s3 := FinalizePendingRead H s2 blkCnt
  (ReadResponseFrames s3 (blkCnt * 512)).2

/-- The engine `exState` after a DATA_READ request for address 1: the read is latched and
the queue is empty. -/
def exPending : State :=
  HandleWriteRequestFrames sampleHmac exState (exRequest 4 1)

/-- The engine `exState` with the write counter at 7. -/
def exCounter7 : State :=
  { exState with writeCounter := 7 }

/-- An engine with 65537 blocks, zeros everywhere but in the last block (block 65536, all
ones), the key `exKey` programmed, and a read pending for address 65535. -/
def exWideRead : State :=
  { exWideState with
    storage := List.replicate (65536 * 256) 0 ++ List.replicate 256 1
    pendingRead := { valid := true, addr := 65535, nonce := List.replicate 16 0 } }

/-- The bytes a transport read of `n` blocks returns: `FinalizePendingRead(n)` when a read
is pending, then `ReadResponseFrames(n * 512)`. -/
def finalizeAndRead (H : HmacSha256) (s : State) (n : Nat) : List Nat :=
  let s := if HasPendingRead s then FinalizePendingRead H s n else s
  (ReadResponseFrames s (n * 512)).2

/-- The engine `exFresh` (no key) after a DATA_READ request for address 0. -/
def exFreshPending : State :=
  HandleWriteRequestFrames sampleHmac exFresh (exRequest 4 0)

/-! ## State file (`LoadState`, `SaveState`, constructor) -/

/-- A `std::ifstream` on the state file: the bytes not read yet and the fail state. -/
structure IfStream where
  rest : List Nat
  failed : Bool
deriving DecidableEq, Repr

/-- The call `f.read(buf, n)` on a buffer whose content is `buf`: the buffer afterwards and
the stream afterwards. A stream in the fail state stores nothing; a stream holding fewer
than `n` bytes stores what it has and enters the fail state. -/
def IfStream.read (f : IfStream) (buf : List Nat) (n : Nat) : List Nat × IfStream :=
  if f.failed then (buf, f)
  else if n ≤ f.rest.length then
    (writeAt buf 0 (f.rest.take n), { rest := f.rest.drop n, failed := false })
  else
    (writeAt buf 0 f.rest, { rest := [], failed := true })

/-- The four bytes of a `uint32_t` in memory (little-endian host). -/
def hostBytes32 (v : Nat) : List Nat :=
  [v % 256, v / 256 % 256, v / 65536 % 256, v / 16777216 % 256]

/-- The `uint32_t` whose four bytes in memory are `b` (little-endian host). -/
def hostValue32 (b : List Nat) : Nat :=
  (b.getD 0 0 + 256 * b.getD 1 0 + 65536 * b.getD 2 0 + 16777216 * b.getD 3 0) % 4294967296

/-- The array `char magic[8] = "RPMBDv1"`. -/
def magicBytes : List Nat :=
  [0x52, 0x50, 0x4D, 0x42, 0x44, 0x76, 0x31, 0x00]

/-- The call `storage_.resize(n)`: cut to `n` bytes or extend with zeros. -/
def resize (v : List Nat) (n : Nat) : List Nat :=
  v.take n ++ List.replicate (n - v.length) 0

/-- The method `Rpmbd::LoadState`. `file` is the content of the state file, `none` when it
cannot be opened; `junk` is the content of the uninitialised array `magic` before the
read. -/
def LoadState (s : State) (file : Option (List Nat)) (junk : List Nat) : State :=
  match file with
  | none => s
  | some bytes =>
    let f : IfStream := { rest := bytes, failed := false }
    let r := f.read junk 8
    let magic := r.1
    let f := r.2
    if readAt magic 0 7 ≠ readAt magicBytes 0 7 then s
    else
      let r := f.read [0] 1
      let kp := r.1.getD 0 0
      let f := r.2
      let s := { s with keyProgrammed := (kp != 0) }
      let r := f.read s.key 32
      let s := { s with key := r.1 }
      let f := r.2
      let r := f.read (hostBytes32 s.writeCounter) 4
      let s := { s with writeCounter := hostValue32 r.1 }
      let f := r.2
      let r := f.read (hostBytes32 0) 4
      let maxBlocks := hostValue32 r.1
      let f := r.2
      if maxBlocks != s.opt.maxBlocks then
        { s with storage := List.replicate ((s.opt.maxBlocks * 256) % 4294967296) 0 }
      else
        let st := resize s.storage ((s.opt.maxBlocks * 256) % 4294967296)
        let r := f.read st st.length
        { s with storage := r.1 }

/-- The bytes `Rpmbd::SaveState` writes to the state file when the file opens. -/
def SaveState (s : State) : List Nat :=
  magicBytes ++ ([if s.keyProgrammed then 1 else 0] ++ (readAt s.key 0 32 ++
    (hostBytes32 s.writeCounter ++ (hostBytes32 s.opt.maxBlocks ++ s.storage))))

/-- The members of a new `Rpmbd` before `LoadState()`: the default member initialisers and
`storage_.resize(opt_.maxBlocks * 256, 0)`, a 32-bit product. -/
def initState (opt : Options) : State :=
  { opt := opt
    keyProgrammed := false
    key := List.replicate 32 0
    writeCounter := 0
    storage := List.replicate ((opt.maxBlocks * 256) % 4294967296) 0
    respQueue := []
    pendingRead := { valid := false, addr := 0, nonce := List.replicate 16 0 } }

/-- The constructor `Rpmbd::Rpmbd(opt)`. -/
def construct (opt : Options) (file : Option (List Nat)) (junk : List Nat) : State :=
  LoadState (initState opt) file junk

/-! ## Transport (`RpmbCuseDevice.cpp`) -/

/-- The fields of `struct mmc_ioc_cmd` (`linux/mmc/ioctl.h`) that `cb_ioctl` reads: `opcode`,
`blocks` and `blksz` are 32-bit, `data_ptr` is 64-bit. -/
structure mmc_ioc_cmd where
  opcode : Nat
  blocks : Nat
  blksz : Nat
  data_ptr : Nat
deriving DecidableEq, Repr

/-- The caller process as `cb_ioctl` reaches it through `process_vm_readv` and
`process_vm_writev`; `M` is the memory of the caller.

* `read m ptr len` is `ReadFromPid(pid, ptr, buf, len)`: the `len` bytes, `none` when the
  call returns `false`.
* `write m ptr bytes` is `WriteToPid(pid, ptr, bytes, len)`: the memory afterwards and the
  return value.
* `header m arg` is the first read of `cb_ioctl` (the `mmc_ioc_multi_cmd` header at `arg`)
  decoded: `hdr.num_of_cmds`.
* `cmdlist m arg n` is the second read decoded: the commands `full->cmds[0 .. n)`, with
  `full->num_of_cmds` still equal to `n`. -/
structure Caller (M : Type) where
  read : M → Nat → Nat → Option (List Nat)
  write : M → Nat → List Nat → M × Bool
  header : M → Nat → Option Nat
  cmdlist : M → Nat → Nat → Option (List mmc_ioc_cmd)
  read_length : ∀ m ptr len bytes, read m ptr len = some bytes → bytes.length = len

/-- The errno values `cb_ioctl` replies with. -/
def EINVAL : Nat := 22
def EIO : Nat := 5

/-- What `cb_ioctl` answers: `fuse_reply_ioctl(req, 0, nullptr, 0)` or
`fuse_reply_err(req, errno)`. -/
inductive Reply where
  | ok
  | err (errno : Nat)
deriving DecidableEq, Repr

/-- The function `Impl::CmdDataLen` (a product of two 32-bit values in `size_t`). -/
def CmdDataLen (c : mmc_ioc_cmd) : Nat :=
  (c.blocks * c.blksz) % 18446744073709551616

/-- One pass of the command loop of `cb_ioctl` on the command `c`: the core, the caller
memory, and `some errno` when the pass replies with an error and returns. The debug
decoding of the CMD25 payload has no effect and is left out. -/
def cb_ioctl.exec {M : Type} (C : Caller M) (H : HmacSha256) (core : State) (mem : M)
    (c : mmc_ioc_cmd) : State × M × Option Nat :=
  let dlen := CmdDataLen c
  if c.opcode = 23 then (core, mem, none)
  else if c.opcode = 25 then
    if dlen = 0 ∨ c.data_ptr = 0 then (core, mem, some EIO)
    else
      match C.read mem c.data_ptr dlen with
      | none => (core, mem, some EIO)
      | some payload => (HandleWriteRequestFrames H core payload, mem, none)
  else if c.opcode = 18 then
    if dlen = 0 ∨ c.data_ptr = 0 then (core, mem, some EIO)
    else
      let blkCnt := c.blocks % 65536
      let blkCnt := if blkCnt = 0 then (dlen / 512) % 65536 else blkCnt
      let blkCnt := if blkCnt = 0 then 1 else blkCnt
      let core := if HasPendingRead core then FinalizePendingRead H core blkCnt else core
      let r := ReadResponseFrames core dlen
      let w := C.write mem c.data_ptr r.2
      if !w.2 then (r.1, w.1, some EIO)
      else (r.1, w.1, none)
  else if c.opcode = 12 then (core, mem, none)
  else (core, mem, some EIO)

/-- The command loop of `cb_ioctl` over the commands `cmds`, stopping at the first pass
that replies with an error. -/
def cb_ioctl.loop {M : Type} (C : Caller M) (H : HmacSha256) (core : State) (mem : M) :
    List mmc_ioc_cmd → State × M × Option Nat
  | [] => (core, mem, none)
  | c :: cs =>
    match cb_ioctl.exec C H core mem c with
    | (core, mem, some e) => (core, mem, some e)
    | (core, mem, none) => cb_ioctl.loop C H core mem cs

/-- The callback `Impl::cb_ioctl` on the engine `core` (the `core_` of the `Impl` in the
request's userdata), for the ioctl argument pointer `arg` (0 is the null pointer) of the
caller process `pid` with memory `mem`: the core and the caller memory afterwards, and the
reply. `Run` always registers the `Impl` as userdata, so the check for a missing userdata is
left out. -/
def cb_ioctl {M : Type} (C : Caller M) (H : HmacSha256) (core : State) (mem : M) (arg : Nat)
    (pid : Int) : State × M × Reply :=
  if arg = 0 ∨ pid ≤ 0 then (core, mem, Reply.err EINVAL)
  else
    match C.header mem arg with
    | none => (core, mem, Reply.err EIO)
    | some num_of_cmds =>
      if num_of_cmds = 0 ∨ num_of_cmds > 16 then (core, mem, Reply.err EINVAL)
      else
        match C.cmdlist mem arg num_of_cmds with
        | none => (core, mem, Reply.err EIO)
        | some cmds =>
          match cb_ioctl.loop C H core mem cmds with
          | (core, mem, some e) => (core, mem, Reply.err e)
          | (core, mem, none) => (core, mem, Reply.ok)

/-- The memory of a sample caller: the multi-command stored at the ioctl argument and a
flat memory `ram` whose first byte has address 0. -/
structure exCallerMem where
  cmds : List mmc_ioc_cmd
  ram : List Nat
deriving DecidableEq, Repr

/-- A sample caller: reads and writes succeed inside `ram` and fail outside. -/
def sampleCaller : Caller exCallerMem :=
  { read := fun m ptr len => if ptr + len ≤ m.ram.length then some (readAt m.ram ptr len) else none
    write := fun m ptr bytes =>
      if ptr + bytes.length ≤ m.ram.length then ({ m with ram := writeAt m.ram ptr bytes }, true)
      else (m, false)
    header := fun m _ => some m.cmds.length
    cmdlist := fun m _ n => some (m.cmds.take n)
    read_length := by
      intro m ptr len bytes h
      dsimp only at h
      split at h
      · cases h
        simp only [readAt, List.length_take, List.length_drop]
        omega
      · cases h }

/-- A caller whose memory holds the PROGRAM_KEY request `exRequest 1 0` at address 8 and
whose ioctl is a CMD25 on that frame followed by a command with opcode 99. -/
def exWriteThenBadOpcode : exCallerMem :=
  { cmds := [{ opcode := 25, blocks := 1, blksz := 512, data_ptr := 8 },
      { opcode := 99, blocks := 0, blksz := 0, data_ptr := 0 }]
    ram := List.replicate 8 0 ++ exRequest 1 0 }

/-- A caller with 16 bytes of memory whose ioctl is a CMD18 of one block into address
4096. -/
def exReadIntoUnmapped : exCallerMem :=
  { cmds := [{ opcode := 18, blocks := 1, blksz := 512, data_ptr := 4096 }]
    ram := List.replicate 16 0 }

/-! ## Buffer and big-endian lemmas -/

theorem length_readAt (p : List Nat) (off n : Nat) (h : off + n ≤ p.length) :
    (readAt p off n).length = n := by
  simp [readAt]; omega

theorem length_writeAt (buf : List Nat) (off : Nat) (src : List Nat)
    (h : off + src.length ≤ buf.length) : (writeAt buf off src).length = buf.length := by
  simp [writeAt]; omega

theorem readAt_writeAt_same (buf : List Nat) (off : Nat) (src : List Nat)
    (h : off + src.length ≤ buf.length) :
    readAt (writeAt buf off src) off src.length = src := by
  have h1 : (buf.take off).length = off := by simp; omega
  simp only [readAt, writeAt, List.append_assoc]
  rw [List.drop_left' h1, List.take_left]

theorem readAt_writeAt_before (buf : List Nat) (off : Nat) (src : List Nat) (o n : Nat)
    (h : o + n ≤ off) (hb : off ≤ buf.length) :
    readAt (writeAt buf off src) o n = readAt buf o n := by
  apply List.ext_getElem?
  intro i
  simp only [readAt, writeAt, List.getElem?_take, List.getElem?_drop, List.getElem?_append,
    List.length_take, List.append_assoc]
  by_cases hi : i < n
  · simp only [hi, if_true]
    rw [if_pos (by omega), if_pos (by omega)]
  · simp [hi]

theorem readAt_writeAt_after (buf : List Nat) (off : Nat) (src : List Nat) (o n : Nat)
    (h : off + src.length ≤ o) (hb : off + src.length ≤ buf.length) :
    readAt (writeAt buf off src) o n = readAt buf o n := by
  apply List.ext_getElem?
  intro i
  simp only [readAt, writeAt, List.getElem?_take, List.getElem?_drop, List.getElem?_append,
    List.length_take, List.append_assoc]
  by_cases hi : i < n
  · simp only [hi, if_true]
    rw [if_neg (by omega), if_neg (by omega)]
    congr 1
    omega
  · simp [hi]

theorem and_255 (x : Nat) : x &&& 0xff = x % 256 :=
  Nat.and_pow_two_sub_one_eq_mod x 8

theorem Be16_SetBe16 (v : Nat) (rest : List Nat) : Be16 (SetBe16 v ++ rest) = v % 65536 := by
  simp only [Be16, SetBe16, List.cons_append, List.nil_append, List.getD_cons_zero,
    List.getD_cons_succ, and_255, Nat.shiftLeft_eq, Nat.shiftRight_eq_div_pow]
  have h := Nat.mul_add_lt_is_or (Nat.mod_lt v (by decide : 0 < 2 ^ 8)) (v / 2 ^ 8 % 256)
  rw [Nat.mul_comm] at h
  norm_num at h ⊢
  rw [← h]
  omega

theorem Be32_SetBe32 (v : Nat) (rest : List Nat) :
    Be32 (SetBe32 v ++ rest) = v % 4294967296 := by
  simp only [Be32, SetBe32, List.cons_append, List.nil_append, List.getD_cons_zero,
    List.getD_cons_succ, and_255, Nat.shiftLeft_eq, Nat.shiftRight_eq_div_pow]
  have h1 := Nat.mul_add_lt_is_or (i := 24) (b := v / 2 ^ 16 % 256 * 2 ^ 16) (by omega)
    (v / 2 ^ 24 % 256)
  have h2 := Nat.mul_add_lt_is_or (i := 16) (b := v / 2 ^ 8 % 256 * 2 ^ 8) (by omega)
    (2 ^ 8 * (v / 2 ^ 24 % 256) + v / 2 ^ 16 % 256)
  have h3 := Nat.mul_add_lt_is_or (i := 8) (b := v % 256) (by omega)
    (2 ^ 16 * (v / 2 ^ 24 % 256) + 2 ^ 8 * (v / 2 ^ 16 % 256) + v / 2 ^ 8 % 256)
  have e1 : v / 2 ^ 24 % 256 * 2 ^ 24 = 2 ^ 24 * (v / 2 ^ 24 % 256) := Nat.mul_comm _ _
  rw [e1, ← h1]
  have e2 : 2 ^ 24 * (v / 2 ^ 24 % 256) + v / 2 ^ 16 % 256 * 2 ^ 16
      = 2 ^ 16 * (2 ^ 8 * (v / 2 ^ 24 % 256) + v / 2 ^ 16 % 256) := by omega
  rw [e2, ← h2]
  have e3 : 2 ^ 16 * (2 ^ 8 * (v / 2 ^ 24 % 256) + v / 2 ^ 16 % 256) + v / 2 ^ 8 % 256 * 2 ^ 8
      = 2 ^ 8 * (2 ^ 16 * (v / 2 ^ 24 % 256) + 2 ^ 8 * (v / 2 ^ 16 % 256) + v / 2 ^ 8 % 256) := by
    omega
  rw [e3, ← h3]
  omega

theorem length_SetBe16 (v : Nat) : (SetBe16 v).length = 2 := rfl

theorem length_SetBe32 (v : Nat) : (SetBe32 v).length = 4 := rfl

theorem Be16_drop_of_readAt (f : List Nat) (off v : Nat) (h : readAt f off 2 = SetBe16 v) :
    Be16 (f.drop off) = v % 65536 := by
  have e : f.drop off = SetBe16 v ++ (f.drop off).drop 2 := by
    rw [← h, readAt, List.take_append_drop]
  rw [e, Be16_SetBe16]

theorem Be32_drop_of_readAt (f : List Nat) (off v : Nat) (h : readAt f off 4 = SetBe32 v) :
    Be32 (f.drop off) = v % 4294967296 := by
  have e : f.drop off = SetBe32 v ++ (f.drop off).drop 4 := by
    rw [← h, readAt, List.take_append_drop]
  rw [e, Be32_SetBe32]

theorem readAt_writeAt_eq (buf : List Nat) (off : Nat) (src : List Nat) (n : Nat)
    (hn : src.length = n) (h : off + n ≤ buf.length) :
    readAt (writeAt buf off src) off n = src := by
  subst hn
  exact readAt_writeAt_same buf off src h

theorem readAt_replicate (m off n : Nat) (h : off + n ≤ m) :
    readAt (List.replicate m 0) off n = List.replicate n 0 := by
  simp only [readAt, List.drop_replicate, List.take_replicate]
  congr 1
  omega

theorem storeHeader_spec (b : List Nat) (f wc addr cnt res typ : Nat)
    (hb : f + 512 ≤ b.length) :
    (storeHeader b f wc addr cnt res typ).length = b.length ∧
    readAt (storeHeader b f wc addr cnt res typ) (f + OFF_WCOUNTER) 4 = SetBe32 wc ∧
    readAt (storeHeader b f wc addr cnt res typ) (f + OFF_ADDR) 2 = SetBe16 addr ∧
    readAt (storeHeader b f wc addr cnt res typ) (f + OFF_BLOCK_COUNT) 2 = SetBe16 cnt ∧
    readAt (storeHeader b f wc addr cnt res typ) (f + OFF_RESULT) 2 = SetBe16 res ∧
    readAt (storeHeader b f wc addr cnt res typ) (f + OFF_REQRESP) 2 = SetBe16 typ ∧
    ∀ o n, (o + n ≤ f + OFF_WCOUNTER ∨ f + 512 ≤ o) →
      readAt (storeHeader b f wc addr cnt res typ) o n = readAt b o n := by
  simp only [storeHeader, OFF_WCOUNTER, OFF_ADDR, OFF_BLOCK_COUNT, OFF_RESULT, OFF_REQRESP]
  have l1 : (writeAt b (f + 0x1F4) (SetBe32 wc)).length = b.length :=
    length_writeAt _ _ _ (by rw [length_SetBe32]; omega)
  have l2 : (writeAt (writeAt b (f + 0x1F4) (SetBe32 wc)) (f + 0x1F8) (SetBe16 addr)).length
      = b.length := by
    rw [length_writeAt _ _ _ (by rw [length_SetBe16, l1]; omega), l1]
  have l3 : (writeAt (writeAt (writeAt b (f + 0x1F4) (SetBe32 wc)) (f + 0x1F8) (SetBe16 addr))
      (f + 0x1FA) (SetBe16 cnt)).length = b.length := by
    rw [length_writeAt _ _ _ (by rw [length_SetBe16, l2]; omega), l2]
  have l4 : (writeAt (writeAt (writeAt (writeAt b (f + 0x1F4) (SetBe32 wc)) (f + 0x1F8)
      (SetBe16 addr)) (f + 0x1FA) (SetBe16 cnt)) (f + 0x1FC) (SetBe16 res)).length
      = b.length := by
    rw [length_writeAt _ _ _ (by rw [length_SetBe16, l3]; omega), l3]
  refine ⟨?_, ?_, ?_, ?_, ?_, ?_, ?_⟩
  · rw [length_writeAt _ _ _ (by rw [length_SetBe16, l4]; omega), l4]
  · rw [readAt_writeAt_before _ _ _ _ _ (by omega) (by omega),
      readAt_writeAt_before _ _ _ _ _ (by omega) (by omega),
      readAt_writeAt_before _ _ _ _ _ (by omega) (by omega),
      readAt_writeAt_before _ _ _ _ _ (by omega) (by omega)]
    exact readAt_writeAt_eq _ _ _ _ rfl (by omega)
  · rw [readAt_writeAt_before _ _ _ _ _ (by omega) (by omega),
      readAt_writeAt_before _ _ _ _ _ (by omega) (by omega),
      readAt_writeAt_before _ _ _ _ _ (by omega) (by omega)]
    exact readAt_writeAt_eq _ _ _ _ rfl (by omega)
  · rw [readAt_writeAt_before _ _ _ _ _ (by omega) (by omega),
      readAt_writeAt_before _ _ _ _ _ (by omega) (by omega)]
    exact readAt_writeAt_eq _ _ _ _ rfl (by omega)
  · rw [readAt_writeAt_before _ _ _ _ _ (by omega) (by omega)]
    exact readAt_writeAt_eq _ _ _ _ rfl (by omega)
  · exact readAt_writeAt_eq _ _ _ _ rfl (by omega)
  · intro o n h
    rcases h with h | h
    · rw [readAt_writeAt_before _ _ _ _ _ (by omega) (by omega),
        readAt_writeAt_before _ _ _ _ _ (by omega) (by omega),
        readAt_writeAt_before _ _ _ _ _ (by omega) (by omega),
        readAt_writeAt_before _ _ _ _ _ (by omega) (by omega),
        readAt_writeAt_before _ _ _ _ _ (by omega) (by omega)]
    · rw [readAt_writeAt_after _ _ _ _ _ (by rw [length_SetBe16]; omega)
          (by rw [length_SetBe16]; omega),
        readAt_writeAt_after _ _ _ _ _ (by rw [length_SetBe16]; omega)
          (by rw [length_SetBe16]; omega),
        readAt_writeAt_after _ _ _ _ _ (by rw [length_SetBe16]; omega)
          (by rw [length_SetBe16]; omega),
        readAt_writeAt_after _ _ _ _ _ (by rw [length_SetBe16]; omega)
          (by rw [length_SetBe16]; omega),
        readAt_writeAt_after _ _ _ _ _ (by rw [length_SetBe32]; omega)
          (by rw [length_SetBe32]; omega)]

theorem MakeResponseFrame_eq (H : HmacSha256) (s : State) (typ res wc addr cnt : Nat)
    (nonce16 : Option (List Nat)) (addMac : Bool) :
    MakeResponseFrame H s typ res wc none addr cnt nonce16 addMac =
      if addMac && s.keyProgrammed then
        memcpy (storeHeader (nonceFrame nonce16) 0 wc addr cnt res typ) OFF_MAC
          (ComputeMac284 H s (storeHeader (nonceFrame nonce16) 0 wc addr cnt res typ)) 32
      else storeHeader (nonceFrame nonce16) 0 wc addr cnt res typ := by
  cases nonce16 <;> rfl

theorem nonceFrame_spec (nonce16 : Option (List Nat)) :
    (nonceFrame nonce16).length = 512 ∧
    (∀ o n, o + n ≤ OFF_NONCE → readAt (nonceFrame nonce16) o n = List.replicate n 0) ∧
    (∀ x, nonce16 = some x → 16 ≤ x.length → readAt (nonceFrame nonce16) OFF_NONCE 16 = x.take 16) ∧
    (nonce16 = none → readAt (nonceFrame nonce16) OFF_NONCE 16 = List.replicate 16 0) := by
  cases nonce16 with
  | none =>
    refine ⟨List.length_replicate _ _, ?_, ?_, ?_⟩
    · intro o n h
      simp only [OFF_NONCE] at h
      exact readAt_replicate 512 o n (by omega)
    · intro x hx; cases hx
    · intro _
      exact readAt_replicate 512 _ 16 (by decide)
  | some x =>
    have hl : (x.take 16).length ≤ 16 := List.length_take_le _ _
    have hb : OFF_NONCE + (x.take 16).length ≤ (List.replicate 512 0).length := by
      rw [List.length_replicate]
      simp only [OFF_NONCE]
      omega
    refine ⟨?_, ?_, ?_, ?_⟩
    · simp only [nonceFrame, memcpy]
      rw [length_writeAt _ _ _ hb, List.length_replicate]
    · intro o n h
      simp only [nonceFrame, memcpy]
      rw [readAt_writeAt_before _ _ _ _ _ h (by rw [List.length_replicate]; decide)]
      simp only [OFF_NONCE] at h
      exact readAt_replicate 512 o n (by omega)
    · intro y hy hlen
      cases hy
      simp only [nonceFrame, memcpy]
      exact readAt_writeAt_eq _ _ _ _ (by rw [List.length_take]; omega)
        (by rw [List.length_replicate]; decide)
    · intro h; cases h

theorem MakeResponseFrame_spec (H : HmacSha256) (s : State) (typ res wc addr cnt : Nat)
    (nonce16 : Option (List Nat)) (addMac : Bool) :
    (MakeResponseFrame H s typ res wc none addr cnt nonce16 addMac).length = 512 ∧
    readAt (MakeResponseFrame H s typ res wc none addr cnt nonce16 addMac) OFF_STUFF 196
      = List.replicate 196 0 ∧
    readAt (MakeResponseFrame H s typ res wc none addr cnt nonce16 addMac) OFF_MAC 32
      = (if addMac && s.keyProgrammed then
          H.hmac s.key
            (readAt (MakeResponseFrame H s typ res wc none addr cnt nonce16 addMac) OFF_DATA 284)
         else List.replicate 32 0) ∧
    readAt (MakeResponseFrame H s typ res wc none addr cnt nonce16 addMac) OFF_DATA 256
      = List.replicate 256 0 ∧
    ((∀ x, nonce16 = some x → 16 ≤ x.length) →
      readAt (MakeResponseFrame H s typ res wc none addr cnt nonce16 addMac) OFF_NONCE 16
        = nonceField nonce16) ∧
    readAt (MakeResponseFrame H s typ res wc none addr cnt nonce16 addMac) OFF_WCOUNTER 4
      = SetBe32 wc ∧
    readAt (MakeResponseFrame H s typ res wc none addr cnt nonce16 addMac) OFF_ADDR 2
      = SetBe16 addr ∧
    readAt (MakeResponseFrame H s typ res wc none addr cnt nonce16 addMac) OFF_BLOCK_COUNT 2
      = SetBe16 cnt ∧
    readAt (MakeResponseFrame H s typ res wc none addr cnt nonce16 addMac) OFF_RESULT 2
      = SetBe16 res ∧
    readAt (MakeResponseFrame H s typ res wc none addr cnt nonce16 addMac) OFF_REQRESP 2
      = SetBe16 typ := by
  obtain ⟨nl, nz, nsome, nnone⟩ := nonceFrame_spec nonce16
  obtain ⟨gl, gwc, gaddr, gcnt, gres, gtyp, grest⟩ :=
    storeHeader_spec (nonceFrame nonce16) 0 wc addr cnt res typ (by omega)
  simp only [Nat.zero_add] at gwc gaddr gcnt gres gtyp grest
  have gnonce : (∀ x, nonce16 = some x → 16 ≤ x.length) →
      readAt (storeHeader (nonceFrame nonce16) 0 wc addr cnt res typ) OFF_NONCE 16
      = nonceField nonce16 := by
    intro hn
    rw [grest _ _ (Or.inl (by decide))]
    cases nonce16 with
    | none => exact nnone rfl
    | some x => exact nsome x rfl (hn x rfl)
  rw [MakeResponseFrame_eq]
  by_cases hm : (addMac && s.keyProgrammed) = true
  · rw [if_pos hm, if_pos hm]
    simp only [memcpy, ComputeMac284]
    have hlen : ((H.hmac s.key
        (List.take 284 (List.drop OFF_DATA
          (storeHeader (nonceFrame nonce16) 0 wc addr cnt res typ)))).take 32).length = 32 := by
      rw [List.length_take, H.hmac_length]; rfl
    have hb : OFF_MAC + ((H.hmac s.key
        (List.take 284 (List.drop OFF_DATA
          (storeHeader (nonceFrame nonce16) 0 wc addr cnt res typ)))).take 32).length
        ≤ (storeHeader (nonceFrame nonce16) 0 wc addr cnt res typ).length := by
      rw [hlen, gl, nl]; decide
    have after : ∀ o n, OFF_DATA ≤ o → readAt (writeAt
        (storeHeader (nonceFrame nonce16) 0 wc addr cnt res typ) OFF_MAC
        ((H.hmac s.key (List.take 284 (List.drop OFF_DATA
          (storeHeader (nonceFrame nonce16) 0 wc addr cnt res typ)))).take 32)) o n
        = readAt (storeHeader (nonceFrame nonce16) 0 wc addr cnt res typ) o n := by
      intro o n ho
      refine readAt_writeAt_after _ _ _ _ _ ?_ hb
      rw [hlen]
      simp only [OFF_DATA, OFF_MAC] at ho ⊢
      omega
    refine ⟨?_, ?_, ?_, ?_, ?_, ?_, ?_, ?_, ?_, ?_⟩
    · rw [length_writeAt _ _ _ hb, gl, nl]
    · rw [readAt_writeAt_before _ _ _ _ _ (by decide) (by rw [gl, nl]; decide),
        grest _ _ (Or.inl (by decide))]
      exact nz _ _ (by decide)
    · rw [after _ _ (Nat.le_refl _), readAt_writeAt_eq _ _ _ _ hlen (by rw [gl, nl]; decide)]
      rw [List.take_of_length_le (by rw [H.hmac_length])]
      rfl
    · rw [after _ _ (Nat.le_refl _), grest _ _ (Or.inl (by decide))]
      exact nz _ _ (by decide)
    · rw [after _ _ (by decide)]; exact gnonce
    · rw [after _ _ (by decide)]; exact gwc
    · rw [after _ _ (by decide)]; exact gaddr
    · rw [after _ _ (by decide)]; exact gcnt
    · rw [after _ _ (by decide)]; exact gres
    · rw [after _ _ (by decide)]; exact gtyp
  · rw [if_neg hm, if_neg hm]
    refine ⟨by rw [gl, nl], ?_, ?_, ?_, gnonce, gwc, gaddr, gcnt, gres, gtyp⟩
    · rw [grest _ _ (Or.inl (by decide))]
      exact nz _ _ (by decide)
    · rw [grest _ _ (Or.inl (by decide))]
      exact nz _ _ (by decide)
    · rw [grest _ _ (Or.inl (by decide))]
      exact nz _ _ (by decide)

theorem VerifyMac284_iff (H : HmacSha256) (s : State) (f : List Nat) :
    VerifyMac284 H s f = true ↔ frameMac f = H.hmac s.key (macRegion f) := by
  simp only [VerifyMac284, ComputeMac284, decide_eq_true_eq, frameMac, macRegion, readAt]
  rw [List.take_of_length_le (by rw [H.hmac_length])]
  exact eq_comm

theorem readAt_readAt (p : List Nat) (off m o n : Nat) (h : o + n ≤ m) :
    readAt (readAt p off m) o n = readAt p (off + o) n := by
  simp only [readAt, List.drop_take, List.take_take, List.drop_drop]
  congr 1
  omega

theorem readAt_drop (p : List Nat) (k off n : Nat) :
    readAt (p.drop k) off n = readAt p (k + off) n := by
  simp only [readAt, List.drop_drop]

theorem frameMac_drop (all : List Nat) (i : Nat) :
    frameMac (all.drop (i * 512)) = frameMac (frameAt all i) := by
  simp only [frameMac, frameAt, OFF_MAC]
  rw [readAt_drop, readAt_readAt _ _ _ _ _ (by decide)]

theorem macRegion_drop (all : List Nat) (i : Nat) :
    macRegion (all.drop (i * 512)) = macRegion (frameAt all i) := by
  simp only [macRegion, frameAt, OFF_DATA]
  rw [readAt_drop, readAt_readAt _ _ _ _ _ (by decide)]

theorem Be16_lt (p : List Nat) : Be16 p < 65536 := Nat.mod_lt _ (by decide)

theorem Be32_lt (p : List Nat) : Be32 p < 4294967296 := Nat.mod_lt _ (by decide)

/-- What `MakeResponse` with no data block appends to the queue, field by field. -/
theorem MakeResponse_fields (H : HmacSha256) (s : State) (typ res wc addr cnt : Nat)
    (nonce16 : Option (List Nat)) (addMac : Bool) :
    ∃ r, (MakeResponse H s typ res wc none addr cnt nonce16 addMac) =
        { s with respQueue := s.respQueue ++ r } ∧
      r.length = 512 ∧
      frameStuff r = List.replicate 196 0 ∧
      frameMac r = (if addMac && s.keyProgrammed then H.hmac s.key (macRegion r)
        else List.replicate 32 0) ∧
      frameData r = List.replicate 256 0 ∧
      ((∀ x, nonce16 = some x → 16 ≤ x.length) → frameNonce r = nonceField nonce16) ∧
      frameWCounter r = wc % 4294967296 ∧
      frameAddr r = addr % 65536 ∧
      frameBlockCount r = cnt % 65536 ∧
      frameResult r = res % 65536 ∧
      frameReqResp r = typ % 65536 ∧
      readAt r OFF_WCOUNTER 4 = SetBe32 wc ∧
      readAt r OFF_ADDR 2 = SetBe16 addr ∧
      readAt r OFF_BLOCK_COUNT 2 = SetBe16 cnt := by
  obtain ⟨h1, h2, h3, h4, h5, h6, h7, h8, h9, h10⟩ :=
    MakeResponseFrame_spec H s typ res wc addr cnt nonce16 addMac
  exact ⟨_, rfl, h1, h2, h3, h4, h5, Be32_drop_of_readAt _ _ _ h6,
    Be16_drop_of_readAt _ _ _ h7, Be16_drop_of_readAt _ _ _ h8,
    Be16_drop_of_readAt _ _ _ h9, Be16_drop_of_readAt _ _ _ h10, h6, h7, h8⟩

theorem WriteBlock_fields (s : State) (a : Nat) (d : List Nat) :
    (WriteBlock s a d).opt = s.opt ∧ (WriteBlock s a d).keyProgrammed = s.keyProgrammed ∧
    (WriteBlock s a d).key = s.key ∧ (WriteBlock s a d).writeCounter = s.writeCounter ∧
    (WriteBlock s a d).respQueue = s.respQueue ∧
    (WriteBlock s a d).pendingRead = s.pendingRead := by
  unfold WriteBlock
  split <;> simp

theorem foldl_WriteBlock_fields (l : List Nat) (g : Nat → Nat) (d : Nat → List Nat)
    (s : State) :
    (l.foldl (fun st i => WriteBlock st (g i) (d i)) s).opt = s.opt ∧
    (l.foldl (fun st i => WriteBlock st (g i) (d i)) s).keyProgrammed = s.keyProgrammed ∧
    (l.foldl (fun st i => WriteBlock st (g i) (d i)) s).key = s.key ∧
    (l.foldl (fun st i => WriteBlock st (g i) (d i)) s).writeCounter = s.writeCounter ∧
    (l.foldl (fun st i => WriteBlock st (g i) (d i)) s).respQueue = s.respQueue ∧
    (l.foldl (fun st i => WriteBlock st (g i) (d i)) s).pendingRead = s.pendingRead := by
  induction l generalizing s with
  | nil => simp
  | cons x xs ih =>
    simp only [List.foldl_cons]
    obtain ⟨a1, a2, a3, a4, a5, a6⟩ := ih (WriteBlock s (g x) (d x))
    obtain ⟨b1, b2, b3, b4, b5, b6⟩ := WriteBlock_fields s (g x) (d x)
    exact ⟨a1.trans b1, a2.trans b2, a3.trans b3, a4.trans b4, a5.trans b5, a6.trans b6⟩

theorem HandleDataWrite_eq (H : HmacSha256) (s : State) (firstFrame allFrames : List Nat)
    (framesTotal : Nat) :
    HandleDataWrite H s firstFrame allFrames framesTotal =
      if specDataWriteResult H s firstFrame allFrames framesTotal = RPMB_RES_OK then
        MakeResponse H
          { writtenStorage s allFrames (frameAddr firstFrame) (frameBlockCount firstFrame) with
            writeCounter := (s.writeCounter + 1) % 4294967296 }
          RPMB_RESP_DATA_WRITE RPMB_RES_OK ((s.writeCounter + 1) % 4294967296) none
          (frameAddr firstFrame) (frameBlockCount firstFrame) none false
      else
        MakeResponse H s RPMB_RESP_DATA_WRITE
          (specDataWriteResult H s firstFrame allFrames framesTotal) s.writeCounter none
          (frameAddr firstFrame) (frameBlockCount firstFrame) none false := by
  simp only [HandleDataWrite, specDataWriteResult, frameAddr, frameBlockCount, frameWCounter]
  by_cases hk : s.keyProgrammed = false
  · rw [if_pos (by rw [hk]; rfl), if_pos hk, if_neg (by decide)]
  rw [if_neg (by simpa using hk), if_neg hk]
  by_cases hc : Be16 (List.drop OFF_BLOCK_COUNT firstFrame) = 0 ∨
      Be16 (List.drop OFF_BLOCK_COUNT firstFrame) ≠ framesTotal
  · rw [if_pos (by simpa using hc), if_pos hc, if_neg (by decide)]
  rw [if_neg (by simpa using hc), if_neg hc]
  by_cases hv : StorageAddrValid s (Be16 (List.drop OFF_ADDR firstFrame))
      (Be16 (List.drop OFF_BLOCK_COUNT firstFrame)) = false
  · rw [if_pos (by rw [hv]; rfl), if_pos hv, if_neg (by decide)]
  rw [if_neg (by simpa using hv), if_neg hv]
  have hiff : ((List.range framesTotal).any
      (fun i => !VerifyMac284 H s (allFrames.drop (i * 512)))) = true ↔
      ∃ i, i < framesTotal ∧ frameMac (frameAt allFrames i) ≠
        H.hmac s.key (macRegion (frameAt allFrames i)) := by
    rw [List.any_eq_true]
    constructor
    · rintro ⟨i, hi, hne⟩
      rw [Bool.not_eq_true', ← Bool.not_eq_true, VerifyMac284_iff, frameMac_drop,
        macRegion_drop] at hne
      exact ⟨i, List.mem_range.mp hi, hne⟩
    · rintro ⟨i, hi, hne⟩
      refine ⟨i, List.mem_range.mpr hi, ?_⟩
      rw [Bool.not_eq_true', ← Bool.not_eq_true, VerifyMac284_iff, frameMac_drop,
        macRegion_drop]
      exact hne
  by_cases hm : ∃ i, i < framesTotal ∧ frameMac (frameAt allFrames i) ≠
      H.hmac s.key (macRegion (frameAt allFrames i))
  · rw [if_pos (hiff.mpr hm), if_pos hm, if_neg (by decide)]
  rw [if_neg (fun h => hm (hiff.mp h)), if_neg hm]
  by_cases hw : Be32 (List.drop OFF_WCOUNTER firstFrame) ≠ s.writeCounter
  · rw [if_pos (by simpa using hw), if_pos hw, if_neg (by decide)]
  rw [if_neg (by simpa using hw), if_neg hw, if_pos rfl]
  have hwc : (writtenStorage s allFrames (Be16 (List.drop OFF_ADDR firstFrame))
      (Be16 (List.drop OFF_BLOCK_COUNT firstFrame))).writeCounter = s.writeCounter :=
    (foldl_WriteBlock_fields _ _ _ _).2.2.2.1
  simp only [writtenStorage] at hwc ⊢
  rw [hwc]

theorem specDataWriteResult_le (H : HmacSha256) (s : State) (firstFrame allFrames : List Nat)
    (framesTotal : Nat) : specDataWriteResult H s firstFrame allFrames framesTotal ≤ 7 := by
  unfold specDataWriteResult
  split_ifs <;> decide

theorem writtenStorage_fields (s : State) (allFrames : List Nat) (addr blkCnt : Nat) :
    (writtenStorage s allFrames addr blkCnt).opt = s.opt ∧
    (writtenStorage s allFrames addr blkCnt).keyProgrammed = s.keyProgrammed ∧
    (writtenStorage s allFrames addr blkCnt).key = s.key ∧
    (writtenStorage s allFrames addr blkCnt).writeCounter = s.writeCounter ∧
    (writtenStorage s allFrames addr blkCnt).respQueue = s.respQueue ∧
    (writtenStorage s allFrames addr blkCnt).pendingRead = s.pendingRead :=
  foldl_WriteBlock_fields _ _ _ _

/-- The response of `HandleDataWrite`, field by field, and the queue after it. -/
theorem HandleDataWrite_respQueue (H : HmacSha256) (s : State) (firstFrame allFrames : List Nat)
    (framesTotal : Nat) :
    (HandleDataWrite H s firstFrame allFrames framesTotal).respQueue =
      s.respQueue ++ dataWriteResponse H s firstFrame allFrames framesTotal ∧
    (dataWriteResponse H s firstFrame allFrames framesTotal).length = 512 ∧
    frameReqResp (dataWriteResponse H s firstFrame allFrames framesTotal)
      = RPMB_RESP_DATA_WRITE ∧
    frameResult (dataWriteResponse H s firstFrame allFrames framesTotal)
      = specDataWriteResult H s firstFrame allFrames framesTotal ∧
    frameAddr (dataWriteResponse H s firstFrame allFrames framesTotal) = frameAddr firstFrame ∧
    frameBlockCount (dataWriteResponse H s firstFrame allFrames framesTotal)
      = frameBlockCount firstFrame ∧
    frameMac (dataWriteResponse H s firstFrame allFrames framesTotal) = List.replicate 32 0 ∧
    frameData (dataWriteResponse H s firstFrame allFrames framesTotal) = List.replicate 256 0 ∧
    frameStuff (dataWriteResponse H s firstFrame allFrames framesTotal)
      = List.replicate 196 0 ∧
    frameNonce (dataWriteResponse H s firstFrame allFrames framesTotal)
      = List.replicate 16 0 ∧
    frameWCounter (dataWriteResponse H s firstFrame allFrames framesTotal)
      = (HandleDataWrite H s firstFrame allFrames framesTotal).writeCounter % 4294967296 := by
  have hle := specDataWriteResult_le H s firstFrame allFrames framesTotal
  have ha : frameAddr firstFrame % 65536 = frameAddr firstFrame :=
    Nat.mod_eq_of_lt (Be16_lt _)
  have hc : frameBlockCount firstFrame % 65536 = frameBlockCount firstFrame :=
    Nat.mod_eq_of_lt (Be16_lt _)
  have hr : specDataWriteResult H s firstFrame allFrames framesTotal % 65536
      = specDataWriteResult H s firstFrame allFrames framesTotal :=
    Nat.mod_eq_of_lt (by omega)
  unfold dataWriteResponse
  rw [HandleDataWrite_eq]
  by_cases hok : specDataWriteResult H s firstFrame allFrames framesTotal = RPMB_RES_OK
  · rw [if_pos hok]
    obtain ⟨r, hr1, h1, h2, h3, h4, h5, h6, h7, h8, h9, h10, -⟩ :=
      MakeResponse_fields H
        { writtenStorage s allFrames (frameAddr firstFrame) (frameBlockCount firstFrame) with
          writeCounter := (s.writeCounter + 1) % 4294967296 }
        RPMB_RESP_DATA_WRITE RPMB_RES_OK ((s.writeCounter + 1) % 4294967296)
        (frameAddr firstFrame) (frameBlockCount firstFrame) none false
    rw [hr1]
    simp only [(writtenStorage_fields s allFrames _ _).2.2.2.2.1, List.drop_left]
    rw [ha] at h7
    rw [hc] at h8
    rw [hok]
    exact ⟨trivial, h1, h10, h9, h7, h8, h3, h4, h2, h5 (fun _ h => by cases h), h6⟩
  · rw [if_neg hok]
    obtain ⟨r, hr1, h1, h2, h3, h4, h5, h6, h7, h8, h9, h10, -⟩ :=
      MakeResponse_fields H s RPMB_RESP_DATA_WRITE
        (specDataWriteResult H s firstFrame allFrames framesTotal) s.writeCounter
        (frameAddr firstFrame) (frameBlockCount firstFrame) none false
    rw [hr1]
    simp only [List.drop_left]
    rw [ha] at h7
    rw [hc] at h8
    rw [hr] at h9
    exact ⟨trivial, h1, h10, h9, h7, h8, h3, h4, h2, h5 (fun _ h => by cases h), h6⟩

/-- A DATA_WRITE that fails a check changes nothing but the response queue. -/
theorem HandleDataWrite_fail (H : HmacSha256) (s : State) (firstFrame allFrames : List Nat)
    (framesTotal : Nat)
    (h : specDataWriteResult H s firstFrame allFrames framesTotal ≠ RPMB_RES_OK) :
    HandleDataWrite H s firstFrame allFrames framesTotal =
      { s with respQueue := (HandleDataWrite H s firstFrame allFrames framesTotal).respQueue } := by
  rw [HandleDataWrite_eq, if_neg h]
  rfl

/-- A DATA_WRITE that passes every check: the blocks are written, the counter is
incremented, the other members keep their values. -/
theorem HandleDataWrite_ok (H : HmacSha256) (s : State) (firstFrame allFrames : List Nat)
    (framesTotal : Nat)
    (h : specDataWriteResult H s firstFrame allFrames framesTotal = RPMB_RES_OK) :
    HandleDataWrite H s firstFrame allFrames framesTotal =
      { s with
        storage := (writtenStorage s allFrames (frameAddr firstFrame)
          (frameBlockCount firstFrame)).storage
        writeCounter := (s.writeCounter + 1) % 4294967296
        respQueue := (HandleDataWrite H s firstFrame allFrames framesTotal).respQueue } := by
  rw [HandleDataWrite_eq, if_pos h]
  obtain ⟨h1, h2, h3, h4, h5, h6⟩ :=
    writtenStorage_fields s allFrames (frameAddr firstFrame) (frameBlockCount firstFrame)
  simp only [MakeResponse, h1, h2, h3, h5, h6]

theorem StorageAddrValid_iff (s : State) (addr count : Nat) :
    StorageAddrValid s addr count = true ↔
      count ≠ 0 ∧ (addr + count) % 4294967296 ≤ s.opt.maxBlocks := by
  unfold StorageAddrValid
  by_cases h : count = 0
  · simp [h]
  · simp [h]

theorem specDataWriteResult_ok_iff (H : HmacSha256) (s : State) (firstFrame allFrames : List Nat)
    (framesTotal : Nat) :
    specDataWriteResult H s firstFrame allFrames framesTotal = RPMB_RES_OK ↔
      s.keyProgrammed = true ∧ frameBlockCount firstFrame ≠ 0 ∧
      frameBlockCount firstFrame = framesTotal ∧
      StorageAddrValid s (frameAddr firstFrame) (frameBlockCount firstFrame) = true ∧
      (∀ i, i < framesTotal →
        frameMac (frameAt allFrames i) = H.hmac s.key (macRegion (frameAt allFrames i))) ∧
      frameWCounter firstFrame = s.writeCounter := by
  unfold specDataWriteResult
  constructor
  · intro h
    split_ifs at h with h1 h2 h3 h4 h5
    all_goals first | (exact absurd h (by decide)) | skip
    refine ⟨by simpa using h1, fun e => h2 (Or.inl e), ?_, by simpa using h3, ?_, ?_⟩
    · by_contra e; exact h2 (Or.inr e)
    · intro i hi
      by_contra e
      exact h4 ⟨i, hi, e⟩
    · by_contra e; exact h5 e
  · rintro ⟨h1, h2, h3, h4, h5, h6⟩
    rw [if_neg (by simp [h1]), if_neg (by rintro (e | e); exacts [h2 e, e h3]), if_neg (by simp [h4]),
      if_neg (by rintro ⟨i, hi, e⟩; exact e (h5 i hi)), if_neg (by simp [h6])]

theorem storageBlock_writeAt (st : List Nat) (a b : Nat) (d : List Nat) (hd : d.length = 256)
    (hb : a * 256 + 256 ≤ st.length) :
    storageBlock (writeAt st (a * 256) d) b = if b = a then d else storageBlock st b := by
  unfold storageBlock
  by_cases h : b = a
  · rw [if_pos h, h]
    exact readAt_writeAt_eq _ _ _ _ hd hb
  · rw [if_neg h]
    rcases Nat.lt_or_gt_of_ne h with h1 | h1
    · exact readAt_writeAt_before _ _ _ _ _ (by omega) (by omega)
    · exact readAt_writeAt_after _ _ _ _ _ (by omega) (by omega)

theorem WriteBlock_storage (s : State) (a : Nat) (in256 : List Nat)
    (hv : a + 1 ≤ s.opt.maxBlocks) (ha : a < 65536)
    (hl : s.storage.length = s.opt.maxBlocks * 256) (hin : 256 ≤ in256.length) :
    (WriteBlock s a in256).storage.length = s.storage.length ∧
    ∀ b, storageBlock (WriteBlock s a in256).storage b =
      if b = a then in256.take 256 else storageBlock s.storage b := by
  have hvalid : StorageAddrValid s a 1 = true := by
    rw [StorageAddrValid_iff]
    refine ⟨by decide, ?_⟩
    rw [Nat.mod_eq_of_lt (by omega)]
    exact hv
  have hd : (in256.take 256).length = 256 := by
    rw [List.length_take]; omega
  have hb : a * 256 + 256 ≤ s.storage.length := by
    rw [hl]; nlinarith
  simp only [WriteBlock, hvalid, Bool.not_true, Bool.false_eq_true, if_false, memcpy]
  refine ⟨?_, fun b => storageBlock_writeAt _ _ _ _ hd hb⟩
  rw [length_writeAt _ _ _ (by rw [hd]; exact hb)]

theorem writtenStorage_succ (s : State) (allFrames : List Nat) (addr k : Nat) :
    writtenStorage s allFrames addr (k + 1) =
      WriteBlock (writtenStorage s allFrames addr k) ((addr + k) % 65536)
        ((allFrames.drop (k * 512)).drop OFF_DATA) := by
  simp only [writtenStorage, List.range_succ, List.foldl_append, List.foldl_cons, List.foldl_nil]

theorem frameData_frameAt (allFrames : List Nat) (i : Nat) :
    frameData (frameAt allFrames i) = ((allFrames.drop (i * 512)).drop OFF_DATA).take 256 := by
  simp only [frameData, frameAt, OFF_DATA]
  rw [readAt_readAt _ _ _ _ _ (by decide)]
  simp only [readAt, List.drop_drop]

/-- The block loop of `HandleDataWrite`: block `(addr + i) mod 65536` receives the data
field of frame `i`; every other block keeps its content. -/
theorem writtenStorage_spec (s : State) (allFrames : List Nat) (addr blkCnt : Nat)
    (hl : s.storage.length = s.opt.maxBlocks * 256)
    (hv : addr + blkCnt ≤ s.opt.maxBlocks) (hcnt : blkCnt ≤ 65536)
    (hlen : blkCnt * 512 ≤ allFrames.length) :
    (writtenStorage s allFrames addr blkCnt).storage.length = s.storage.length ∧
    (∀ i, i < blkCnt →
      storageBlock (writtenStorage s allFrames addr blkCnt).storage ((addr + i) % 65536)
        = frameData (frameAt allFrames i)) ∧
    (∀ b, (∀ i, i < blkCnt → b ≠ (addr + i) % 65536) →
      storageBlock (writtenStorage s allFrames addr blkCnt).storage b
        = storageBlock s.storage b) := by
  induction blkCnt with
  | zero =>
    refine ⟨rfl, fun i hi => absurd hi (Nat.not_lt_zero _), fun b _ => rfl⟩
  | succ k ih =>
    obtain ⟨ih1, ih2, ih3⟩ := ih (by omega) (by omega) (by omega)
    have hopt := (writtenStorage_fields s allFrames addr k).1
    have hin : 256 ≤ ((allFrames.drop (k * 512)).drop OFF_DATA).length := by
      simp only [List.length_drop, OFF_DATA]
      omega
    have hmod : (addr + k) % 65536 ≤ addr + k := Nat.mod_le _ _
    obtain ⟨w1, w2⟩ := WriteBlock_storage (writtenStorage s allFrames addr k)
      ((addr + k) % 65536) ((allFrames.drop (k * 512)).drop OFF_DATA)
      (by rw [hopt]; omega) (Nat.mod_lt _ (by decide)) (by rw [hopt, ih1]; exact hl) hin
    rw [writtenStorage_succ]
    refine ⟨w1.trans ih1, ?_, ?_⟩
    · intro i hi
      rw [w2]
      by_cases hik : i = k
      · rw [hik, if_pos rfl, frameData_frameAt]
      · rw [if_neg (by omega)]
        exact ih2 i (by omega)
    · intro b hb
      rw [w2, if_neg (hb k (by omega))]
      exact ih3 b (fun i hi => hb i (by omega))

/-! ## Dispatch -/

theorem ProcessRequest_program_key (H : HmacSha256) (s : State) (f all : List Nat) (n : Nat)
    (h : frameReqResp f = RPMB_REQ_PROGRAM_KEY) :
    ProcessRequest H s f all n = HandleProgramKey H { s with respQueue := [] } f := by
  unfold frameReqResp at h
  simp only [ProcessRequest]
  rw [h]
  rfl

theorem ProcessRequest_get_counter (H : HmacSha256) (s : State) (f all : List Nat) (n : Nat)
    (h : frameReqResp f = RPMB_REQ_GET_COUNTER) :
    ProcessRequest H s f all n = HandleGetCounter H { s with respQueue := [] } f := by
  unfold frameReqResp at h
  simp only [ProcessRequest]
  rw [h]
  rfl

theorem ProcessRequest_data_write (H : HmacSha256) (s : State) (f all : List Nat) (n : Nat)
    (h : frameReqResp f = RPMB_REQ_DATA_WRITE) :
    ProcessRequest H s f all n = HandleDataWrite H { s with respQueue := [] } f all n := by
  unfold frameReqResp at h
  simp only [ProcessRequest]
  rw [h]
  rfl

theorem ProcessRequest_data_read (H : HmacSha256) (s : State) (f all : List Nat) (n : Nat)
    (h : frameReqResp f = RPMB_REQ_DATA_READ) :
    ProcessRequest H s f all n = StartPendingRead { s with respQueue := [] } f := by
  unfold frameReqResp at h
  simp only [ProcessRequest]
  rw [h]
  rfl

theorem ProcessRequest_result_read (H : HmacSha256) (s : State) (f all : List Nat) (n : Nat)
    (h : frameReqResp f = RPMB_REQ_RESULT_READ) :
    ProcessRequest H s f all n =
      HandleResultRead H
        (if s.pendingRead.valid && s.respQueue.isEmpty then FinalizePendingRead H s 1 else s)
        f := by
  unfold frameReqResp at h
  simp only [ProcessRequest]
  rw [h]
  rfl

theorem ProcessRequest_unknown (H : HmacSha256) (s : State) (f all : List Nat) (n : Nat)
    (h1 : frameReqResp f ≠ RPMB_REQ_PROGRAM_KEY) (h2 : frameReqResp f ≠ RPMB_REQ_GET_COUNTER)
    (h3 : frameReqResp f ≠ RPMB_REQ_DATA_WRITE) (h4 : frameReqResp f ≠ RPMB_REQ_DATA_READ)
    (h5 : frameReqResp f ≠ RPMB_REQ_RESULT_READ) :
    ProcessRequest H s f all n =
      MakeResponse H { s with respQueue := [] } RPMB_RESP_RESULT_READ RPMB_RES_GENERAL_FAIL
        s.writeCounter none 0 0 none false := by
  unfold frameReqResp at h1 h2 h3 h4 h5
  simp only [ProcessRequest]
  rw [if_neg h1, if_neg h2, if_neg h3, if_neg h4, if_neg h5]

/-- A buffer of one frame is dispatched once, whatever its type. -/
theorem HandleWriteRequestFrames_single (H : HmacSha256) (s : State) (data : List Nat)
    (h : data.length = 512) :
    HandleWriteRequestFrames H s data = ProcessRequest H s data data 1 := by
  simp only [HandleWriteRequestFrames, h]
  rw [if_neg (by decide)]
  split
  · rfl
  · rfl

/-! ## DATA_WRITE -/

set_option maxRecDepth 1000000

/-- Claim C1. For every engine state and every batch of `framesTotal` frames,
`HandleDataWrite` appends exactly one 512-byte response of type `0x0300` to the queue. Its
result is that of the first failing check in the order key (`NO_KEY`), block count
(`GENERAL_FAIL`), address range (`ADDR_FAIL`), per-frame MAC (`AUTH_FAIL`), write counter
(`COUNTER_FAIL`), and `OK` when no check fails (`specDataWriteResult`). The response
carries `addr` and `blk_cnt` of the first frame, a zero MAC field and a zero data field, in
every failing case and in the `OK` case alike. -/
theorem HandleDataWrite_first_failing_check (H : HmacSha256) (s : State)
    (firstFrame allFrames : List Nat) (framesTotal : Nat) :
    (HandleDataWrite H s firstFrame allFrames framesTotal).respQueue =
      s.respQueue ++ dataWriteResponse H s firstFrame allFrames framesTotal ∧
    (dataWriteResponse H s firstFrame allFrames framesTotal).length = 512 ∧
    frameReqResp (dataWriteResponse H s firstFrame allFrames framesTotal) = 0x0300 ∧
    frameResult (dataWriteResponse H s firstFrame allFrames framesTotal)
      = specDataWriteResult H s firstFrame allFrames framesTotal ∧
    frameAddr (dataWriteResponse H s firstFrame allFrames framesTotal) = frameAddr firstFrame ∧
    frameBlockCount (dataWriteResponse H s firstFrame allFrames framesTotal)
      = frameBlockCount firstFrame ∧
    frameMac (dataWriteResponse H s firstFrame allFrames framesTotal) = List.replicate 32 0 ∧
    frameData (dataWriteResponse H s firstFrame allFrames framesTotal)
      = List.replicate 256 0 := by
  obtain ⟨h1, h2, h3, h4, h5, h6, h7, h8, -⟩ :=
    HandleDataWrite_respQueue H s firstFrame allFrames framesTotal
  exact ⟨h1, h2, h3, h4, h5, h6, h7, h8⟩

/-- Claim C3. A DATA_WRITE that passes all checks, whatever its block count, sets
`write_counter` to the prior value plus one (32-bit arithmetic: `prior + 1` below
`0xFFFFFFFF`); the single response appended to the queue has type `0x0300`, result `OK`,
write counter field equal to the new counter value, the first frame's `addr` and `blk_cnt`
and a zero MAC field. -/
theorem HandleDataWrite_ok_counter_response (H : HmacSha256) (s : State)
    (firstFrame allFrames : List Nat) (framesTotal : Nat)
    (hok : specDataWriteResult H s firstFrame allFrames framesTotal = RPMB_RES_OK) :
    (HandleDataWrite H s firstFrame allFrames framesTotal).writeCounter
      = (s.writeCounter + 1) % 4294967296 ∧
    (s.writeCounter < 4294967295 →
      (HandleDataWrite H s firstFrame allFrames framesTotal).writeCounter
        = s.writeCounter + 1) ∧
    (HandleDataWrite H s firstFrame allFrames framesTotal).respQueue =
      s.respQueue ++ dataWriteResponse H s firstFrame allFrames framesTotal ∧
    (dataWriteResponse H s firstFrame allFrames framesTotal).length = 512 ∧
    frameReqResp (dataWriteResponse H s firstFrame allFrames framesTotal) = 0x0300 ∧
    frameResult (dataWriteResponse H s firstFrame allFrames framesTotal) = RPMB_RES_OK ∧
    frameWCounter (dataWriteResponse H s firstFrame allFrames framesTotal)
      = (HandleDataWrite H s firstFrame allFrames framesTotal).writeCounter ∧
    frameAddr (dataWriteResponse H s firstFrame allFrames framesTotal) = frameAddr firstFrame ∧
    frameBlockCount (dataWriteResponse H s firstFrame allFrames framesTotal)
      = frameBlockCount firstFrame ∧
    frameMac (dataWriteResponse H s firstFrame allFrames framesTotal)
      = List.replicate 32 0 := by
  obtain ⟨h1, h2, h3, h4, h5, h6, h7, -, -, -, h11⟩ :=
    HandleDataWrite_respQueue H s firstFrame allFrames framesTotal
  have hw : (HandleDataWrite H s firstFrame allFrames framesTotal).writeCounter
      = (s.writeCounter + 1) % 4294967296 := by
    rw [HandleDataWrite_ok H s firstFrame allFrames framesTotal hok]
  refine ⟨hw, ?_, h1, h2, h3, h4.trans hok, ?_, h5, h6, h7⟩
  · intro hlt
    rw [hw]
    exact Nat.mod_eq_of_lt (by omega)
  · rw [h11, hw]
    exact Nat.mod_mod _ _

/-- An instance of claim C3: the one-block write `exWriteFrame 0` on `exState`. -/
theorem HandleDataWrite_ok_counter_response_witness :
    (HandleDataWrite sampleHmac exState (exWriteFrame 0) (exWriteFrame 0) 1).writeCounter = 1 ∧
    frameResult (dataWriteResponse sampleHmac exState (exWriteFrame 0) (exWriteFrame 0) 1)
      = RPMB_RES_OK ∧
    frameWCounter (dataWriteResponse sampleHmac exState (exWriteFrame 0) (exWriteFrame 0) 1)
      = 1 :=
  have h := HandleDataWrite_ok_counter_response sampleHmac exState (exWriteFrame 0)
    (exWriteFrame 0) 1 (by decide)
  ⟨h.2.1 (by decide), h.2.2.2.2.2.1, h.2.2.2.2.2.2.1.trans (h.2.1 (by decide))⟩

/-- Claim C4. A DATA_WRITE batch whose response result is not `OK` leaves storage,
`write_counter`, key and `key_programmed` unchanged. In particular, with a programmed key,
an agreeing block count and a valid address range: a batch in which some frame's MAC field
differs from HMAC-SHA256(key, that frame's 284-byte region) is answered `AUTH_FAIL`, and a
batch whose MACs all verify but whose `wc_req` differs from `write_counter` is answered
`COUNTER_FAIL`, both with storage and counter unchanged. -/
theorem HandleDataWrite_failure_keeps_state (H : HmacSha256) (s : State)
    (firstFrame allFrames : List Nat) (framesTotal : Nat) :
    (frameResult (dataWriteResponse H s firstFrame allFrames framesTotal) ≠ RPMB_RES_OK →
      (HandleDataWrite H s firstFrame allFrames framesTotal).storage = s.storage ∧
      (HandleDataWrite H s firstFrame allFrames framesTotal).writeCounter = s.writeCounter ∧
      (HandleDataWrite H s firstFrame allFrames framesTotal).key = s.key ∧
      (HandleDataWrite H s firstFrame allFrames framesTotal).keyProgrammed
        = s.keyProgrammed) ∧
    (s.keyProgrammed = true → frameBlockCount firstFrame ≠ 0 →
      frameBlockCount firstFrame = framesTotal →
      StorageAddrValid s (frameAddr firstFrame) (frameBlockCount firstFrame) = true →
      (∃ i, i < framesTotal ∧
        frameMac (frameAt allFrames i) ≠ H.hmac s.key (macRegion (frameAt allFrames i))) →
      frameResult (dataWriteResponse H s firstFrame allFrames framesTotal)
        = RPMB_RES_AUTH_FAIL ∧
      (HandleDataWrite H s firstFrame allFrames framesTotal).storage = s.storage ∧
      (HandleDataWrite H s firstFrame allFrames framesTotal).writeCounter = s.writeCounter) ∧
    (s.keyProgrammed = true → frameBlockCount firstFrame ≠ 0 →
      frameBlockCount firstFrame = framesTotal →
      StorageAddrValid s (frameAddr firstFrame) (frameBlockCount firstFrame) = true →
      (∀ i, i < framesTotal →
        frameMac (frameAt allFrames i) = H.hmac s.key (macRegion (frameAt allFrames i))) →
      frameWCounter firstFrame ≠ s.writeCounter →
      frameResult (dataWriteResponse H s firstFrame allFrames framesTotal)
        = RPMB_RES_COUNTER_FAIL ∧
      (HandleDataWrite H s firstFrame allFrames framesTotal).storage = s.storage ∧
      (HandleDataWrite H s firstFrame allFrames framesTotal).writeCounter
        = s.writeCounter) := by
  have hres := (HandleDataWrite_respQueue H s firstFrame allFrames framesTotal).2.2.2.1
  have keep : specDataWriteResult H s firstFrame allFrames framesTotal ≠ RPMB_RES_OK →
      (HandleDataWrite H s firstFrame allFrames framesTotal).storage = s.storage ∧
      (HandleDataWrite H s firstFrame allFrames framesTotal).writeCounter = s.writeCounter ∧
      (HandleDataWrite H s firstFrame allFrames framesTotal).key = s.key ∧
      (HandleDataWrite H s firstFrame allFrames framesTotal).keyProgrammed
        = s.keyProgrammed := by
    intro h
    rw [HandleDataWrite_fail H s firstFrame allFrames framesTotal h]
    exact ⟨rfl, rfl, rfl, rfl⟩
  refine ⟨fun h => keep (by rwa [hres] at h), ?_, ?_⟩
  · intro hk hc0 hcn hv hm
    have e : specDataWriteResult H s firstFrame allFrames framesTotal = RPMB_RES_AUTH_FAIL := by
      unfold specDataWriteResult
      rw [if_neg (by simp [hk]), if_neg (by rintro (e | e); exacts [hc0 e, e hcn]),
        if_neg (by simp [hv]), if_pos hm]
    have k := keep (by rw [e]; decide)
    exact ⟨hres.trans e, k.1, k.2.1⟩
  · intro hk hc0 hcn hv hm hw
    have e : specDataWriteResult H s firstFrame allFrames framesTotal
        = RPMB_RES_COUNTER_FAIL := by
      unfold specDataWriteResult
      rw [if_neg (by simp [hk]), if_neg (by rintro (e | e); exacts [hc0 e, e hcn]),
        if_neg (by simp [hv]), if_neg (by rintro ⟨i, hi, e⟩; exact e (hm i hi)), if_pos hw]
    have k := keep (by rw [e]; decide)
    exact ⟨hres.trans e, k.1, k.2.1⟩

/-- An instance of claim C4: a frame with one flipped data bit is answered `AUTH_FAIL`, a
frame signed for counter 7 on an engine with counter 0 is answered `COUNTER_FAIL`; storage
and counter keep their values. -/
theorem HandleDataWrite_failure_keeps_state_witness :
    (frameResult (dataWriteResponse sampleHmac exState exTamperedFrame exTamperedFrame 1)
        = RPMB_RES_AUTH_FAIL ∧
      (HandleDataWrite sampleHmac exState exTamperedFrame exTamperedFrame 1).storage
        = exState.storage ∧
      (HandleDataWrite sampleHmac exState exTamperedFrame exTamperedFrame 1).writeCounter
        = exState.writeCounter) ∧
    (frameResult (dataWriteResponse sampleHmac exState (exWriteFrame 7) (exWriteFrame 7) 1)
        = RPMB_RES_COUNTER_FAIL ∧
      (HandleDataWrite sampleHmac exState (exWriteFrame 7) (exWriteFrame 7) 1).storage
        = exState.storage ∧
      (HandleDataWrite sampleHmac exState (exWriteFrame 7) (exWriteFrame 7) 1).writeCounter
        = exState.writeCounter) :=
  ⟨(HandleDataWrite_failure_keeps_state sampleHmac exState exTamperedFrame exTamperedFrame
      1).2.1 (by decide) (by decide) (by decide) (by decide) ⟨0, by decide, by decide⟩,
    (HandleDataWrite_failure_keeps_state sampleHmac exState (exWriteFrame 7) (exWriteFrame 7)
      1).2.2 (by decide) (by decide) (by decide) (by decide) (by decide) (by decide)⟩

/-- Claim C2 as stated fails. With `max_blocks = 65537` the two-block DATA_WRITE
`exWrapBatch` at address 65535 passes every check, but `WriteBlock` takes the block address
`addr + i` as a `uint16_t`: the data of frame 1 lands in block 0, which lies outside
`[65535, 65537)`, and block 65536 does not receive it. -/
theorem HandleDataWrite_block_address_wraps :
    exWideState.storage.length = exWideState.opt.maxBlocks * 256 ∧
    exWrapBatch.length = 2 * 512 ∧
    specDataWriteResult sampleHmac exWideState exWrapBatch exWrapBatch 2 = RPMB_RES_OK ∧
    frameAddr exWrapBatch = 65535 ∧
    frameBlockCount exWrapBatch = 2 ∧
    storageBlock (HandleDataWrite sampleHmac exWideState exWrapBatch exWrapBatch 2).storage
      (65535 + 1) ≠ frameData (frameAt exWrapBatch 1) ∧
    storageBlock (HandleDataWrite sampleHmac exWideState exWrapBatch exWrapBatch 2).storage 0
      ≠ storageBlock exWideState.storage 0 := by
  have hl : exWideState.storage.length = exWideState.opt.maxBlocks * 256 :=
    List.length_replicate _ _
  have hlen : exWrapBatch.length = 2 * 512 := by decide
  have hok : specDataWriteResult sampleHmac exWideState exWrapBatch exWrapBatch 2
      = RPMB_RES_OK := by decide
  have ha : frameAddr exWrapBatch = 65535 := by decide
  have hc : frameBlockCount exWrapBatch = 2 := by decide
  obtain ⟨-, w2, w3⟩ := writtenStorage_spec exWideState exWrapBatch 65535 2 hl (by decide)
    (by decide) (by decide)
  have hst : (HandleDataWrite sampleHmac exWideState exWrapBatch exWrapBatch 2).storage
      = (writtenStorage exWideState exWrapBatch 65535 2).storage := by
    rw [HandleDataWrite_ok sampleHmac exWideState exWrapBatch exWrapBatch 2 hok, ha, hc]
  have z0 : storageBlock exWideState.storage 0 = List.replicate 256 0 :=
    readAt_replicate _ _ _ (by decide)
  have z1 : storageBlock exWideState.storage (65535 + 1) = List.replicate 256 0 :=
    readAt_replicate _ _ _ (by decide)
  have b0 : storageBlock (writtenStorage exWideState exWrapBatch 65535 2).storage 0
      = frameData (frameAt exWrapBatch 1) := w2 1 (by decide)
  have b1 : storageBlock (writtenStorage exWideState exWrapBatch 65535 2).storage (65535 + 1)
      = storageBlock exWideState.storage (65535 + 1) := by
    refine w3 _ (fun i hi => ?_)
    have : i = 0 ∨ i = 1 := by omega
    rcases this with h | h <;> subst h <;> decide
  refine ⟨hl, hlen, hok, ha, hc, ?_, ?_⟩
  · rw [hst, b1, z1]
    decide
  · rw [hst, b0, z0]
    decide

/-- Claim C2, amended. For every configured `max_blocks` (the storage holding
`max_blocks * 256` bytes) and every DATA_WRITE of `framesTotal` full frames that passes all
checks with `addr + blk_cnt ≤ 65536`: afterwards storage block `addr + i` holds exactly the
256-byte data field of frame `i` for every `i` in `[0, blk_cnt)`, and every storage block
outside `[addr, addr + blk_cnt)` is unchanged. -/
theorem HandleDataWrite_writes_blocks (H : HmacSha256) (s : State)
    (firstFrame allFrames : List Nat) (framesTotal : Nat)
    (hwf : s.storage.length = s.opt.maxBlocks * 256)
    (hlen : allFrames.length = framesTotal * 512)
    (hok : specDataWriteResult H s firstFrame allFrames framesTotal = RPMB_RES_OK)
    (hrange : frameAddr firstFrame + frameBlockCount firstFrame ≤ 65536) :
    (∀ i, i < frameBlockCount firstFrame →
      storageBlock (HandleDataWrite H s firstFrame allFrames framesTotal).storage
        (frameAddr firstFrame + i) = frameData (frameAt allFrames i)) ∧
    (∀ b, b < frameAddr firstFrame ∨ frameAddr firstFrame + frameBlockCount firstFrame ≤ b →
      storageBlock (HandleDataWrite H s firstFrame allFrames framesTotal).storage b
        = storageBlock s.storage b) := by
  obtain ⟨-, -, hn, hv, -, -⟩ :=
    (specDataWriteResult_ok_iff H s firstFrame allFrames framesTotal).mp hok
  have hv' := ((StorageAddrValid_iff _ _ _).mp hv).2
  rw [Nat.mod_eq_of_lt (by omega)] at hv'
  obtain ⟨-, w2, w3⟩ := writtenStorage_spec s allFrames (frameAddr firstFrame)
    (frameBlockCount firstFrame) hwf hv' (by omega) (by rw [hlen, hn])
  have hst : (HandleDataWrite H s firstFrame allFrames framesTotal).storage
      = (writtenStorage s allFrames (frameAddr firstFrame)
          (frameBlockCount firstFrame)).storage := by
    rw [HandleDataWrite_ok H s firstFrame allFrames framesTotal hok]
  rw [hst]
  constructor
  · intro i hi
    have := w2 i hi
    rwa [Nat.mod_eq_of_lt (by omega)] at this
  · intro b hb
    refine w3 b (fun i hi => ?_)
    rw [Nat.mod_eq_of_lt (by omega)]
    omega

/-- An instance of the amended claim C2: after the one-block write `exWriteFrame 0` at
address 1 on `exState`, block 1 holds the frame's data and block 0 is unchanged. -/
theorem HandleDataWrite_writes_blocks_witness :
    storageBlock (HandleDataWrite sampleHmac exState (exWriteFrame 0) (exWriteFrame 0)
      1).storage (1 + 0) = List.replicate 256 0xAB ∧
    storageBlock (HandleDataWrite sampleHmac exState (exWriteFrame 0) (exWriteFrame 0)
      1).storage 0 = storageBlock exState.storage 0 :=
  have h := HandleDataWrite_writes_blocks sampleHmac exState (exWriteFrame 0) (exWriteFrame 0)
    1 (by decide) (by decide) (by decide) (by decide)
  ⟨(h.1 0 (by decide)).trans (by decide), h.2 0 (Or.inl (by decide))⟩

/-! ## Members a handler leaves alone -/

theorem FinalizePendingRead_core (H : HmacSha256) (s : State) (blkCnt : Nat) :
    (FinalizePendingRead H s blkCnt).opt = s.opt ∧
    (FinalizePendingRead H s blkCnt).keyProgrammed = s.keyProgrammed ∧
    (FinalizePendingRead H s blkCnt).key = s.key ∧
    (FinalizePendingRead H s blkCnt).writeCounter = s.writeCounter ∧
    (FinalizePendingRead H s blkCnt).storage = s.storage := by
  unfold FinalizePendingRead
  simp only [MakeResponse]
  split_ifs <;>
    first
    | exact ⟨rfl, rfl, rfl, rfl, rfl⟩
    | (split <;> exact ⟨rfl, rfl, rfl, rfl, rfl⟩)

theorem HandleResultRead_core (H : HmacSha256) (s : State) (req : List Nat) :
    (HandleResultRead H s req).opt = s.opt ∧
    (HandleResultRead H s req).keyProgrammed = s.keyProgrammed ∧
    (HandleResultRead H s req).key = s.key ∧
    (HandleResultRead H s req).writeCounter = s.writeCounter ∧
    (HandleResultRead H s req).storage = s.storage := by
  unfold HandleResultRead
  simp only [MakeResponse]
  split_ifs <;> exact ⟨rfl, rfl, rfl, rfl, rfl⟩

theorem ReadResponseFrames_core (s : State) (len : Nat) :
    (ReadResponseFrames s len).1.opt = s.opt ∧
    (ReadResponseFrames s len).1.keyProgrammed = s.keyProgrammed ∧
    (ReadResponseFrames s len).1.key = s.key ∧
    (ReadResponseFrames s len).1.writeCounter = s.writeCounter ∧
    (ReadResponseFrames s len).1.storage = s.storage := by
  unfold ReadResponseFrames
  split_ifs <;> exact ⟨rfl, rfl, rfl, rfl, rfl⟩

theorem HandleProgramKey_core (H : HmacSha256) (s : State) (req : List Nat) :
    (HandleProgramKey H s req).opt = s.opt ∧
    (HandleProgramKey H s req).writeCounter = s.writeCounter ∧
    (HandleProgramKey H s req).storage = s.storage ∧
    (HandleProgramKey H s req).pendingRead = s.pendingRead ∧
    (s.opt.allowRekey = false → s.keyProgrammed = true →
      (HandleProgramKey H s req).keyProgrammed = true ∧
      (HandleProgramKey H s req).key = s.key) := by
  unfold HandleProgramKey
  simp only [MakeResponse]
  split_ifs with h
  · exact ⟨rfl, rfl, rfl, rfl, fun _ hk => ⟨hk, rfl⟩⟩
  · refine ⟨rfl, rfl, rfl, rfl, fun hr hk => ?_⟩
    rw [hr, hk] at h
    exact absurd rfl h

theorem HandleDataWrite_core (H : HmacSha256) (s : State) (f all : List Nat) (n : Nat) :
    (HandleDataWrite H s f all n).opt = s.opt ∧
    (HandleDataWrite H s f all n).keyProgrammed = s.keyProgrammed ∧
    (HandleDataWrite H s f all n).key = s.key ∧
    (HandleDataWrite H s f all n).pendingRead = s.pendingRead ∧
    ((HandleDataWrite H s f all n).writeCounter = s.writeCounter ∨
      (specDataWriteResult H s f all n = RPMB_RES_OK ∧
        (HandleDataWrite H s f all n).writeCounter = (s.writeCounter + 1) % 4294967296)) := by
  by_cases hok : specDataWriteResult H s f all n = RPMB_RES_OK
  · rw [HandleDataWrite_ok H s f all n hok]
    exact ⟨rfl, rfl, rfl, rfl, Or.inr ⟨hok, rfl⟩⟩
  · rw [HandleDataWrite_fail H s f all n hok]
    exact ⟨rfl, rfl, rfl, rfl, Or.inl rfl⟩

/-- One dispatched request: options are kept; the counter changes only by a DATA_WRITE that
passes every check; with re-key disabled a programmed key is kept. -/
theorem ProcessRequest_core (H : HmacSha256) (s : State) (f all : List Nat) (n : Nat) :
    (ProcessRequest H s f all n).opt = s.opt ∧
    ((ProcessRequest H s f all n).writeCounter = s.writeCounter ∨
      (frameReqResp f = RPMB_REQ_DATA_WRITE ∧
        specDataWriteResult H s f all n = RPMB_RES_OK ∧
        (ProcessRequest H s f all n).writeCounter = (s.writeCounter + 1) % 4294967296)) ∧
    (s.opt.allowRekey = false → s.keyProgrammed = true →
      (ProcessRequest H s f all n).keyProgrammed = true ∧
      (ProcessRequest H s f all n).key = s.key) := by
  by_cases h1 : frameReqResp f = RPMB_REQ_PROGRAM_KEY
  · rw [ProcessRequest_program_key H s f all n h1]
    obtain ⟨a, b, -, -, e⟩ := HandleProgramKey_core H { s with respQueue := [] } f
    exact ⟨a, Or.inl b, e⟩
  by_cases h2 : frameReqResp f = RPMB_REQ_GET_COUNTER
  · rw [ProcessRequest_get_counter H s f all n h2]
    unfold HandleGetCounter
    simp only [MakeResponse]
    split_ifs <;> exact ⟨rfl, Or.inl rfl, fun _ hk => ⟨hk, rfl⟩⟩
  by_cases h3 : frameReqResp f = RPMB_REQ_DATA_WRITE
  · rw [ProcessRequest_data_write H s f all n h3]
    obtain ⟨a, b, c, -, e⟩ := HandleDataWrite_core H { s with respQueue := [] } f all n
    refine ⟨a, ?_, fun _ hk => ⟨b.trans hk, c⟩⟩
    rcases e with e | ⟨e1, e2⟩
    · exact Or.inl e
    · exact Or.inr ⟨h3, e1, e2⟩
  by_cases h4 : frameReqResp f = RPMB_REQ_DATA_READ
  · rw [ProcessRequest_data_read H s f all n h4]
    exact ⟨rfl, Or.inl rfl, fun _ hk => ⟨hk, rfl⟩⟩
  by_cases h5 : frameReqResp f = RPMB_REQ_RESULT_READ
  · rw [ProcessRequest_result_read H s f all n h5]
    obtain ⟨a1, a2, a3, a4, -⟩ := HandleResultRead_core H
      (if s.pendingRead.valid && s.respQueue.isEmpty then FinalizePendingRead H s 1 else s) f
    have hs : (if s.pendingRead.valid && s.respQueue.isEmpty then FinalizePendingRead H s 1
        else s).opt = s.opt ∧
        (if s.pendingRead.valid && s.respQueue.isEmpty then FinalizePendingRead H s 1
        else s).keyProgrammed = s.keyProgrammed ∧
        (if s.pendingRead.valid && s.respQueue.isEmpty then FinalizePendingRead H s 1
        else s).key = s.key ∧
        (if s.pendingRead.valid && s.respQueue.isEmpty then FinalizePendingRead H s 1
        else s).writeCounter = s.writeCounter := by
      split_ifs
      · obtain ⟨b1, b2, b3, b4, -⟩ := FinalizePendingRead_core H s 1
        exact ⟨b1, b2, b3, b4⟩
      · exact ⟨rfl, rfl, rfl, rfl⟩
    exact ⟨a1.trans hs.1, Or.inl (a4.trans hs.2.2.2),
      fun _ hk => ⟨(a2.trans hs.2.1).trans hk, a3.trans hs.2.2.1⟩⟩
  · rw [ProcessRequest_unknown H s f all n h1 h2 h3 h4 h5]
    exact ⟨rfl, Or.inl rfl, fun _ hk => ⟨hk, rfl⟩⟩

theorem foldl_range_succ {α : Type} (g : α → Nat → α) (a : α) (k : Nat) :
    (List.range (k + 1)).foldl g a = g ((List.range k).foldl g a) k := by
  rw [List.range_succ, List.foldl_append]
  rfl

/-- The frame loop of `HandleWriteRequestFrames` after `k` frames. -/
theorem dispatchLoop_core (H : HmacSha256) (s : State) (data : List Nat) (k : Nat) :
    ((List.range k).foldl
      (fun st i => ProcessRequest H st (data.drop (i * 512)) (data.drop (i * 512)) 1) s).opt
      = s.opt ∧
    (s.writeCounter + k < 4294967296 →
      s.writeCounter ≤ ((List.range k).foldl
        (fun st i => ProcessRequest H st (data.drop (i * 512)) (data.drop (i * 512)) 1)
        s).writeCounter ∧
      ((List.range k).foldl
        (fun st i => ProcessRequest H st (data.drop (i * 512)) (data.drop (i * 512)) 1)
        s).writeCounter ≤ s.writeCounter + k) ∧
    (s.opt.allowRekey = false → s.keyProgrammed = true →
      ((List.range k).foldl
        (fun st i => ProcessRequest H st (data.drop (i * 512)) (data.drop (i * 512)) 1)
        s).keyProgrammed = true ∧
      ((List.range k).foldl
        (fun st i => ProcessRequest H st (data.drop (i * 512)) (data.drop (i * 512)) 1)
        s).key = s.key) := by
  induction k with
  | zero => exact ⟨rfl, fun _ => ⟨Nat.le_refl _, Nat.le_refl _⟩, fun _ hk => ⟨hk, rfl⟩⟩
  | succ k ih =>
    rw [foldl_range_succ]
    obtain ⟨i1, i2, i3⟩ := ih
    obtain ⟨p1, p2, p3⟩ := ProcessRequest_core H
      ((List.range k).foldl
        (fun st i => ProcessRequest H st (data.drop (i * 512)) (data.drop (i * 512)) 1) s)
      (data.drop (k * 512)) (data.drop (k * 512)) 1
    refine ⟨p1.trans i1, fun hb => ?_, fun hr hk => ?_⟩
    · obtain ⟨j1, j2⟩ := i2 (by omega)
      rcases p2 with e | ⟨-, -, e⟩
      · rw [e]; omega
      · rw [e, Nat.mod_eq_of_lt (by omega)]; omega
    · obtain ⟨j1, j2⟩ := i3 hr hk
      obtain ⟨q1, q2⟩ := p3 (by rw [i1]; exact hr) j1
      exact ⟨q1, q2.trans j2⟩

theorem Be16_nil : Be16 [] = 0 := rfl

theorem HandleWriteRequestFrames_core (H : HmacSha256) (s : State) (data : List Nat) :
    (HandleWriteRequestFrames H s data).opt = s.opt ∧
    (s.writeCounter + data.length / 512 < 4294967296 →
      s.writeCounter ≤ (HandleWriteRequestFrames H s data).writeCounter) ∧
    (s.opt.allowRekey = false → s.keyProgrammed = true →
      (HandleWriteRequestFrames H s data).keyProgrammed = true ∧
      (HandleWriteRequestFrames H s data).key = s.key) := by
  unfold HandleWriteRequestFrames
  simp only []
  split_ifs with h1 h2
  · exact ⟨rfl, fun _ => Nat.le_refl _, fun _ hk => ⟨hk, rfl⟩⟩
  · obtain ⟨p1, p2, p3⟩ := ProcessRequest_core H s data data (data.length / 512)
    refine ⟨p1, fun hb => ?_, p3⟩
    have hne : data ≠ [] := by
      intro e
      rw [e] at h2
      exact absurd h2 (by decide)
    have hpos : 0 < data.length := List.length_pos.mpr hne
    have hmod : data.length % 512 = 0 := by simpa using h1
    rcases p2 with e | ⟨-, -, e⟩
    · rw [e]
    · rw [e, Nat.mod_eq_of_lt (by omega)]; omega
  · obtain ⟨p1, p2, p3⟩ := dispatchLoop_core H s data (data.length / 512)
    exact ⟨p1, fun hb => (p2 hb).1, p3⟩

theorem step_core (H : HmacSha256) (s : State) (op : Op) :
    (step H s op).opt = s.opt ∧
    (s.writeCounter + opFrames op < 4294967296 → s.writeCounter ≤ (step H s op).writeCounter) ∧
    (s.opt.allowRekey = false → s.keyProgrammed = true →
      (step H s op).keyProgrammed = true ∧ (step H s op).key = s.key) := by
  cases op with
  | writeRequest data => exact HandleWriteRequestFrames_core H s data
  | finalizeRead blkCnt =>
    obtain ⟨a1, a2, a3, a4, -⟩ := FinalizePendingRead_core H s blkCnt
    exact ⟨a1, fun _ => Nat.le_of_eq a4.symm, fun _ hk => ⟨a2.trans hk, a3⟩⟩
  | readResponse len =>
    obtain ⟨a1, a2, a3, a4, -⟩ := ReadResponseFrames_core s len
    exact ⟨a1, fun _ => Nat.le_of_eq a4.symm, fun _ hk => ⟨a2.trans hk, a3⟩⟩

theorem run_core (H : HmacSha256) (ops : List Op) (s : State) :
    (run H s ops).opt = s.opt ∧
    (s.opt.allowRekey = false → s.keyProgrammed = true →
      (run H s ops).keyProgrammed = true ∧ (run H s ops).key = s.key) := by
  induction ops generalizing s with
  | nil => exact ⟨rfl, fun _ hk => ⟨hk, rfl⟩⟩
  | cons op ops ih =>
    obtain ⟨a1, -, a3⟩ := step_core H s op
    obtain ⟨b1, b3⟩ := ih (step H s op)
    refine ⟨b1.trans a1, fun hr hk => ?_⟩
    obtain ⟨c1, c2⟩ := a3 hr hk
    obtain ⟨d1, d2⟩ := b3 (by rw [a1]; exact hr) c1
    exact ⟨d1, d2.trans c2⟩

/-! ## Write counter -/

/-- Claim C6 as stated fails at the largest counter value: on `exMaxCounterState`
(`write_counter = 0xFFFFFFFF`) the DATA_WRITE `exWriteFrame 4294967295` passes every check
and `writeCounter_++` wraps the 32-bit counter to 0, which is smaller than before. -/
theorem write_counter_wraps :
    exMaxCounterState.writeCounter = 4294967295 ∧
    specDataWriteResult sampleHmac exMaxCounterState (exWriteFrame 4294967295)
      (exWriteFrame 4294967295) 1 = RPMB_RES_OK ∧
    (step sampleHmac exMaxCounterState (.writeRequest (exWriteFrame 4294967295))).writeCounter
      = 0 ∧
    ¬ exMaxCounterState.writeCounter ≤
      (step sampleHmac exMaxCounterState
        (.writeRequest (exWriteFrame 4294967295))).writeCounter := by
  decide

/-- Claim C6, amended. `FinalizePendingRead` and `ReadResponseFrames` leave `write_counter`
unchanged; one dispatched request leaves it unchanged unless it is a DATA_WRITE that passes
every check, which sets it to `(write_counter + 1) mod 2^32`; and for every engine operation
that cannot carry the counter past `0xFFFFFFFF` (`write_counter` plus the number of request
frames of the operation is below `2^32`), `write_counter` after the operation is greater
than or equal to `write_counter` before it. -/
theorem write_counter_non_decreasing (H : HmacSha256) (s : State) (op : Op) :
    (∀ blkCnt, (step H s (.finalizeRead blkCnt)).writeCounter = s.writeCounter) ∧
    (∀ len, (step H s (.readResponse len)).writeCounter = s.writeCounter) ∧
    (∀ f all n, (ProcessRequest H s f all n).writeCounter = s.writeCounter ∨
      (frameReqResp f = RPMB_REQ_DATA_WRITE ∧
        specDataWriteResult H s f all n = RPMB_RES_OK ∧
        (ProcessRequest H s f all n).writeCounter = (s.writeCounter + 1) % 4294967296)) ∧
    (s.writeCounter + opFrames op < 4294967296 →
      s.writeCounter ≤ (step H s op).writeCounter) :=
  ⟨fun blkCnt => (FinalizePendingRead_core H s blkCnt).2.2.2.1,
    fun len => (ReadResponseFrames_core s len).2.2.2.1,
    fun f all n => (ProcessRequest_core H s f all n).2.1,
    (step_core H s op).2.1⟩

/-- An instance of the amended claim C6: the write `exWriteFrame 0` on `exState` takes the
counter from 0 to 1. -/
theorem write_counter_non_decreasing_witness :
    exState.writeCounter ≤ (step sampleHmac exState (.writeRequest (exWriteFrame 0))).writeCounter ∧
    (step sampleHmac exState (.writeRequest (exWriteFrame 0))).writeCounter = 1 :=
  ⟨(write_counter_non_decreasing sampleHmac exState (.writeRequest (exWriteFrame 0))).2.2.2
    (by decide), by decide⟩

/-! ## Single responses -/

theorem SetBe32_eq (v : Nat) :
    SetBe32 v = [v / 16777216 % 256, v / 65536 % 256, v / 256 % 256, v % 256] := by
  simp only [SetBe32, and_255, Nat.shiftRight_eq_div_pow]

theorem SetBe16_zero : SetBe16 0 = [0, 0] := rfl

/-- The queue after `MakeResponse` on an empty queue is the one frame built. -/
theorem MakeResponse_on_empty (H : HmacSha256) (s : State) (typ res wc addr cnt : Nat)
    (nonce16 : Option (List Nat)) (addMac : Bool)
    (hq : s.respQueue = []) :
    (MakeResponse H s typ res wc none addr cnt nonce16 addMac) =
      { s with respQueue := (MakeResponse H s typ res wc none addr cnt nonce16 addMac).respQueue } ∧
    (MakeResponse H s typ res wc none addr cnt nonce16 addMac).respQueue.length = 512 ∧
    frameStuff (MakeResponse H s typ res wc none addr cnt nonce16 addMac).respQueue
      = List.replicate 196 0 ∧
    frameMac (MakeResponse H s typ res wc none addr cnt nonce16 addMac).respQueue
      = (if addMac && s.keyProgrammed then
          H.hmac s.key
            (macRegion (MakeResponse H s typ res wc none addr cnt nonce16 addMac).respQueue)
        else List.replicate 32 0) ∧
    frameData (MakeResponse H s typ res wc none addr cnt nonce16 addMac).respQueue
      = List.replicate 256 0 ∧
    ((∀ x, nonce16 = some x → 16 ≤ x.length) →
      frameNonce (MakeResponse H s typ res wc none addr cnt nonce16 addMac).respQueue
        = nonceField nonce16) ∧
    frameWCounter (MakeResponse H s typ res wc none addr cnt nonce16 addMac).respQueue
      = wc % 4294967296 ∧
    frameAddr (MakeResponse H s typ res wc none addr cnt nonce16 addMac).respQueue
      = addr % 65536 ∧
    frameBlockCount (MakeResponse H s typ res wc none addr cnt nonce16 addMac).respQueue
      = cnt % 65536 ∧
    frameResult (MakeResponse H s typ res wc none addr cnt nonce16 addMac).respQueue
      = res % 65536 ∧
    frameReqResp (MakeResponse H s typ res wc none addr cnt nonce16 addMac).respQueue
      = typ % 65536 ∧
    readAt (MakeResponse H s typ res wc none addr cnt nonce16 addMac).respQueue OFF_WCOUNTER 4
      = SetBe32 wc ∧
    readAt (MakeResponse H s typ res wc none addr cnt nonce16 addMac).respQueue OFF_ADDR 2
      = SetBe16 addr ∧
    readAt (MakeResponse H s typ res wc none addr cnt nonce16 addMac).respQueue
      OFF_BLOCK_COUNT 2 = SetBe16 cnt := by
  obtain ⟨r, hr, h⟩ := MakeResponse_fields H s typ res wc addr cnt nonce16 addMac
  rw [hr, hq]
  exact ⟨rfl, h⟩

/-! ## GET_COUNTER, PROGRAM_KEY and requests without a key -/

/-- The queue after a dispatched GET_COUNTER request, field by field. -/
theorem get_counter_response_fields (H : HmacSha256) (s : State) (f all : List Nat)
    (n : Nat) (hf : 512 ≤ f.length) (ht : frameReqResp f = RPMB_REQ_GET_COUNTER) :
    (ProcessRequest H s f all n).respQueue.length = 512 ∧
    frameReqResp (ProcessRequest H s f all n).respQueue = 0x0200 ∧
    frameNonce (ProcessRequest H s f all n).respQueue = frameNonce f ∧
    frameStuff (ProcessRequest H s f all n).respQueue = List.replicate 196 0 ∧
    frameData (ProcessRequest H s f all n).respQueue = List.replicate 256 0 ∧
    readAt (ProcessRequest H s f all n).respQueue OFF_ADDR 2 = [0, 0] ∧
    readAt (ProcessRequest H s f all n).respQueue OFF_BLOCK_COUNT 2 = [0, 0] ∧
    (s.keyProgrammed = false →
      frameResult (ProcessRequest H s f all n).respQueue = 0x0007 ∧
      frameMac (ProcessRequest H s f all n).respQueue = List.replicate 32 0) ∧
    (s.keyProgrammed = true →
      frameResult (ProcessRequest H s f all n).respQueue = RPMB_RES_OK ∧
      readAt (ProcessRequest H s f all n).respQueue OFF_WCOUNTER 4 =
        [s.writeCounter / 16777216 % 256, s.writeCounter / 65536 % 256,
          s.writeCounter / 256 % 256, s.writeCounter % 256] ∧
      frameMac (ProcessRequest H s f all n).respQueue =
        H.hmac s.key (macRegion (ProcessRequest H s f all n).respQueue)) := by
  have hn : ∀ x, some (f.drop OFF_NONCE) = some x → 16 ≤ x.length := by
    intro x hx
    cases hx
    simp only [List.length_drop, OFF_NONCE]
    omega
  rw [ProcessRequest_get_counter H s f all n ht]
  simp only [HandleGetCounter]
  by_cases hk : s.keyProgrammed = true
  · rw [if_neg (by simp [hk])]
    obtain ⟨-, h1, h2, h3, h4, h5, -, -, -, h9, h10, h11, h12, h13⟩ :=
      MakeResponse_on_empty H { s with respQueue := [] } RPMB_RESP_GET_COUNTER RPMB_RES_OK
        s.writeCounter 0 0 (some (f.drop OFF_NONCE)) true rfl
    have hm : (true && ({ s with respQueue := [] } : State).keyProgrammed) = true := by
      simp [hk]
    rw [if_pos hm] at h3
    refine ⟨h1, h10, h5 hn, h2, h4, h12, h13, fun e => absurd (hk.symm.trans e) (by decide),
      fun _ => ⟨h9, ?_, h3⟩⟩
    rw [h11, SetBe32_eq]
  · have hk' : s.keyProgrammed = false := by simpa using hk
    rw [if_pos (by simp [hk'])]
    obtain ⟨-, h1, h2, h3, h4, h5, -, -, -, h9, h10, -, h12, h13⟩ :=
      MakeResponse_on_empty H { s with respQueue := [] } RPMB_RESP_GET_COUNTER RPMB_RES_NO_KEY
        s.writeCounter 0 0 (some (f.drop OFF_NONCE)) false rfl
    rw [if_neg (by simp)] at h3
    exact ⟨h1, h10, h5 hn, h2, h4, h12, h13, fun _ => ⟨h9, h3⟩,
      fun e => absurd (hk'.symm.trans e) (by decide)⟩

/-- Claim C7. For every engine state and every GET_COUNTER request frame with nonce `N`,
the response queue afterwards holds exactly one 512-byte frame with req/resp `0x0200`, nonce
field `N` and zero stuff, data, address and block-count fields. Without a programmed key
its result is `NO_KEY` and its MAC field is 32 zero bytes; with a programmed key its result
is `OK`, its write counter field is `write_counter` in big-endian and its MAC field is
HMAC-SHA256(key, bytes `0x0E4..0x1FF` of that response frame). -/
theorem ProcessRequest_get_counter_response (H : HmacSha256) (s : State) (f all : List Nat)
    (n : Nat) (hf : 512 ≤ f.length) (ht : frameReqResp f = RPMB_REQ_GET_COUNTER) :
    (ProcessRequest H s f all n).respQueue.length = 512 ∧
    frameReqResp (ProcessRequest H s f all n).respQueue = 0x0200 ∧
    frameNonce (ProcessRequest H s f all n).respQueue = frameNonce f ∧
    frameStuff (ProcessRequest H s f all n).respQueue = List.replicate 196 0 ∧
    frameData (ProcessRequest H s f all n).respQueue = List.replicate 256 0 ∧
    readAt (ProcessRequest H s f all n).respQueue OFF_ADDR 2 = [0, 0] ∧
    readAt (ProcessRequest H s f all n).respQueue OFF_BLOCK_COUNT 2 = [0, 0] ∧
    (s.keyProgrammed = false →
      frameResult (ProcessRequest H s f all n).respQueue = 0x0007 ∧
      frameMac (ProcessRequest H s f all n).respQueue = List.replicate 32 0) ∧
    (s.keyProgrammed = true →
      frameResult (ProcessRequest H s f all n).respQueue = RPMB_RES_OK ∧
      readAt (ProcessRequest H s f all n).respQueue OFF_WCOUNTER 4 =
        [s.writeCounter / 16777216 % 256, s.writeCounter / 65536 % 256,
          s.writeCounter / 256 % 256, s.writeCounter % 256] ∧
      frameMac (ProcessRequest H s f all n).respQueue =
        H.hmac s.key (macRegion (ProcessRequest H s f all n).respQueue)) :=
  get_counter_response_fields H s f all n hf ht

/-- An instance of claim C7 on an engine without a key and on one with a key (counter 0,
nonce `0x41..0x50`). -/
theorem ProcessRequest_get_counter_response_witness :
    (frameResult (ProcessRequest sampleHmac exFresh (exRequest 2 0) (exRequest 2 0) 1).respQueue
        = 0x0007 ∧
      frameMac (ProcessRequest sampleHmac exFresh (exRequest 2 0) (exRequest 2 0) 1).respQueue
        = List.replicate 32 0) ∧
    (frameResult (ProcessRequest sampleHmac exState (exRequest 2 0) (exRequest 2 0) 1).respQueue
        = RPMB_RES_OK ∧
      frameNonce (ProcessRequest sampleHmac exState (exRequest 2 0) (exRequest 2 0) 1).respQueue
        = frameNonce (exRequest 2 0)) :=
  have h1 := ProcessRequest_get_counter_response sampleHmac exFresh (exRequest 2 0)
    (exRequest 2 0) 1 (by decide) (by decide)
  have h2 := ProcessRequest_get_counter_response sampleHmac exState (exRequest 2 0)
    (exRequest 2 0) 1 (by decide) (by decide)
  ⟨h1.2.2.2.2.2.2.2.1 (by decide), (h2.2.2.2.2.2.2.2.2 (by decide)).1, h2.2.2.1⟩

/-- Claim C9. For every engine state in which the key is not programmed or re-key is
enabled, and every PROGRAM_KEY request frame: afterwards the key equals the 32 bytes at
offset `0x0C4` of the request, `key_programmed` is true, `write_counter` and storage are
unchanged, and the response queue holds exactly one frame with req/resp `0x0100`, result
`OK` and a MAC field of 32 zero bytes. -/
theorem ProcessRequest_program_key_ok (H : HmacSha256) (s : State) (f all : List Nat) (n : Nat)
    (hf : 512 ≤ f.length) (ht : frameReqResp f = RPMB_REQ_PROGRAM_KEY)
    (hs : s.keyProgrammed = false ∨ s.opt.allowRekey = true) :
    (ProcessRequest H s f all n).key = readAt f 0x0C4 32 ∧
    (ProcessRequest H s f all n).key.length = 32 ∧
    (ProcessRequest H s f all n).keyProgrammed = true ∧
    (ProcessRequest H s f all n).writeCounter = s.writeCounter ∧
    (ProcessRequest H s f all n).storage = s.storage ∧
    (ProcessRequest H s f all n).respQueue.length = 512 ∧
    frameReqResp (ProcessRequest H s f all n).respQueue = 0x0100 ∧
    frameResult (ProcessRequest H s f all n).respQueue = RPMB_RES_OK ∧
    frameMac (ProcessRequest H s f all n).respQueue = List.replicate 32 0 := by
  have hc : (s.keyProgrammed && !s.opt.allowRekey) = false := by
    rcases hs with h | h
    · rw [h]; rfl
    · rw [h]; simp
  rw [ProcessRequest_program_key H s f all n ht]
  simp only [HandleProgramKey]
  rw [if_neg (by rw [hc]; decide)]
  obtain ⟨e, h1, -, h3, -, -, -, -, -, h9, h10, -⟩ :=
    MakeResponse_on_empty H
      { s with respQueue := [], key := (f.drop OFF_MAC).take 32, keyProgrammed := true }
      RPMB_RESP_PROGRAM_KEY RPMB_RES_OK s.writeCounter 0 0 none false rfl
  rw [if_neg (by simp)] at h3
  refine ⟨?_, ?_, ?_, ?_, ?_, h1, h10, h9, h3⟩
  · rw [e]; rfl
  · rw [e]
    simp only [List.length_take, List.length_drop, OFF_MAC]
    omega
  · rw [e]
  · rw [e]
  · rw [e]

/-- An instance of claim C9: programming the key `0x41..0x50 ..` on the engine `exFresh`. -/
theorem ProcessRequest_program_key_ok_witness :
    (ProcessRequest sampleHmac exFresh
      (mkFrame exKey (List.replicate 256 0) (List.replicate 16 0) 0 0 0 0 1)
      (mkFrame exKey (List.replicate 256 0) (List.replicate 16 0) 0 0 0 0 1) 1).key = exKey ∧
    (ProcessRequest sampleHmac exFresh
      (mkFrame exKey (List.replicate 256 0) (List.replicate 16 0) 0 0 0 0 1)
      (mkFrame exKey (List.replicate 256 0) (List.replicate 16 0) 0 0 0 0 1) 1).keyProgrammed
      = true :=
  have h := ProcessRequest_program_key_ok sampleHmac exFresh
    (mkFrame exKey (List.replicate 256 0) (List.replicate 16 0) 0 0 0 0 1)
    (mkFrame exKey (List.replicate 256 0) (List.replicate 16 0) 0 0 0 0 1) 1
    (by decide) (by decide) (Or.inl (by decide))
  ⟨h.1.trans (by decide), h.2.2.1⟩

theorem FinalizePendingRead_no_key (H : HmacSha256) (s : State) (blkCnt : Nat)
    (hp : s.pendingRead.valid = true) (hk : s.keyProgrammed = false) :
    FinalizePendingRead H s blkCnt =
      MakeResponse H
        { s with
          pendingRead := { s.pendingRead with valid := false }
          respQueue := [] }
        RPMB_RESP_DATA_READ RPMB_RES_NO_KEY s.writeCounter none s.pendingRead.addr
        (if blkCnt == 0 then 1 else blkCnt) (some s.pendingRead.nonce) false := by
  simp only [FinalizePendingRead]
  rw [if_neg (by simp [hp]), if_pos (by simp [hk])]

theorem ReadResponseFrames_all (s : State) (len : Nat) (h : s.respQueue.length = len) :
    ReadResponseFrames s len = ({ s with respQueue := [] }, s.respQueue) := by
  simp only [ReadResponseFrames]
  rw [if_neg (by omega), List.drop_of_length_le (by omega), List.take_of_length_le (by omega)]

/-- Claim C8 as stated fails: on the engine `exFresh` (no key) a RESULT_READ request with an
empty queue and no pending read, and a request of the unknown type 6, are both answered
with result `GENERAL_FAIL` (0x0001), not `NO_KEY`. -/
theorem no_key_result_read_and_unknown_type :
    exFresh.keyProgrammed = false ∧
    frameReqResp (exRequest 5 0) = RPMB_REQ_RESULT_READ ∧
    frameResult (ReadResponseFrames
      (HandleWriteRequestFrames sampleHmac exFresh (exRequest 5 0)) 512).2 = 0x0001 ∧
    frameReqResp (exRequest 6 0) = 6 ∧
    frameResult (ReadResponseFrames
      (HandleWriteRequestFrames sampleHmac exFresh (exRequest 6 0)) 512).2 = 0x0001 := by
  decide

/-- Claim C8, amended. For every engine state in which the key is not programmed and every
single-frame request of type GET_COUNTER or DATA_WRITE, and of type DATA_READ once it is
finalized (with any block count), the queue holds exactly one frame, it has result `NO_KEY`
(0x0007), and `ReadResponseFrames(512)` delivers it. -/
theorem no_key_requests_answered (H : HmacSha256) (s : State) (req : List Nat)
    (hk : s.keyProgrammed = false) (hlen : req.length = 512) :
    (frameReqResp req = RPMB_REQ_GET_COUNTER ∨ frameReqResp req = RPMB_REQ_DATA_WRITE →
      (HandleWriteRequestFrames H s req).respQueue.length = 512 ∧
      frameResult (HandleWriteRequestFrames H s req).respQueue = 0x0007 ∧
      (ReadResponseFrames (HandleWriteRequestFrames H s req) 512).2
        = (HandleWriteRequestFrames H s req).respQueue) ∧
    (frameReqResp req = RPMB_REQ_DATA_READ → ∀ blkCnt,
      (FinalizePendingRead H (HandleWriteRequestFrames H s req) blkCnt).respQueue.length
        = 512 ∧
      frameResult (FinalizePendingRead H (HandleWriteRequestFrames H s req) blkCnt).respQueue
        = 0x0007 ∧
      (ReadResponseFrames (FinalizePendingRead H (HandleWriteRequestFrames H s req) blkCnt)
        512).2 = (FinalizePendingRead H (HandleWriteRequestFrames H s req) blkCnt).respQueue) := by
  rw [HandleWriteRequestFrames_single H s req hlen]
  constructor
  · rintro (ht | ht)
    · obtain ⟨h1, -, -, -, -, -, -, h8, -⟩ :=
        get_counter_response_fields H s req req 1 (by omega) ht
      refine ⟨h1, (h8 hk).1, ?_⟩
      rw [ReadResponseFrames_all _ _ h1]
    · rw [ProcessRequest_data_write H s req req 1 ht]
      obtain ⟨h1, h2, -, h4, -⟩ :=
        HandleDataWrite_respQueue H { s with respQueue := [] } req req 1
      have hq : (HandleDataWrite H { s with respQueue := [] } req req 1).respQueue
          = dataWriteResponse H { s with respQueue := [] } req req 1 := by
        rw [h1]; rfl
      have hr : specDataWriteResult H { s with respQueue := [] } req req 1 = 0x0007 := by
        unfold specDataWriteResult
        rw [if_pos hk]
        rfl
      have hl : (HandleDataWrite H { s with respQueue := [] } req req 1).respQueue.length
          = 512 := by rw [hq]; exact h2
      refine ⟨hl, ?_, ?_⟩
      · rw [hq, h4]; exact hr
      · rw [ReadResponseFrames_all _ _ hl]
  · intro ht blkCnt
    rw [ProcessRequest_data_read H s req req 1 ht,
      FinalizePendingRead_no_key H (StartPendingRead { s with respQueue := [] } req) blkCnt rfl
        hk]
    obtain ⟨-, h1, -, -, -, -, -, -, -, h9, -⟩ :=
      MakeResponse_on_empty H
        { (StartPendingRead { s with respQueue := [] } req) with
          pendingRead :=
            { (StartPendingRead { s with respQueue := [] } req).pendingRead with valid := false }
          respQueue := [] }
        RPMB_RESP_DATA_READ RPMB_RES_NO_KEY
        (StartPendingRead { s with respQueue := [] } req).writeCounter
        (StartPendingRead { s with respQueue := [] } req).pendingRead.addr
        (if blkCnt == 0 then 1 else blkCnt)
        (some (StartPendingRead { s with respQueue := [] } req).pendingRead.nonce) false rfl
    refine ⟨h1, h9, ?_⟩
    rw [ReadResponseFrames_all _ _ h1]

/-- An instance of the amended claim C8: GET_COUNTER and a finalized DATA_READ on the
engine `exFresh`. -/
theorem no_key_requests_answered_witness :
    frameResult (HandleWriteRequestFrames sampleHmac exFresh (exRequest 2 0)).respQueue
      = 0x0007 ∧
    frameResult (FinalizePendingRead sampleHmac
      (HandleWriteRequestFrames sampleHmac exFresh (exRequest 4 0)) 1).respQueue = 0x0007 :=
  ⟨((no_key_requests_answered sampleHmac exFresh (exRequest 2 0) (by decide) (by decide)).1
      (Or.inl (by decide))).2.1,
    ((no_key_requests_answered sampleHmac exFresh (exRequest 4 0) (by decide) (by decide)).2
      (by decide) 1).2.1⟩

/-! ## Re-key disabled -/

theorem HandleProgramKey_locked (H : HmacSha256) (s : State) (req : List Nat)
    (hk : s.keyProgrammed = true) (hr : s.opt.allowRekey = false) :
    HandleProgramKey H s req =
      MakeResponse H s RPMB_RESP_PROGRAM_KEY RPMB_RES_GENERAL_FAIL s.writeCounter none 0 0 none
        false := by
  simp only [HandleProgramKey]
  rw [if_pos (by rw [hk, hr]; rfl)]

/-- Claim C10. With re-key disabled and the key programmed: after every sequence of engine
operations `key_programmed` is still true and the key has its value, the same holds after
every single dispatched request (so also inside a batch), and a PROGRAM_KEY request arriving
after the sequence is answered by exactly one frame with req/resp `0x0100` and result
`GENERAL_FAIL` (0x0001), leaving the key as it was. -/
theorem rekey_disabled_key_fixed (H : HmacSha256) (s : State) (ops : List Op)
    (hr : s.opt.allowRekey = false) (hk : s.keyProgrammed = true) :
    ((run H s ops).keyProgrammed = true ∧ (run H s ops).key = s.key ∧
      (run H s ops).opt.allowRekey = false) ∧
    (∀ f all n, (ProcessRequest H s f all n).keyProgrammed = true ∧
      (ProcessRequest H s f all n).key = s.key ∧
      (ProcessRequest H s f all n).opt.allowRekey = false) ∧
    (∀ f all n, frameReqResp f = RPMB_REQ_PROGRAM_KEY →
      (ProcessRequest H (run H s ops) f all n).respQueue.length = 512 ∧
      frameReqResp (ProcessRequest H (run H s ops) f all n).respQueue = 0x0100 ∧
      frameResult (ProcessRequest H (run H s ops) f all n).respQueue = 0x0001 ∧
      (ProcessRequest H (run H s ops) f all n).keyProgrammed = true ∧
      (ProcessRequest H (run H s ops) f all n).key = s.key) := by
  obtain ⟨r1, r2⟩ := run_core H ops s
  obtain ⟨r3, r4⟩ := r2 hr hk
  have hr' : (run H s ops).opt.allowRekey = false := by rw [r1]; exact hr
  refine ⟨⟨r3, r4, hr'⟩, fun f all n => ?_, fun f all n ht => ?_⟩
  · obtain ⟨p1, -, p3⟩ := ProcessRequest_core H s f all n
    obtain ⟨q1, q2⟩ := p3 hr hk
    exact ⟨q1, q2, by rw [p1]; exact hr⟩
  · obtain ⟨-, -, p3⟩ := ProcessRequest_core H (run H s ops) f all n
    obtain ⟨q1, q2⟩ := p3 hr' r3
    refine ⟨?_, ?_, ?_, q1, q2.trans r4⟩
    all_goals
      rw [ProcessRequest_program_key H _ f all n ht,
        HandleProgramKey_locked H { run H s ops with respQueue := [] } f r3 hr']
    · exact (MakeResponse_on_empty H { run H s ops with respQueue := [] }
        RPMB_RESP_PROGRAM_KEY RPMB_RES_GENERAL_FAIL (run H s ops).writeCounter 0 0 none false
        rfl).2.1
    · exact (MakeResponse_on_empty H { run H s ops with respQueue := [] }
        RPMB_RESP_PROGRAM_KEY RPMB_RES_GENERAL_FAIL (run H s ops).writeCounter 0 0 none false
        rfl).2.2.2.2.2.2.2.2.2.2.1
    · exact (MakeResponse_on_empty H { run H s ops with respQueue := [] }
        RPMB_RESP_PROGRAM_KEY RPMB_RES_GENERAL_FAIL (run H s ops).writeCounter 0 0 none false
        rfl).2.2.2.2.2.2.2.2.2.1

/-- An instance of claim C10: on `exState`, after a write, a DATA_READ, its finalization and
the transport read, a PROGRAM_KEY request is answered `GENERAL_FAIL` and the key is
`exKey`. -/
theorem rekey_disabled_key_fixed_witness :
    (run sampleHmac exState
      [.writeRequest (exWriteFrame 0), .writeRequest (exRequest 4 1), .finalizeRead 1,
        .readResponse 512]).key = exKey ∧
    frameResult (ProcessRequest sampleHmac
      (run sampleHmac exState
        [.writeRequest (exWriteFrame 0), .writeRequest (exRequest 4 1), .finalizeRead 1,
          .readResponse 512])
      (exRequest 1 0) (exRequest 1 0) 1).respQueue = 0x0001 :=
  have h := rekey_disabled_key_fixed sampleHmac exState
    [.writeRequest (exWriteFrame 0), .writeRequest (exRequest 4 1), .finalizeRead 1,
      .readResponse 512] (by decide) (by decide)
  ⟨h.1.2.1, (h.2.2 (exRequest 1 0) (exRequest 1 0) 1 (by decide)).2.2.1⟩

/-! ## The frame loop of `FinalizePendingRead` -/

theorem ReadBlock_ok (s : State) (a : Nat) (hv : a + 1 ≤ s.opt.maxBlocks) (ha : a < 65536) :
    ReadBlock s a = some (storageBlock s.storage a) := by
  have hvalid : StorageAddrValid s a 1 = true := by
    rw [StorageAddrValid_iff]
    refine ⟨by decide, ?_⟩
    rw [Nat.mod_eq_of_lt (by omega)]
    exact hv
  simp only [ReadBlock]
  rw [if_neg (by simp [hvalid])]
  rfl

theorem length_storageBlock (st : List Nat) (a : Nat) (h : a * 256 + 256 ≤ st.length) :
    (storageBlock st a).length = 256 :=
  length_readAt _ _ _ h

theorem fillFrame_eq (s : State) (addr blkCnt : Nat) (nonce frames : List Nat) (i : Nat) :
    FinalizePendingRead.fillFrame s addr blkCnt nonce frames i =
      (ReadBlock s ((addr + i) % 65536)).map (fun data =>
        storeHeader
          (memcpy (memcpy frames (i * 512 + OFF_DATA) data 256) (i * 512 + OFF_NONCE) nonce 16)
          (i * 512) s.writeCounter (addr + i) blkCnt RPMB_RES_OK RPMB_RESP_DATA_READ) := by
  unfold FinalizePendingRead.fillFrame
  cases ReadBlock s ((addr + i) % 65536) <;> rfl

/-- The stores of one pass of the frame loop on frame `i` of a buffer. -/
theorem fillFrame_stores (fr : List Nat) (i : Nat) (data nonce : List Nat)
    (wc addr cnt res typ : Nat) (hfr : i * 512 + 512 ≤ fr.length) (hd : data.length = 256) :
    (storeHeader (memcpy (memcpy fr (i * 512 + OFF_DATA) data 256) (i * 512 + OFF_NONCE)
      nonce 16) (i * 512) wc addr cnt res typ).length = fr.length ∧
    readAt (storeHeader (memcpy (memcpy fr (i * 512 + OFF_DATA) data 256) (i * 512 + OFF_NONCE)
      nonce 16) (i * 512) wc addr cnt res typ) (i * 512 + OFF_DATA) 256 = data ∧
    (16 ≤ nonce.length →
      readAt (storeHeader (memcpy (memcpy fr (i * 512 + OFF_DATA) data 256)
        (i * 512 + OFF_NONCE) nonce 16) (i * 512) wc addr cnt res typ) (i * 512 + OFF_NONCE) 16
        = nonce.take 16) ∧
    readAt (storeHeader (memcpy (memcpy fr (i * 512 + OFF_DATA) data 256) (i * 512 + OFF_NONCE)
      nonce 16) (i * 512) wc addr cnt res typ) (i * 512 + OFF_WCOUNTER) 4 = SetBe32 wc ∧
    readAt (storeHeader (memcpy (memcpy fr (i * 512 + OFF_DATA) data 256) (i * 512 + OFF_NONCE)
      nonce 16) (i * 512) wc addr cnt res typ) (i * 512 + OFF_ADDR) 2 = SetBe16 addr ∧
    readAt (storeHeader (memcpy (memcpy fr (i * 512 + OFF_DATA) data 256) (i * 512 + OFF_NONCE)
      nonce 16) (i * 512) wc addr cnt res typ) (i * 512 + OFF_BLOCK_COUNT) 2 = SetBe16 cnt ∧
    readAt (storeHeader (memcpy (memcpy fr (i * 512 + OFF_DATA) data 256) (i * 512 + OFF_NONCE)
      nonce 16) (i * 512) wc addr cnt res typ) (i * 512 + OFF_RESULT) 2 = SetBe16 res ∧
    readAt (storeHeader (memcpy (memcpy fr (i * 512 + OFF_DATA) data 256) (i * 512 + OFF_NONCE)
      nonce 16) (i * 512) wc addr cnt res typ) (i * 512 + OFF_REQRESP) 2 = SetBe16 typ ∧
    (∀ o n, o + n ≤ i * 512 + OFF_DATA ∨ i * 512 + 512 ≤ o →
      readAt (storeHeader (memcpy (memcpy fr (i * 512 + OFF_DATA) data 256)
        (i * 512 + OFF_NONCE) nonce 16) (i * 512) wc addr cnt res typ) o n = readAt fr o n) := by
  have hdl : (data.take 256).length = 256 := by rw [List.length_take]; omega
  have hdt : data.take 256 = data := List.take_of_length_le (by omega)
  have hnl : (nonce.take 16).length ≤ 16 := List.length_take_le _ _
  have l1 : (memcpy fr (i * 512 + OFF_DATA) data 256).length = fr.length := by
    simp only [memcpy]
    exact length_writeAt _ _ _ (by simp only [hdl, OFF_DATA]; omega)
  have l2 : (memcpy (memcpy fr (i * 512 + OFF_DATA) data 256) (i * 512 + OFF_NONCE)
      nonce 16).length = fr.length := by
    simp only [memcpy] at l1 ⊢
    rw [length_writeAt _ _ _ (by simp only [l1, OFF_NONCE]; omega), l1]
  obtain ⟨gl, gwc, gaddr, gcnt, gres, gtyp, grest⟩ :=
    storeHeader_spec (memcpy (memcpy fr (i * 512 + OFF_DATA) data 256) (i * 512 + OFF_NONCE)
      nonce 16) (i * 512) wc addr cnt res typ (by rw [l2]; exact hfr)
  refine ⟨gl.trans l2, ?_, ?_, gwc, gaddr, gcnt, gres, gtyp, ?_⟩
  · rw [grest _ _ (Or.inl (by simp only [OFF_DATA, OFF_WCOUNTER]; omega))]
    simp only [memcpy] at l1 ⊢
    rw [readAt_writeAt_before _ _ _ _ _ (by simp only [OFF_DATA, OFF_NONCE]; omega)
      (by simp only [l1, OFF_NONCE]; omega)]
    rw [hdt]
    exact readAt_writeAt_eq _ _ _ _ hd (by simp only [OFF_DATA]; omega)
  · intro hn
    rw [grest _ _ (Or.inl (by simp only [OFF_NONCE, OFF_WCOUNTER]; omega))]
    simp only [memcpy] at l1 ⊢
    exact readAt_writeAt_eq _ _ _ _ (by rw [List.length_take]; omega)
      (by simp only [l1, OFF_NONCE]; omega)
  · intro o n h
    have h' : o + n ≤ i * 512 + OFF_WCOUNTER ∨ i * 512 + 512 ≤ o := by
      rcases h with h | h
      · left; simp only [OFF_DATA, OFF_WCOUNTER] at h ⊢; omega
      · right; exact h
    rw [grest _ _ h']
    simp only [memcpy] at l1 ⊢
    rcases h with h | h
    · rw [readAt_writeAt_before _ _ _ _ _ (by simp only [OFF_DATA, OFF_NONCE] at h ⊢; omega)
        (by simp only [l1, OFF_NONCE]; omega),
        readAt_writeAt_before _ _ _ _ _ h (by simp only [OFF_DATA]; omega)]
    · rw [readAt_writeAt_after _ _ _ _ _ (by simp only [OFF_NONCE]; omega)
        (by simp only [l1, OFF_NONCE]; omega),
        readAt_writeAt_after _ _ _ _ _ (by simp only [hdl, OFF_DATA]; omega)
          (by simp only [hdl, OFF_DATA]; omega)]

/-- The fields of frame `i` other than the MAC depend only on the bytes of frame `i`
outside its MAC field. -/
theorem IsReadFrame_of_readAt_eq (fr fr2 : List Nat) (i : Nat) (data nonce : List Nat)
    (wc addr cnt : Nat)
    (h : ∀ o n, i * 512 ≤ o → o + n ≤ i * 512 + 512 →
      (o + n ≤ i * 512 + OFF_MAC ∨ i * 512 + OFF_DATA ≤ o) → readAt fr2 o n = readAt fr o n)
    (hf : IsReadFrame fr i data nonce wc addr cnt) :
    IsReadFrame fr2 i data nonce wc addr cnt := by
  obtain ⟨h1, h2, h3, h4, h5, h6, h7, h8⟩ := hf
  refine ⟨?_, ?_, ?_, ?_, ?_, ?_, ?_, ?_⟩
  · rw [h _ _ (by simp only [OFF_STUFF]; omega) (by simp only [OFF_STUFF]; omega)
      (Or.inl (by simp only [OFF_STUFF, OFF_MAC]; omega))]
    exact h1
  · rw [h _ _ (by omega) (by simp only [OFF_DATA]; omega) (Or.inr (Nat.le_refl _))]
    exact h2
  · intro hn
    rw [h _ _ (by omega) (by simp only [OFF_NONCE]; omega)
      (Or.inr (by simp only [OFF_DATA, OFF_NONCE]; omega))]
    exact h3 hn
  · rw [h _ _ (by omega) (by simp only [OFF_WCOUNTER]; omega)
      (Or.inr (by simp only [OFF_DATA, OFF_WCOUNTER]; omega))]
    exact h4
  · rw [h _ _ (by omega) (by simp only [OFF_ADDR]; omega)
      (Or.inr (by simp only [OFF_DATA, OFF_ADDR]; omega))]
    exact h5
  · rw [h _ _ (by omega) (by simp only [OFF_BLOCK_COUNT]; omega)
      (Or.inr (by simp only [OFF_DATA, OFF_BLOCK_COUNT]; omega))]
    exact h6
  · rw [h _ _ (by omega) (by simp only [OFF_RESULT]; omega)
      (Or.inr (by simp only [OFF_DATA, OFF_RESULT]; omega))]
    exact h7
  · rw [h _ _ (by omega) (by simp only [OFF_REQRESP]; omega)
      (Or.inr (by simp only [OFF_DATA, OFF_REQRESP]; omega))]
    exact h8

/-- The frame loop of `FinalizePendingRead` after `k` passes over a zeroed buffer of `L`
bytes: no `ReadBlock` fails, frames `0 .. k-1` are filled in and the rest is still zero. -/
theorem fillLoop_spec (s : State) (addr cnt : Nat) (nonce : List Nat) (L k : Nat)
    (hwf : s.storage.length = s.opt.maxBlocks * 256)
    (hv : addr + k ≤ s.opt.maxBlocks) (hL : k * 512 ≤ L) :
    ∃ fr,
      (List.range k).foldl
        (fun acc i =>
          match acc with
          | none => none
          | some fr => FinalizePendingRead.fillFrame s addr cnt nonce fr i)
        (some (List.replicate L 0)) = some fr ∧
      fr.length = L ∧
      (∀ i, i < k →
        IsReadFrame fr i (storageBlock s.storage ((addr + i) % 65536)) nonce s.writeCounter
          (addr + i) cnt ∧
        readAt fr (i * 512 + OFF_MAC) 32 = List.replicate 32 0) ∧
      (∀ o n, k * 512 ≤ o → readAt fr o n = readAt (List.replicate L 0) o n) := by
  induction k with
  | zero =>
    exact ⟨_, rfl, List.length_replicate _ _, fun i hi => absurd hi (Nat.not_lt_zero _),
      fun _ _ _ => rfl⟩
  | succ k ih =>
    obtain ⟨fr, e, hl, hfr, hz⟩ := ih (by omega) (by omega)
    have hmod : (addr + k) % 65536 ≤ addr + k := Nat.mod_le _ _
    have hrb := ReadBlock_ok s ((addr + k) % 65536) (by omega) (Nat.mod_lt _ (by decide))
    have hbl : (storageBlock s.storage ((addr + k) % 65536)).length = 256 :=
      length_storageBlock _ _ (by rw [hwf]; nlinarith)
    obtain ⟨f1, f2, f3, f4, f5, f6, f7, f8, f9⟩ :=
      fillFrame_stores fr k (storageBlock s.storage ((addr + k) % 65536)) nonce s.writeCounter
        (addr + k) cnt RPMB_RES_OK RPMB_RESP_DATA_READ (by omega) hbl
    rw [foldl_range_succ, e]
    simp only []
    rw [fillFrame_eq, hrb]
    refine ⟨_, rfl, f1.trans hl, ?_, ?_⟩
    · intro i hi
      by_cases hik : i = k
      · subst hik
        refine ⟨⟨?_, f2, f3, f4, f5, f6, f7, f8⟩, ?_⟩
        · rw [f9 _ _ (Or.inl (by simp only [OFF_STUFF, OFF_DATA]; omega)),
            hz _ _ (by simp only [OFF_STUFF]; omega)]
          exact readAt_replicate _ _ _ (by simp only [OFF_STUFF]; omega)
        · rw [f9 _ _ (Or.inl (by simp only [OFF_MAC, OFF_DATA]; omega)),
            hz _ _ (by omega)]
          exact readAt_replicate _ _ _ (by simp only [OFF_MAC]; omega)
      · have hlt : i < k := by omega
        obtain ⟨g1, g2⟩ := hfr i hlt
        refine ⟨IsReadFrame_of_readAt_eq fr _ i _ _ _ _ _ (fun o n _ h2 _ => ?_) g1, ?_⟩
        · exact f9 _ _ (Or.inl (by simp only [OFF_DATA]; omega))
        · rw [f9 _ _ (Or.inl (by simp only [OFF_MAC, OFF_DATA]; omega))]
          exact g2
    · intro o n ho
      rw [f9 _ _ (Or.inr (by omega))]
      exact hz _ _ (by omega)

/-- The result of `FinalizePendingRead` on a pending read with a programmed key and a valid
range: the queue is the buffer of `blkCnt` filled frames with the MAC stored in the last one. -/
theorem FinalizePendingRead_ok (H : HmacSha256) (s : State) (blkCnt : Nat)
    (hp : s.pendingRead.valid = true) (hk : s.keyProgrammed = true)
    (hwf : s.storage.length = s.opt.maxBlocks * 256)
    (hb : 0 < blkCnt) (hv : s.pendingRead.addr + blkCnt ≤ s.opt.maxBlocks)
    (hsmall : s.pendingRead.addr + blkCnt < 4294967296) :
    ∃ fr, fr.length = blkCnt * 512 ∧
      (∀ i, i < blkCnt →
        IsReadFrame fr i (storageBlock s.storage ((s.pendingRead.addr + i) % 65536))
          s.pendingRead.nonce s.writeCounter (s.pendingRead.addr + i) blkCnt ∧
        readAt fr (i * 512 + OFF_MAC) 32 = List.replicate 32 0) ∧
      FinalizePendingRead H s blkCnt =
        { s with
          pendingRead := { s.pendingRead with valid := false }
          respQueue := memcpy fr ((blkCnt - 1) * 512 + OFF_MAC)
            (ComputeMac284_Multi H s fr blkCnt) 32 } := by
  obtain ⟨fr, e, hl, hfr, -⟩ := fillLoop_spec s s.pendingRead.addr blkCnt s.pendingRead.nonce
    (blkCnt * 512) blkCnt hwf hv (Nat.le_refl _)
  refine ⟨fr, hl, hfr, ?_⟩
  have hb0 : (blkCnt == 0) = false := by
    rw [beq_eq_false_iff_ne]; omega
  have hvalid : StorageAddrValid
      { s with pendingRead := { s.pendingRead with valid := false }, respQueue := [] }
      s.pendingRead.addr blkCnt = true := by
    rw [StorageAddrValid_iff]
    refine ⟨by omega, ?_⟩
    rw [Nat.mod_eq_of_lt hsmall]
    exact hv
  simp only [FinalizePendingRead, hb0, Bool.false_eq_true, if_false]
  rw [if_neg (by simp [hp]), if_neg (by simp [hk]), if_neg (by rw [hvalid]; decide)]
  have e' : FinalizePendingRead.fillFrames
      { s with pendingRead := { s.pendingRead with valid := false }, respQueue := [] }
      s.pendingRead.addr blkCnt s.pendingRead.nonce (List.replicate (blkCnt * 512) 0)
      = some fr := e
  rw [e']
  rfl

/-- Storing the MAC in the last frame keeps the length and every byte outside that MAC
field. -/
theorem macStore_spec (fr mac : List Nat) (blkCnt : Nat) (hl : fr.length = blkCnt * 512)
    (hb : 0 < blkCnt) (hm : mac.length = 32) :
    (memcpy fr ((blkCnt - 1) * 512 + OFF_MAC) mac 32).length = blkCnt * 512 ∧
    readAt (memcpy fr ((blkCnt - 1) * 512 + OFF_MAC) mac 32) ((blkCnt - 1) * 512 + OFF_MAC) 32
      = mac ∧
    (∀ o n, o + n ≤ (blkCnt - 1) * 512 + OFF_MAC ∨ (blkCnt - 1) * 512 + OFF_DATA ≤ o →
      readAt (memcpy fr ((blkCnt - 1) * 512 + OFF_MAC) mac 32) o n = readAt fr o n) := by
  have ht : mac.take 32 = mac := List.take_of_length_le (by omega)
  have hin : (blkCnt - 1) * 512 + 512 ≤ fr.length := by
    rw [hl]
    have : blkCnt = (blkCnt - 1) + 1 := by omega
    omega
  simp only [memcpy, ht]
  refine ⟨?_, ?_, ?_⟩
  · rw [length_writeAt _ _ _ (by simp only [hm, OFF_MAC]; omega), hl]
  · exact readAt_writeAt_eq _ _ _ _ hm (by simp only [OFF_MAC]; omega)
  · intro o n h
    rcases h with h | h
    · exact readAt_writeAt_before _ _ _ _ _ h (by simp only [OFF_MAC]; omega)
    · exact readAt_writeAt_after _ _ _ _ _ (by simp only [hm, OFF_MAC, OFF_DATA] at h ⊢; omega)
        (by simp only [hm, OFF_MAC]; omega)

theorem HandleWriteRequestFrames_data_write (H : HmacSha256) (s : State) (data : List Nat)
    (hlen : data.length % 512 = 0) (ht : frameReqResp data = RPMB_REQ_DATA_WRITE) :
    HandleWriteRequestFrames H s data =
      HandleDataWrite H { s with respQueue := [] } data data (data.length / 512) := by
  unfold frameReqResp at ht
  simp only [HandleWriteRequestFrames]
  rw [if_neg (by simp [hlen]), if_pos (by simp [ht])]
  exact ProcessRequest_data_write H s data data _ ht

theorem frameResult_frameAt (q : List Nat) (i v : Nat)
    (h : readAt q (i * 512 + OFF_RESULT) 2 = SetBe16 v) :
    frameResult (frameAt q i) = v % 65536 := by
  refine Be16_drop_of_readAt _ _ _ ?_
  rw [frameAt, readAt_readAt _ _ _ _ _ (by decide)]
  exact h

theorem frameReqResp_frameAt (q : List Nat) (i v : Nat)
    (h : readAt q (i * 512 + OFF_REQRESP) 2 = SetBe16 v) :
    frameReqResp (frameAt q i) = v % 65536 := by
  refine Be16_drop_of_readAt _ _ _ ?_
  rw [frameAt, readAt_readAt _ _ _ _ _ (by decide)]
  exact h

theorem frameData_frameAt_eq (q : List Nat) (i : Nat) :
    frameData (frameAt q i) = readAt q (i * 512 + OFF_DATA) 256 := by
  rw [frameData, frameAt, readAt_readAt _ _ _ _ _ (by decide)]

/-! ## Write, then read back -/

/-- Claim C5. For every `addr` and `blk_cnt > 0` with `addr + blk_cnt ≤ max_blocks` and a
programmed key: after a DATA_WRITE of `blk_cnt` frames at `addr` that passes every check
(`specDataWriteResult = OK`, which contains the three conditions), a DATA_READ request with
address `addr` followed by `FinalizePendingRead(blk_cnt)` and
`ReadResponseFrames(blk_cnt * 512)` returns `blk_cnt` frames of type `0x0400` with result
`OK` in which the data field of frame `i` equals the data field of written frame `i`, for
every `i` in `[0, blk_cnt)`. -/
theorem write_then_read_returns_data (H : HmacSha256) (s : State) (wdata rreq : List Nat)
    (hwf : s.storage.length = s.opt.maxBlocks * 256)
    (hwlen : wdata.length = frameBlockCount wdata * 512)
    (hwt : frameReqResp wdata = RPMB_REQ_DATA_WRITE)
    (hok : specDataWriteResult H s wdata wdata (frameBlockCount wdata) = RPMB_RES_OK)
    (hrlen : rreq.length = 512)
    (hrt : frameReqResp rreq = RPMB_REQ_DATA_READ)
    (hra : frameAddr rreq = frameAddr wdata) :
    (readBack H s wdata rreq (frameBlockCount wdata)).length = frameBlockCount wdata * 512 ∧
    ∀ i, i < frameBlockCount wdata →
      frameReqResp (frameAt (readBack H s wdata rreq (frameBlockCount wdata)) i) = 0x0400 ∧
      frameResult (frameAt (readBack H s wdata rreq (frameBlockCount wdata)) i)
        = RPMB_RES_OK ∧
      frameData (frameAt (readBack H s wdata rreq (frameBlockCount wdata)) i)
        = frameData (frameAt wdata i) := by
  obtain ⟨hk, hc0, -, hv, -, -⟩ :=
    (specDataWriteResult_ok_iff H s wdata wdata (frameBlockCount wdata)).mp hok
  have hcpos : 0 < frameBlockCount wdata := Nat.pos_of_ne_zero hc0
  have ha : frameAddr wdata < 65536 := Be16_lt _
  have hc : frameBlockCount wdata < 65536 := Be16_lt _
  have hv' := ((StorageAddrValid_iff _ _ _).mp hv).2
  rw [Nat.mod_eq_of_lt (by omega)] at hv'
  have hdiv : wdata.length / 512 = frameBlockCount wdata := by rw [hwlen]; omega
  -- the write
  have e1 : HandleWriteRequestFrames H s wdata =
      HandleDataWrite H { s with respQueue := [] } wdata wdata (frameBlockCount wdata) := by
    rw [HandleWriteRequestFrames_data_write H s wdata (by rw [hwlen]; omega) hwt, hdiv]
  have hok' : specDataWriteResult H { s with respQueue := [] } wdata wdata
      (frameBlockCount wdata) = RPMB_RES_OK := hok
  obtain ⟨w1, w2, -⟩ := writtenStorage_spec { s with respQueue := [] } wdata (frameAddr wdata)
    (frameBlockCount wdata) hwf hv' (by omega) (by rw [hwlen])
  -- the state when the read is finalized
  have e2 : HandleWriteRequestFrames H (HandleWriteRequestFrames H s wdata) rreq =
      StartPendingRead { HandleWriteRequestFrames H s wdata with respQueue := [] } rreq := by
    rw [HandleWriteRequestFrames_single H _ rreq hrlen]
    exact ProcessRequest_data_read H _ rreq rreq 1 hrt
  have hst : (HandleWriteRequestFrames H s wdata).storage =
      (writtenStorage { s with respQueue := [] } wdata (frameAddr wdata)
        (frameBlockCount wdata)).storage := by
    rw [e1, HandleDataWrite_ok H _ wdata wdata _ hok']
  have hopt : (HandleWriteRequestFrames H s wdata).opt = s.opt := by
    rw [e1, HandleDataWrite_ok H _ wdata wdata _ hok']
  have hkp : (HandleWriteRequestFrames H s wdata).keyProgrammed = true := by
    rw [e1, HandleDataWrite_ok H _ wdata wdata _ hok']
    exact hk
  obtain ⟨fr, hl, hfr, e3⟩ := FinalizePendingRead_ok H
    (StartPendingRead { HandleWriteRequestFrames H s wdata with respQueue := [] } rreq)
    (frameBlockCount wdata) rfl hkp
    (by
      show (HandleWriteRequestFrames H s wdata).storage.length
        = (HandleWriteRequestFrames H s wdata).opt.maxBlocks * 256
      rw [hst, hopt, w1]
      exact hwf)
    hcpos
    (by
      show frameAddr rreq + frameBlockCount wdata
        ≤ (HandleWriteRequestFrames H s wdata).opt.maxBlocks
      rw [hra, hopt]
      exact hv')
    (by
      show frameAddr rreq + frameBlockCount wdata < 4294967296
      rw [hra]
      omega)
  obtain ⟨m1, -, m3⟩ := macStore_spec fr
    (ComputeMac284_Multi H
      (StartPendingRead { HandleWriteRequestFrames H s wdata with respQueue := [] } rreq) fr
      (frameBlockCount wdata))
    (frameBlockCount wdata) hl hcpos (H.hmac_length _ _)
  -- the bytes read back are the whole queue
  have hout : readBack H s wdata rreq (frameBlockCount wdata) =
      memcpy fr ((frameBlockCount wdata - 1) * 512 + OFF_MAC)
        (ComputeMac284_Multi H
          (StartPendingRead { HandleWriteRequestFrames H s wdata with respQueue := [] } rreq)
          fr (frameBlockCount wdata)) 32 := by
    simp only [readBack]
    rw [e2, e3, ReadResponseFrames_all _ _ m1]
  rw [hout]
  refine ⟨m1, fun i hi => ?_⟩
  have hframe := IsReadFrame_of_readAt_eq fr
    (memcpy fr ((frameBlockCount wdata - 1) * 512 + OFF_MAC)
      (ComputeMac284_Multi H
        (StartPendingRead { HandleWriteRequestFrames H s wdata with respQueue := [] } rreq)
        fr (frameBlockCount wdata)) 32)
    i _ _ _ _ _
    (fun o n h1 h2 h3 => m3 o n (by
      by_cases hlast : i = frameBlockCount wdata - 1
      · subst hlast
        exact h3
      · left
        have : i + 1 ≤ frameBlockCount wdata - 1 := by omega
        have : (i + 1) * 512 ≤ (frameBlockCount wdata - 1) * 512 :=
          Nat.mul_le_mul_right _ this
        omega))
    (hfr i hi).1
  obtain ⟨-, g2, -, -, -, -, g7, g8⟩ := hframe
  refine ⟨frameReqResp_frameAt _ _ _ g8, frameResult_frameAt _ _ _ g7, ?_⟩
  rw [frameData_frameAt_eq, g2]
  show storageBlock (HandleWriteRequestFrames H s wdata).storage
    ((frameAddr rreq + i) % 65536) = frameData (frameAt wdata i)
  rw [hst, hra]
  exact w2 i hi

/-- An instance of claim C5: the one-block write `exWriteFrame 0` at address 1 on `exState`
is read back as `256 × 0xAB`. -/
theorem write_then_read_returns_data_witness :
    (readBack sampleHmac exState (exWriteFrame 0) (exRequest 4 1) 1).length = 512 ∧
    frameResult (frameAt (readBack sampleHmac exState (exWriteFrame 0) (exRequest 4 1) 1) 0)
      = RPMB_RES_OK ∧
    frameData (frameAt (readBack sampleHmac exState (exWriteFrame 0) (exRequest 4 1) 1) 0)
      = List.replicate 256 0xAB :=
  have h := write_then_read_returns_data sampleHmac exState (exWriteFrame 0) (exRequest 4 1)
    (by decide) (by decide) (by decide) (by decide) (by decide) (by decide) (by decide)
  ⟨h.1, (h.2 0 (by decide)).2.1, (h.2 0 (by decide)).2.2.trans (by decide)⟩

/-! ## DATA_READ request, RESULT_READ, unknown types, response pump -/

theorem getD_drop (l : List Nat) (k i d : Nat) : (l.drop k).getD i d = l.getD (k + i) d := by
  simp only [List.getD_eq_getElem?_getD, List.getElem?_drop]

theorem Be16_of_bytes (p : List Nat) (h0 : p.getD 0 0 < 256) (h1 : p.getD 1 0 < 256) :
    Be16 p = p.getD 0 0 * 256 + p.getD 1 0 := by
  have h := Nat.mul_add_lt_is_or (i := 8) (b := p.getD 1 0) (by omega) (p.getD 0 0)
  simp only [Be16, Nat.shiftLeft_eq]
  rw [Nat.mul_comm, ← h]
  omega

/-- Claim C11. For every engine state and every DATA_READ request frame, whatever block
count it carries: afterwards the response queue is empty, `HasPendingRead()` is true, the
latched address is the big-endian 16-bit value at offset `0x1F8` of the request
(`256 * byte[0x1F8] + byte[0x1F9]`), the latched nonce is the 16 bytes at offset `0x1E4`,
and key, `key_programmed`, `write_counter` and storage are unchanged. -/
theorem ProcessRequest_data_read_latches (H : HmacSha256) (s : State) (f all : List Nat)
    (n : Nat) (hf : 512 ≤ f.length) (ht : frameReqResp f = RPMB_REQ_DATA_READ) :
    (ProcessRequest H s f all n).respQueue = [] ∧
    HasPendingRead (ProcessRequest H s f all n) = true ∧
    (ProcessRequest H s f all n).pendingRead.addr = Be16 (f.drop 0x1F8) ∧
    (f.getD 0x1F8 0 < 256 → f.getD 0x1F9 0 < 256 →
      (ProcessRequest H s f all n).pendingRead.addr = f.getD 0x1F8 0 * 256 + f.getD 0x1F9 0) ∧
    (ProcessRequest H s f all n).pendingRead.nonce = readAt f 0x1E4 16 ∧
    (ProcessRequest H s f all n).pendingRead.nonce.length = 16 ∧
    (ProcessRequest H s f all n).key = s.key ∧
    (ProcessRequest H s f all n).keyProgrammed = s.keyProgrammed ∧
    (ProcessRequest H s f all n).writeCounter = s.writeCounter ∧
    (ProcessRequest H s f all n).storage = s.storage := by
  rw [ProcessRequest_data_read H s f all n ht]
  refine ⟨rfl, rfl, rfl, ?_, rfl, ?_, rfl, rfl, rfl, rfl⟩
  · intro h0 h1
    show Be16 (f.drop OFF_ADDR) = _
    rw [Be16_of_bytes _ (by rw [getD_drop]; exact h0) (by rw [getD_drop]; exact h1),
      getD_drop, getD_drop]
    rfl
  · show ((f.drop OFF_NONCE).take 16).length = 16
    simp only [List.length_take, List.length_drop, OFF_NONCE]
    omega

/-- An instance of claim C11: the request `exRequest 4 1` on `exState`. -/
theorem ProcessRequest_data_read_latches_witness :
    (ProcessRequest sampleHmac exState (exRequest 4 1) (exRequest 4 1) 1).respQueue = [] ∧
    (ProcessRequest sampleHmac exState (exRequest 4 1) (exRequest 4 1) 1).pendingRead.addr
      = 1 :=
  have h := ProcessRequest_data_read_latches sampleHmac exState (exRequest 4 1)
    (exRequest 4 1) 1 (by decide) (by decide)
  ⟨h.1, (h.2.2.2.1 (by decide) (by decide)).trans (by decide)⟩

/-- Claim C17. For every engine state and every request frame whose req/resp field is not
one of `0x0001..0x0005`, processing it leaves the response queue holding exactly one
512-byte frame (any previous content is gone) with req/resp `0x0500` and result
`GENERAL_FAIL`, and leaves key, `key_programmed`, `write_counter` and storage unchanged. -/
theorem ProcessRequest_unknown_type (H : HmacSha256) (s : State) (f all : List Nat) (n : Nat)
    (h1 : frameReqResp f ≠ 0x0001) (h2 : frameReqResp f ≠ 0x0002)
    (h3 : frameReqResp f ≠ 0x0003) (h4 : frameReqResp f ≠ 0x0004)
    (h5 : frameReqResp f ≠ 0x0005) :
    (ProcessRequest H s f all n).respQueue.length = 512 ∧
    frameReqResp (ProcessRequest H s f all n).respQueue = 0x0500 ∧
    frameResult (ProcessRequest H s f all n).respQueue = RPMB_RES_GENERAL_FAIL ∧
    (ProcessRequest H s f all n).key = s.key ∧
    (ProcessRequest H s f all n).keyProgrammed = s.keyProgrammed ∧
    (ProcessRequest H s f all n).writeCounter = s.writeCounter ∧
    (ProcessRequest H s f all n).storage = s.storage := by
  rw [ProcessRequest_unknown H s f all n h1 h2 h3 h4 h5]
  obtain ⟨e, l, -, -, -, -, -, -, -, r, t, -⟩ :=
    MakeResponse_on_empty H { s with respQueue := [] } RPMB_RESP_RESULT_READ
      RPMB_RES_GENERAL_FAIL s.writeCounter 0 0 none false rfl
  refine ⟨l, t, r, ?_, ?_, ?_, ?_⟩ <;> rw [e]

/-- An instance of claim C17: a request of type 6 on `exState` with a non-empty queue. -/
theorem ProcessRequest_unknown_type_witness :
    (ProcessRequest sampleHmac { exState with respQueue := [1, 2, 3] } (exRequest 6 0)
      (exRequest 6 0) 1).respQueue.length = 512 ∧
    frameResult (ProcessRequest sampleHmac { exState with respQueue := [1, 2, 3] }
      (exRequest 6 0) (exRequest 6 0) 1).respQueue = RPMB_RES_GENERAL_FAIL :=
  have h := ProcessRequest_unknown_type sampleHmac { exState with respQueue := [1, 2, 3] }
    (exRequest 6 0) (exRequest 6 0) 1 (by decide) (by decide) (by decide) (by decide)
    (by decide)
  ⟨h.1, h.2.2.1⟩

/-- Claim C18. For every response queue `q` and every `len`: if `|q| ≥ len`,
`ReadResponseFrames(len)` outputs the first `len` bytes of `q` and leaves the queue equal
to `q` with its first `len` bytes removed; if `|q| < len`, it outputs `len` zero bytes and
leaves the queue unchanged. In both cases no other engine state changes. -/
theorem ReadResponseFrames_spec (s : State) (len : Nat) :
    (len ≤ s.respQueue.length →
      (ReadResponseFrames s len).2 = s.respQueue.take len ∧
      (ReadResponseFrames s len).2.length = len ∧
      (ReadResponseFrames s len).1 = { s with respQueue := s.respQueue.drop len }) ∧
    (s.respQueue.length < len →
      (ReadResponseFrames s len).2 = List.replicate len 0 ∧
      (ReadResponseFrames s len).1 = s) := by
  constructor
  · intro h
    simp only [ReadResponseFrames]
    rw [if_neg (by omega)]
    exact ⟨rfl, by rw [List.length_take]; omega, rfl⟩
  · intro h
    simp only [ReadResponseFrames]
    rw [if_pos h]
    exact ⟨rfl, rfl⟩

/-- An instance of claim C18: a queue of four bytes read with `len = 3` and with
`len = 5`. -/
theorem ReadResponseFrames_spec_witness :
    (ReadResponseFrames { exState with respQueue := [1, 2, 3, 4] } 3).2 = [1, 2, 3] ∧
    (ReadResponseFrames { exState with respQueue := [1, 2, 3, 4] } 3).1.respQueue = [4] ∧
    (ReadResponseFrames { exState with respQueue := [1, 2, 3, 4] } 5).2 = [0, 0, 0, 0, 0] ∧
    (ReadResponseFrames { exState with respQueue := [1, 2, 3, 4] } 5).1.respQueue
      = [1, 2, 3, 4] :=
  have h := ReadResponseFrames_spec { exState with respQueue := [1, 2, 3, 4] } 3
  have g := ReadResponseFrames_spec { exState with respQueue := [1, 2, 3, 4] } 5
  ⟨(h.1 (by decide)).1, by rw [(h.1 (by decide)).2.2]; rfl, (g.2 (by decide)).1,
    by rw [(g.2 (by decide)).2]⟩

theorem MakeResponse_respQueue_length (H : HmacSha256) (s : State) (typ res wc addr cnt : Nat)
    (nonce16 : Option (List Nat)) (addMac : Bool) :
    (MakeResponse H s typ res wc none addr cnt nonce16 addMac).respQueue.length
      = s.respQueue.length + 512 := by
  obtain ⟨r, e, l, -⟩ := MakeResponse_fields H s typ res wc addr cnt nonce16 addMac
  rw [e]
  simp only [List.length_append, l]

theorem writeAt_ne_nil (buf : List Nat) (off : Nat) (src : List Nat) (h : src ≠ []) :
    writeAt buf off src ≠ [] := by
  intro e
  have hl := congrArg List.length e
  simp only [writeAt, List.length_append, List.length_nil] at hl
  have : 0 < src.length := List.length_pos.mpr h
  omega

/-- Finalizing a pending read clears the latch and leaves a non-empty queue. -/
theorem FinalizePendingRead_pending (H : HmacSha256) (s : State) (blkCnt : Nat)
    (hp : s.pendingRead.valid = true) :
    (FinalizePendingRead H s blkCnt).pendingRead
      = { s.pendingRead with valid := false } ∧
    (FinalizePendingRead H s blkCnt).respQueue ≠ [] := by
  have hne : ∀ (t : State) (typ res wc addr cnt : Nat) (nonce16 : Option (List Nat)),
      (MakeResponse H t typ res wc none addr cnt nonce16 false).respQueue ≠ [] := by
    intro t typ res wc addr cnt nonce16 e
    have hl := MakeResponse_respQueue_length H t typ res wc addr cnt nonce16 false
    rw [e] at hl
    simp only [List.length_nil] at hl
    omega
  simp only [FinalizePendingRead]
  rw [if_neg (by simp [hp])]
  split_ifs
  all_goals first
    | exact ⟨rfl, hne _ _ _ _ _ _ _⟩
    | (split
       · exact ⟨rfl, hne _ _ _ _ _ _ _⟩
       · refine ⟨rfl, ?_⟩
         simp only [List.nil_append, memcpy]
         refine writeAt_ne_nil _ _ _ (fun e => ?_)
         have hl := congrArg List.length e
         simp only [List.length_take, ComputeMac284_Multi, H.hmac_length,
           List.length_nil] at hl
         omega)

theorem FinalizePendingRead_none (H : HmacSha256) (s : State) (blkCnt : Nat)
    (hp : s.pendingRead.valid = false) : FinalizePendingRead H s blkCnt = s := by
  simp only [FinalizePendingRead]
  rw [if_pos (by simp [hp])]

/-- Claim C15 as stated fails: on `exPending` (a DATA_READ for address 1 is pending, the
queue is empty) a RESULT_READ request makes `ProcessRequest` call
`FinalizePendingRead(1)`: the pending read is cleared and a 512-byte response is queued. -/
theorem result_read_finalizes_pending :
    HasPendingRead exPending = true ∧
    exPending.respQueue = [] ∧
    frameReqResp (exRequest 5 0) = RPMB_REQ_RESULT_READ ∧
    HasPendingRead (ProcessRequest sampleHmac exPending (exRequest 5 0) (exRequest 5 0) 1)
      = false ∧
    (ProcessRequest sampleHmac exPending (exRequest 5 0) (exRequest 5 0) 1).respQueue.length
      = 512 ∧
    ProcessRequest sampleHmac exPending (exRequest 5 0) (exRequest 5 0) 1 ≠ exPending := by
  decide

/-- Claim C15, amended. For every engine state in which a DATA_READ is pending and every
RESULT_READ request frame: when the response queue is not empty, processing the request
leaves the whole engine state unchanged (the pending read stays latched, the queue is not
modified); when the response queue is empty, the request materializes the response of the
pending read with block count 1, the state being that of `FinalizePendingRead(1)`. -/
theorem ProcessRequest_result_read_pending (H : HmacSha256) (s : State) (f all : List Nat)
    (n : Nat) (hp : HasPendingRead s = true) (ht : frameReqResp f = RPMB_REQ_RESULT_READ) :
    (s.respQueue ≠ [] → ProcessRequest H s f all n = s) ∧
    (s.respQueue = [] → ProcessRequest H s f all n = FinalizePendingRead H s 1) := by
  have hp' : s.pendingRead.valid = true := hp
  rw [ProcessRequest_result_read H s f all n ht]
  constructor
  · intro hq
    have he : s.respQueue.isEmpty = false := by
      cases hs : s.respQueue with
      | nil => exact absurd hs hq
      | cons a l => rfl
    rw [if_neg (by rw [hp', he]; decide)]
    simp only [HandleResultRead]
    rw [if_pos hp']
  · intro hq
    rw [if_pos (by rw [hp', hq]; rfl)]
    obtain ⟨g1, g2⟩ := FinalizePendingRead_pending H s 1 hp'
    have he : (FinalizePendingRead H s 1).respQueue.isEmpty = false := by
      cases hs : (FinalizePendingRead H s 1).respQueue with
      | nil => exact absurd hs g2
      | cons a l => rfl
    simp only [HandleResultRead]
    rw [if_neg (by rw [g1]; simp), if_pos (by rw [he]; rfl)]

/-- An instance of the amended claim C15: `exPending` with one byte in the queue is left
unchanged by a RESULT_READ request. -/
theorem ProcessRequest_result_read_pending_witness :
    ProcessRequest sampleHmac { exPending with respQueue := [9] } (exRequest 5 0)
      (exRequest 5 0) 1 = { exPending with respQueue := [9] } :=
  (ProcessRequest_result_read_pending sampleHmac { exPending with respQueue := [9] }
    (exRequest 5 0) (exRequest 5 0) 1 (by decide) (by decide)).1 (by decide)

/-- Claim C16 as stated fails: on `exCounter7` (no pending read, empty queue,
`write_counter = 7`) the RESULT_READ response carries write counter 7, not 0. -/
theorem result_read_response_carries_counter :
    HasPendingRead exCounter7 = false ∧
    exCounter7.respQueue = [] ∧
    exCounter7.writeCounter = 7 ∧
    frameReqResp (ProcessRequest sampleHmac exCounter7 (exRequest 5 0) (exRequest 5 0)
      1).respQueue = 0x0500 ∧
    frameWCounter (ProcessRequest sampleHmac exCounter7 (exRequest 5 0) (exRequest 5 0)
      1).respQueue = 7 ∧
    readAt (ProcessRequest sampleHmac exCounter7 (exRequest 5 0) (exRequest 5 0)
      1).respQueue OFF_WCOUNTER 4 ≠ [0, 0, 0, 0] := by
  decide

/-- Claim C16, amended. For every engine state with no pending read and an empty response
queue, a RESULT_READ request leaves the queue holding exactly one frame with req/resp
`0x0500`, result `GENERAL_FAIL`, a zero MAC field, zero address and block count fields, and
the write counter field equal to the current `write_counter` (big-endian). -/
theorem ProcessRequest_result_read_idle (H : HmacSha256) (s : State) (f all : List Nat)
    (n : Nat) (hp : HasPendingRead s = false) (hq : s.respQueue = [])
    (ht : frameReqResp f = RPMB_REQ_RESULT_READ) :
    (ProcessRequest H s f all n).respQueue.length = 512 ∧
    frameReqResp (ProcessRequest H s f all n).respQueue = 0x0500 ∧
    frameResult (ProcessRequest H s f all n).respQueue = RPMB_RES_GENERAL_FAIL ∧
    frameMac (ProcessRequest H s f all n).respQueue = List.replicate 32 0 ∧
    readAt (ProcessRequest H s f all n).respQueue OFF_ADDR 2 = [0, 0] ∧
    readAt (ProcessRequest H s f all n).respQueue OFF_BLOCK_COUNT 2 = [0, 0] ∧
    readAt (ProcessRequest H s f all n).respQueue OFF_WCOUNTER 4 =
      [s.writeCounter / 16777216 % 256, s.writeCounter / 65536 % 256,
        s.writeCounter / 256 % 256, s.writeCounter % 256] ∧
    frameWCounter (ProcessRequest H s f all n).respQueue = s.writeCounter % 4294967296 := by
  have hp' : s.pendingRead.valid = false := hp
  rw [ProcessRequest_result_read H s f all n ht, if_neg (by rw [hp']; simp)]
  simp only [HandleResultRead]
  rw [if_neg (by rw [hp']; simp), if_neg (by rw [hq]; decide)]
  obtain ⟨-, l, -, m, -, -, w, -, -, r, t, wb, ab, cb⟩ :=
    MakeResponse_on_empty H s RPMB_RESP_RESULT_READ RPMB_RES_GENERAL_FAIL s.writeCounter 0 0
      none false hq
  rw [if_neg (by simp)] at m
  refine ⟨l, t, r, m, ab, cb, ?_, w⟩
  rw [wb, SetBe32_eq]

/-- An instance of the amended claim C16 on `exCounter7`. -/
theorem ProcessRequest_result_read_idle_witness :
    frameResult (ProcessRequest sampleHmac exCounter7 (exRequest 5 0) (exRequest 5 0)
      1).respQueue = RPMB_RES_GENERAL_FAIL ∧
    frameWCounter (ProcessRequest sampleHmac exCounter7 (exRequest 5 0) (exRequest 5 0)
      1).respQueue = 7 :=
  have h := ProcessRequest_result_read_idle sampleHmac exCounter7 (exRequest 5 0)
    (exRequest 5 0) 1 (by decide) (by decide) (by decide)
  ⟨h.2.2.1, h.2.2.2.2.2.2.2⟩

/-! ## The response batch of `FinalizePendingRead` -/

theorem foldl_append_eq_flatMap (g : Nat → List Nat) (l : List Nat) (init : List Nat) :
    l.foldl (fun msg i => msg ++ g i) init = init ++ l.flatMap g := by
  induction l generalizing init with
  | nil => simp
  | cons x xs ih =>
    simp only [List.foldl_cons, List.flatMap_cons]
    rw [ih, List.append_assoc]

theorem flatMap_congr_mem (f g : Nat → List Nat) (l : List Nat)
    (h : ∀ x, x ∈ l → f x = g x) : l.flatMap f = l.flatMap g := by
  induction l with
  | nil => rfl
  | cons x xs ih =>
    simp only [List.flatMap_cons]
    rw [h x (List.mem_cons_self _ _), ih (fun y hy => h y (List.mem_cons_of_mem _ hy))]

theorem macRegion_frameAt (q : List Nat) (i : Nat) :
    macRegion (frameAt q i) = readAt q (i * 512 + OFF_DATA) 284 := by
  rw [macRegion, frameAt, readAt_readAt _ _ _ _ _ (by decide)]

theorem frameMac_frameAt (q : List Nat) (i : Nat) :
    frameMac (frameAt q i) = readAt q (i * 512 + OFF_MAC) 32 := by
  rw [frameMac, frameAt, readAt_readAt _ _ _ _ _ (by decide)]

/-- The queue after `FinalizePendingRead` on a pending read with a programmed key and a
valid range: `blkCnt` frames, zero MAC fields but in the last frame, which carries the
HMAC of the concatenated 284-byte regions. -/
theorem FinalizePendingRead_batch (H : HmacSha256) (s : State) (blkCnt : Nat)
    (hp : s.pendingRead.valid = true) (hk : s.keyProgrammed = true)
    (hwf : s.storage.length = s.opt.maxBlocks * 256)
    (hb : 0 < blkCnt) (hv : s.pendingRead.addr + blkCnt ≤ s.opt.maxBlocks)
    (hsmall : s.pendingRead.addr + blkCnt < 4294967296) :
    FinalizePendingRead H s blkCnt =
      { s with
        pendingRead := { s.pendingRead with valid := false }
        respQueue := (FinalizePendingRead H s blkCnt).respQueue } ∧
    (FinalizePendingRead H s blkCnt).respQueue.length = blkCnt * 512 ∧
    (∀ i, i < blkCnt →
      IsReadFrame (FinalizePendingRead H s blkCnt).respQueue i
        (storageBlock s.storage ((s.pendingRead.addr + i) % 65536))
        s.pendingRead.nonce s.writeCounter (s.pendingRead.addr + i) blkCnt) ∧
    (∀ i, i + 1 < blkCnt →
      readAt (FinalizePendingRead H s blkCnt).respQueue (i * 512 + OFF_MAC) 32
        = List.replicate 32 0) ∧
    readAt (FinalizePendingRead H s blkCnt).respQueue ((blkCnt - 1) * 512 + OFF_MAC) 32
      = H.hmac s.key ((List.range blkCnt).flatMap
          (fun i => readAt (FinalizePendingRead H s blkCnt).respQueue
            (i * 512 + OFF_DATA) 284)) := by
  obtain ⟨fr, hl, hfr, e⟩ := FinalizePendingRead_ok H s blkCnt hp hk hwf hb hv hsmall
  obtain ⟨m1, m2, m3⟩ := macStore_spec fr (ComputeMac284_Multi H s fr blkCnt) blkCnt hl hb
    (H.hmac_length _ _)
  have hlast : ∀ i, i < blkCnt → ∀ o n, i * 512 ≤ o → o + n ≤ i * 512 + 512 →
      (o + n ≤ i * 512 + OFF_MAC ∨ i * 512 + OFF_DATA ≤ o) →
      (o + n ≤ (blkCnt - 1) * 512 + OFF_MAC ∨ (blkCnt - 1) * 512 + OFF_DATA ≤ o) := by
    intro i hi o n h1 h2 h3
    by_cases hlast : i = blkCnt - 1
    · subst hlast
      exact h3
    · left
      have : i + 1 ≤ blkCnt - 1 := by omega
      have : (i + 1) * 512 ≤ (blkCnt - 1) * 512 := Nat.mul_le_mul_right _ this
      omega
  rw [e]
  refine ⟨rfl, m1, fun i hi => ?_, fun i hi => ?_, ?_⟩
  · exact IsReadFrame_of_readAt_eq fr _ i _ _ _ _ _
      (fun o n h1 h2 h3 => m3 o n (hlast i hi o n h1 h2 h3)) (hfr i hi).1
  · show readAt (memcpy fr ((blkCnt - 1) * 512 + OFF_MAC) (ComputeMac284_Multi H s fr blkCnt)
      32) (i * 512 + OFF_MAC) 32 = List.replicate 32 0
    have : (i + 1) * 512 ≤ (blkCnt - 1) * 512 := Nat.mul_le_mul_right _ (by omega)
    rw [m3 _ _ (Or.inl (by simp only [OFF_MAC]; omega))]
    exact (hfr i (by omega)).2
  · show readAt (memcpy fr ((blkCnt - 1) * 512 + OFF_MAC) (ComputeMac284_Multi H s fr blkCnt)
      32) ((blkCnt - 1) * 512 + OFF_MAC) 32 = _
    rw [m2]
    have hmacEq : ComputeMac284_Multi H s fr blkCnt = H.hmac s.key
        ((List.range blkCnt).flatMap (fun i => readAt (fr.drop (i * 512)) OFF_DATA 284)) := by
      simp only [ComputeMac284_Multi]
      rw [foldl_append_eq_flatMap (fun i => readAt (fr.drop (i * 512)) OFF_DATA 284),
        List.nil_append]
    refine hmacEq.trans ?_
    congr 1
    refine flatMap_congr_mem _ _ _ (fun i hi => ?_)
    have hi' : i < blkCnt := List.mem_range.mp hi
    show readAt (fr.drop (i * 512)) OFF_DATA 284 = readAt (memcpy fr _ _ 32) _ 284
    rw [readAt_drop]
    exact (m3 _ _ (hlast i hi' (i * 512 + OFF_DATA) 284 (by omega)
      (by simp only [OFF_DATA]; omega) (Or.inr (Nat.le_refl _)))).symm

/-- The fields of frame `i` of a buffer, read through `frameAt`. -/
theorem IsReadFrame_fields (q : List Nat) (i : Nat) (data nonce : List Nat) (wc addr cnt : Nat)
    (h : IsReadFrame q i data nonce wc addr cnt) :
    frameStuff (frameAt q i) = List.replicate 196 0 ∧
    frameData (frameAt q i) = data ∧
    (16 ≤ nonce.length → frameNonce (frameAt q i) = nonce.take 16) ∧
    frameWCounter (frameAt q i) = wc % 4294967296 ∧
    frameAddr (frameAt q i) = addr % 65536 ∧
    frameBlockCount (frameAt q i) = cnt % 65536 ∧
    frameResult (frameAt q i) = RPMB_RES_OK ∧
    frameReqResp (frameAt q i) = 0x0400 := by
  obtain ⟨h1, h2, h3, h4, h5, h6, h7, h8⟩ := h
  refine ⟨?_, ?_, ?_, ?_, ?_, ?_, frameResult_frameAt _ _ _ h7, frameReqResp_frameAt _ _ _ h8⟩
  · rw [frameStuff, frameAt, readAt_readAt _ _ _ _ _ (by decide)]
    exact h1
  · rw [frameData_frameAt_eq]
    exact h2
  · intro hn
    rw [frameNonce, frameAt, readAt_readAt _ _ _ _ _ (by decide)]
    exact h3 hn
  · refine Be32_drop_of_readAt _ _ _ ?_
    rw [frameAt, readAt_readAt _ _ _ _ _ (by decide)]
    exact h4
  · refine Be16_drop_of_readAt _ _ _ ?_
    rw [frameAt, readAt_readAt _ _ _ _ _ (by decide)]
    exact h5
  · refine Be16_drop_of_readAt _ _ _ ?_
    rw [frameAt, readAt_readAt _ _ _ _ _ (by decide)]
    exact h6

/-- Claim C12 as stated fails. On `exWideRead` (`max_blocks = 65537`, key programmed, read
pending for address 65535) the range `(65535, 2)` is valid, but `ReadBlock` and the address
field take `addr + i` as a 16-bit value: frame 1 of `FinalizePendingRead(2)` carries the
data of block 0, not of block 65536, and address 0, not 65536. -/
theorem FinalizePendingRead_block_address_wraps :
    HasPendingRead exWideRead = true ∧
    exWideRead.keyProgrammed = true ∧
    exWideRead.pendingRead.addr = 65535 ∧
    StorageAddrValid exWideRead 65535 2 = true ∧
    exWideRead.storage.length = exWideRead.opt.maxBlocks * 256 ∧
    frameData (frameAt (FinalizePendingRead sampleHmac exWideRead 2).respQueue 1)
      ≠ storageBlock exWideRead.storage (65535 + 1) ∧
    frameAddr (frameAt (FinalizePendingRead sampleHmac exWideRead 2).respQueue 1)
      ≠ 65535 + 1 := by
  have hl : exWideRead.storage.length = exWideRead.opt.maxBlocks * 256 := by
    show (List.replicate (65536 * 256) 0 ++ List.replicate 256 1).length = 65537 * 256
    rw [List.length_append, List.length_replicate, List.length_replicate]
  obtain ⟨-, -, hfr, -, -⟩ := FinalizePendingRead_batch sampleHmac exWideRead 2 rfl rfl hl
    (by decide) (by decide) (by decide)
  obtain ⟨-, hd, -, -, ha, -, -, -⟩ := IsReadFrame_fields _ _ _ _ _ _ _ (hfr 1 (by decide))
  have b0 : storageBlock exWideRead.storage ((exWideRead.pendingRead.addr + 1) % 65536)
      = List.replicate 256 0 := by
    show readAt (List.replicate (65536 * 256) 0 ++ List.replicate 256 1) (0 * 256) 256 = _
    rw [readAt, Nat.zero_mul, List.drop_zero,
      List.take_append_of_le_length (by rw [List.length_replicate]; decide),
      List.take_replicate]
    rfl
  have b1 : storageBlock exWideRead.storage (65535 + 1) = List.replicate 256 1 := by
    show readAt (List.replicate (65536 * 256) 0 ++ List.replicate 256 1) (65536 * 256) 256 = _
    rw [readAt, List.drop_left' (List.length_replicate _ _),
      List.take_of_length_le (by rw [List.length_replicate])]
  refine ⟨rfl, rfl, rfl, by decide, hl, ?_, ?_⟩
  · rw [hd, b0, b1]
    decide
  · rw [ha]
    decide

/-- Claim C12, amended. For every engine state with a pending read `{addr, nonce}`, a
programmed key and every 16-bit `blk_cnt ≥ 1` with `StorageAddrValid(addr, blk_cnt)` and
`addr + blk_cnt ≤ 65536` (storage holding `max_blocks * 256` bytes): after
`FinalizePendingRead(blk_cnt)` the pending read is cleared and the response queue is
exactly `blk_cnt * 512` bytes, where frame `i` has zero stuff, data = storage block
`addr + i`, nonce = latched nonce, write counter = current `write_counter`, address =
`addr + i`, block count = `blk_cnt`, result = `OK` and req/resp = `0x0400`. -/
theorem FinalizePendingRead_frames (H : HmacSha256) (s : State) (blkCnt : Nat)
    (hp : HasPendingRead s = true) (hk : s.keyProgrammed = true) (hb : 1 ≤ blkCnt)
    (hcnt : blkCnt < 65536)
    (hvalid : StorageAddrValid s s.pendingRead.addr blkCnt = true)
    (hrange : s.pendingRead.addr + blkCnt ≤ 65536)
    (hwf : s.storage.length = s.opt.maxBlocks * 256)
    (hnonce : s.pendingRead.nonce.length = 16)
    (hwc : s.writeCounter < 4294967296) :
    HasPendingRead (FinalizePendingRead H s blkCnt) = false ∧
    (FinalizePendingRead H s blkCnt).respQueue.length = blkCnt * 512 ∧
    ∀ i, i < blkCnt →
      frameStuff (frameAt (FinalizePendingRead H s blkCnt).respQueue i)
        = List.replicate 196 0 ∧
      frameData (frameAt (FinalizePendingRead H s blkCnt).respQueue i)
        = storageBlock s.storage (s.pendingRead.addr + i) ∧
      frameNonce (frameAt (FinalizePendingRead H s blkCnt).respQueue i)
        = s.pendingRead.nonce ∧
      frameWCounter (frameAt (FinalizePendingRead H s blkCnt).respQueue i)
        = s.writeCounter ∧
      frameAddr (frameAt (FinalizePendingRead H s blkCnt).respQueue i)
        = s.pendingRead.addr + i ∧
      frameBlockCount (frameAt (FinalizePendingRead H s blkCnt).respQueue i) = blkCnt ∧
      frameResult (frameAt (FinalizePendingRead H s blkCnt).respQueue i) = RPMB_RES_OK ∧
      frameReqResp (frameAt (FinalizePendingRead H s blkCnt).respQueue i) = 0x0400 := by
  have hv := ((StorageAddrValid_iff _ _ _).mp hvalid).2
  rw [Nat.mod_eq_of_lt (by omega)] at hv
  obtain ⟨e, hl, hfr, -, -⟩ := FinalizePendingRead_batch H s blkCnt hp hk hwf (by omega) hv
    (by omega)
  refine ⟨by rw [e]; rfl, hl, fun i hi => ?_⟩
  obtain ⟨f1, f2, f3, f4, f5, f6, f7, f8⟩ := IsReadFrame_fields _ _ _ _ _ _ _ (hfr i hi)
  rw [Nat.mod_eq_of_lt (show s.pendingRead.addr + i < 65536 by omega)] at f2 f5
  rw [Nat.mod_eq_of_lt hwc] at f4
  rw [Nat.mod_eq_of_lt (show blkCnt < 65536 by omega)] at f6
  refine ⟨f1, f2, ?_, f4, f5, f6, f7, f8⟩
  rw [f3 (by omega), List.take_of_length_le (by omega)]

/-- An instance of the amended claim C12: after the write `exWriteFrame 0` and a DATA_READ
request for address 1, `FinalizePendingRead(1)` queues one frame with the data
`256 × 0xAB`. -/
theorem FinalizePendingRead_frames_witness :
    (FinalizePendingRead sampleHmac
      (run sampleHmac exState [.writeRequest (exWriteFrame 0), .writeRequest (exRequest 4 1)])
      1).respQueue.length = 1 * 512 ∧
    frameData (frameAt (FinalizePendingRead sampleHmac
      (run sampleHmac exState [.writeRequest (exWriteFrame 0), .writeRequest (exRequest 4 1)])
      1).respQueue 0) = List.replicate 256 0xAB :=
  have h := FinalizePendingRead_frames sampleHmac
    (run sampleHmac exState [.writeRequest (exWriteFrame 0), .writeRequest (exRequest 4 1)])
    1 (by decide) (by decide) (by decide) (by decide) (by decide) (by decide) (by decide)
    (by decide) (by decide)
  ⟨h.2.1, (h.2.2 0 (by decide)).2.1.trans (by decide)⟩

/-- Claim C13. For every `FinalizePendingRead(blk_cnt)` with a pending read, a programmed
key and a valid range, the MAC field of every response frame except the last is 32 zero
bytes, and the MAC field of the last frame equals
HMAC-SHA256(key, `R_0 ++ R_1 ++ ... ++ R_{blk_cnt-1}`) where `R_i` is bytes `0x0E4..0x1FF`
of response frame `i`; for `blk_cnt = 1` this is the HMAC of that single frame's 284-byte
region. -/
theorem FinalizePendingRead_mac (H : HmacSha256) (s : State) (blkCnt : Nat)
    (hp : HasPendingRead s = true) (hk : s.keyProgrammed = true) (hb : 1 ≤ blkCnt)
    (hvalid : StorageAddrValid s s.pendingRead.addr blkCnt = true)
    (haddr : s.pendingRead.addr < 65536) (hcnt : blkCnt < 65536)
    (hwf : s.storage.length = s.opt.maxBlocks * 256) :
    (∀ i, i + 1 < blkCnt →
      frameMac (frameAt (FinalizePendingRead H s blkCnt).respQueue i)
        = List.replicate 32 0) ∧
    frameMac (frameAt (FinalizePendingRead H s blkCnt).respQueue (blkCnt - 1))
      = H.hmac s.key ((List.range blkCnt).flatMap
          (fun i => macRegion (frameAt (FinalizePendingRead H s blkCnt).respQueue i))) ∧
    (blkCnt = 1 →
      frameMac (frameAt (FinalizePendingRead H s blkCnt).respQueue 0)
        = H.hmac s.key (macRegion (frameAt (FinalizePendingRead H s blkCnt).respQueue 0))) := by
  have hv := ((StorageAddrValid_iff _ _ _).mp hvalid).2
  rw [Nat.mod_eq_of_lt (by omega)] at hv
  obtain ⟨-, -, -, hz, hm⟩ := FinalizePendingRead_batch H s blkCnt hp hk hwf (by omega) hv
    (by omega)
  have hlast : frameMac (frameAt (FinalizePendingRead H s blkCnt).respQueue (blkCnt - 1))
      = H.hmac s.key ((List.range blkCnt).flatMap
          (fun i => macRegion (frameAt (FinalizePendingRead H s blkCnt).respQueue i))) := by
    rw [frameMac_frameAt, hm]
    congr 1
    exact flatMap_congr_mem _ _ _ (fun i _ => (macRegion_frameAt _ i).symm)
  refine ⟨fun i hi => ?_, hlast, fun h1 => ?_⟩
  · rw [frameMac_frameAt]
    exact hz i hi
  · subst h1
    have hr : List.range 1 = [0] := rfl
    rw [hr, List.flatMap_cons, List.flatMap_nil, List.append_nil] at hlast
    exact hlast

/-- An instance of claim C13: a three-block read at address 0 on `exState`. -/
theorem FinalizePendingRead_mac_witness :
    frameMac (frameAt (FinalizePendingRead sampleHmac
      (run sampleHmac exState [.writeRequest (exRequest 4 0)]) 3).respQueue 0)
      = List.replicate 32 0 ∧
    frameMac (frameAt (FinalizePendingRead sampleHmac
      (run sampleHmac exState [.writeRequest (exRequest 4 0)]) 3).respQueue 1)
      = List.replicate 32 0 ∧
    frameMac (frameAt (FinalizePendingRead sampleHmac
      (run sampleHmac exState [.writeRequest (exRequest 4 0)]) 3).respQueue (3 - 1))
      = sampleHmac.hmac exKey ((List.range 3).flatMap
          (fun i => macRegion (frameAt (FinalizePendingRead sampleHmac
            (run sampleHmac exState [.writeRequest (exRequest 4 0)]) 3).respQueue i))) :=
  have h := FinalizePendingRead_mac sampleHmac
    (run sampleHmac exState [.writeRequest (exRequest 4 0)]) 3
    (by decide) (by decide) (by decide) (by decide) (by decide) (by decide) (by decide)
  ⟨h.1 0 (by decide), h.1 1 (by decide), h.2.1⟩

/-! ## Failing reads and the delivery of error responses -/

theorem FinalizePendingRead_addr_fail (H : HmacSha256) (s : State) (blkCnt : Nat)
    (hp : s.pendingRead.valid = true) (hk : s.keyProgrammed = true)
    (hv : StorageAddrValid s s.pendingRead.addr (if blkCnt == 0 then 1 else blkCnt) = false) :
    FinalizePendingRead H s blkCnt =
      MakeResponse H
        { s with
          pendingRead := { s.pendingRead with valid := false }
          respQueue := [] }
        RPMB_RESP_DATA_READ RPMB_RES_ADDR_FAIL s.writeCounter none s.pendingRead.addr
        (if blkCnt == 0 then 1 else blkCnt) (some s.pendingRead.nonce) false := by
  have hv' : StorageAddrValid
      { s with pendingRead := { s.pendingRead with valid := false }, respQueue := [] }
      s.pendingRead.addr (if blkCnt == 0 then 1 else blkCnt) = false := hv
  simp only [FinalizePendingRead]
  rw [if_neg (by simp [hp]), if_neg (by simp [hk]), if_pos (by rw [hv']; rfl)]

theorem FinalizePendingRead_zero (H : HmacSha256) (s : State) :
    FinalizePendingRead H s 0 = FinalizePendingRead H s 1 := by
  simp only [FinalizePendingRead]
  rfl

/-- The error responses of `FinalizePendingRead`, field by field. -/
theorem finalize_error_fields (H : HmacSha256) (s : State) (blkCnt : Nat)
    (hp : HasPendingRead s = true) (hn : s.pendingRead.nonce.length = 16) :
    FinalizePendingRead H s 0 = FinalizePendingRead H s 1 ∧
    (s.keyProgrammed = false →
      (FinalizePendingRead H s blkCnt).respQueue.length = 512 ∧
      frameReqResp (FinalizePendingRead H s blkCnt).respQueue = 0x0400 ∧
      frameResult (FinalizePendingRead H s blkCnt).respQueue = RPMB_RES_NO_KEY ∧
      frameNonce (FinalizePendingRead H s blkCnt).respQueue = s.pendingRead.nonce ∧
      frameMac (FinalizePendingRead H s blkCnt).respQueue = List.replicate 32 0) ∧
    (s.keyProgrammed = true →
      StorageAddrValid s s.pendingRead.addr (if blkCnt = 0 then 1 else blkCnt) = false →
      (FinalizePendingRead H s blkCnt).respQueue.length = 512 ∧
      frameReqResp (FinalizePendingRead H s blkCnt).respQueue = 0x0400 ∧
      frameResult (FinalizePendingRead H s blkCnt).respQueue = RPMB_RES_ADDR_FAIL ∧
      frameNonce (FinalizePendingRead H s blkCnt).respQueue = s.pendingRead.nonce ∧
      frameMac (FinalizePendingRead H s blkCnt).respQueue = List.replicate 32 0) ∧
    HasPendingRead (FinalizePendingRead H s blkCnt) = false ∧
    (FinalizePendingRead H s blkCnt).key = s.key ∧
    (FinalizePendingRead H s blkCnt).writeCounter = s.writeCounter ∧
    (FinalizePendingRead H s blkCnt).storage = s.storage := by
  have hp' : s.pendingRead.valid = true := hp
  obtain ⟨-, -, c3, c4, c5⟩ := FinalizePendingRead_core H s blkCnt
  have hnonce : ∀ x, some s.pendingRead.nonce = some x → 16 ≤ x.length := by
    intro x hx
    cases hx
    omega
  have htake : nonceField (some s.pendingRead.nonce) = s.pendingRead.nonce :=
    List.take_of_length_le (by omega)
  refine ⟨FinalizePendingRead_zero H s, fun hk => ?_, fun hk hv => ?_,
    by rw [HasPendingRead, (FinalizePendingRead_pending H s blkCnt hp').1], c3, c4, c5⟩
  · rw [FinalizePendingRead_no_key H s blkCnt hp' hk]
    obtain ⟨-, l, -, m, -, nn, -, -, -, r, t, -⟩ :=
      MakeResponse_on_empty H
        { s with pendingRead := { s.pendingRead with valid := false }, respQueue := [] }
        RPMB_RESP_DATA_READ RPMB_RES_NO_KEY s.writeCounter s.pendingRead.addr
        (if blkCnt == 0 then 1 else blkCnt) (some s.pendingRead.nonce) false rfl
    simp only [Bool.false_and, Bool.false_eq_true, if_false] at m
    exact ⟨l, t, r, (nn hnonce).trans htake, m⟩
  · have hv' : StorageAddrValid s s.pendingRead.addr (if blkCnt == 0 then 1 else blkCnt)
        = false := by
      by_cases h0 : blkCnt = 0
      · rw [if_pos h0] at hv
        rw [if_pos (by simp [h0])]
        exact hv
      · rw [if_neg h0] at hv
        rw [if_neg (by simp [h0])]
        exact hv
    rw [FinalizePendingRead_addr_fail H s blkCnt hp' hk hv']
    obtain ⟨-, l, -, m, -, nn, -, -, -, r, t, -⟩ :=
      MakeResponse_on_empty H
        { s with pendingRead := { s.pendingRead with valid := false }, respQueue := [] }
        RPMB_RESP_DATA_READ RPMB_RES_ADDR_FAIL s.writeCounter s.pendingRead.addr
        (if blkCnt == 0 then 1 else blkCnt) (some s.pendingRead.nonce) false rfl
    simp only [Bool.false_and, Bool.false_eq_true, if_false] at m
    exact ⟨l, t, r, (nn hnonce).trans htake, m⟩

/-- Claim C14. For every engine state with a pending read `{addr, nonce}` and every
`blk_cnt` (0 treated as 1: `FinalizePendingRead(0)` is `FinalizePendingRead(1)`): if the
key is not programmed, `FinalizePendingRead(blk_cnt)` leaves the response queue holding
exactly one frame with req/resp `0x0400`, result `NO_KEY`, the latched nonce and a zero MAC;
otherwise, if `StorageAddrValid(addr, blk_cnt)` is false, exactly one frame with req/resp
`0x0400`, result `ADDR_FAIL`, the latched nonce and a zero MAC. The pending read is cleared
and key, `write_counter` and storage are unchanged. -/
theorem FinalizePendingRead_error_response (H : HmacSha256) (s : State) (blkCnt : Nat)
    (hp : HasPendingRead s = true) (hn : s.pendingRead.nonce.length = 16) :
    FinalizePendingRead H s 0 = FinalizePendingRead H s 1 ∧
    (s.keyProgrammed = false →
      (FinalizePendingRead H s blkCnt).respQueue.length = 512 ∧
      frameReqResp (FinalizePendingRead H s blkCnt).respQueue = 0x0400 ∧
      frameResult (FinalizePendingRead H s blkCnt).respQueue = RPMB_RES_NO_KEY ∧
      frameNonce (FinalizePendingRead H s blkCnt).respQueue = s.pendingRead.nonce ∧
      frameMac (FinalizePendingRead H s blkCnt).respQueue = List.replicate 32 0) ∧
    (s.keyProgrammed = true →
      StorageAddrValid s s.pendingRead.addr (if blkCnt = 0 then 1 else blkCnt) = false →
      (FinalizePendingRead H s blkCnt).respQueue.length = 512 ∧
      frameReqResp (FinalizePendingRead H s blkCnt).respQueue = 0x0400 ∧
      frameResult (FinalizePendingRead H s blkCnt).respQueue = RPMB_RES_ADDR_FAIL ∧
      frameNonce (FinalizePendingRead H s blkCnt).respQueue = s.pendingRead.nonce ∧
      frameMac (FinalizePendingRead H s blkCnt).respQueue = List.replicate 32 0) ∧
    HasPendingRead (FinalizePendingRead H s blkCnt) = false ∧
    (FinalizePendingRead H s blkCnt).key = s.key ∧
    (FinalizePendingRead H s blkCnt).writeCounter = s.writeCounter ∧
    (FinalizePendingRead H s blkCnt).storage = s.storage :=
  finalize_error_fields H s blkCnt hp hn

/-- An instance of claim C14: no key (`exFreshPending`, block count 0), and an invalid range
on `exState` (address 3, two blocks, `max_blocks = 4`). -/
theorem FinalizePendingRead_error_response_witness :
    frameResult (FinalizePendingRead sampleHmac exFreshPending 0).respQueue
      = RPMB_RES_NO_KEY ∧
    frameResult (FinalizePendingRead sampleHmac
      (HandleWriteRequestFrames sampleHmac exState (exRequest 4 3)) 2).respQueue
      = RPMB_RES_ADDR_FAIL :=
  ⟨((FinalizePendingRead_error_response sampleHmac exFreshPending 0 (by decide)
      (by decide)).2.1 (by decide)).2.2.1,
    ((FinalizePendingRead_error_response sampleHmac
      (HandleWriteRequestFrames sampleHmac exState (exRequest 4 3)) 2 (by decide)
      (by decide)).2.2.1 (by decide) (by decide)).2.2.1⟩

/-- Claim C19 as stated fails. (1) On `exFreshPending` (no key, DATA_READ pending) a
transport read announcing 2 blocks makes `FinalizePendingRead(2)` queue the single
`NO_KEY` frame, 512 bytes, so `ReadResponseFrames(1024)` returns 1024 zero bytes: the
bytes delivered carry req/resp 0 and result 0. (2) When a GET_COUNTER request arrives on
`exFreshPending`, the transport read of 1 block finalizes the earlier read and delivers a
frame with req/resp `0x0400`, not `0x0200`. -/
theorem error_response_not_delivered :
    exFresh.keyProgrammed = false ∧
    HasPendingRead exFreshPending = true ∧
    frameResult (FinalizePendingRead sampleHmac exFreshPending 2).respQueue
      = RPMB_RES_NO_KEY ∧
    (FinalizePendingRead sampleHmac exFreshPending 2).respQueue.length = 512 ∧
    finalizeAndRead sampleHmac exFreshPending 2 = List.replicate 1024 0 ∧
    frameReqResp (finalizeAndRead sampleHmac exFreshPending 2) ≠ 0x0400 ∧
    frameResult (finalizeAndRead sampleHmac exFreshPending 2) ≠ RPMB_RES_NO_KEY ∧
    frameReqResp (exRequest 2 0) = RPMB_REQ_GET_COUNTER ∧
    frameReqResp (finalizeAndRead sampleHmac
      (HandleWriteRequestFrames sampleHmac exFreshPending (exRequest 2 0)) 1) = 0x0400 := by
  decide

theorem finalizeAndRead_idle (H : HmacSha256) (s : State) (hp : s.pendingRead.valid = false)
    (hl : s.respQueue.length = 512) : finalizeAndRead H s 1 = s.respQueue := by
  simp only [finalizeAndRead, HasPendingRead]
  rw [if_neg (by rw [hp]; decide), ReadResponseFrames_all s (1 * 512) hl]

/-- Claim C19, amended: error responses are delivered by a transport read of one block.
For every engine state and every single-frame request: a DATA_READ whose key is missing or
whose range `(addr, 1)` is invalid, and, arriving while no read is pending, a DATA_WRITE
that fails a check, a GET_COUNTER without a key and a PROGRAM_KEY refused because re-key is
disabled: the 512 bytes returned by `FinalizePendingRead(1)` (when a read is pending)
followed by `ReadResponseFrames(512)` are a response frame whose req/resp field is the
response code of the request and whose result field is the error code. -/
theorem error_response_delivered (H : HmacSha256) (s : State) (req : List Nat)
    (hlen : req.length = 512) :
    (frameReqResp req = RPMB_REQ_DATA_READ →
      (s.keyProgrammed = false ∨ StorageAddrValid s (frameAddr req) 1 = false) →
      (finalizeAndRead H (HandleWriteRequestFrames H s req) 1).length = 512 ∧
      frameReqResp (finalizeAndRead H (HandleWriteRequestFrames H s req) 1) = 0x0400 ∧
      frameResult (finalizeAndRead H (HandleWriteRequestFrames H s req) 1)
        = (if s.keyProgrammed = false then RPMB_RES_NO_KEY else RPMB_RES_ADDR_FAIL)) ∧
    (HasPendingRead s = false → frameReqResp req = RPMB_REQ_DATA_WRITE →
      specDataWriteResult H s req req 1 ≠ RPMB_RES_OK →
      (finalizeAndRead H (HandleWriteRequestFrames H s req) 1).length = 512 ∧
      frameReqResp (finalizeAndRead H (HandleWriteRequestFrames H s req) 1) = 0x0300 ∧
      frameResult (finalizeAndRead H (HandleWriteRequestFrames H s req) 1)
        = specDataWriteResult H s req req 1) ∧
    (HasPendingRead s = false → frameReqResp req = RPMB_REQ_GET_COUNTER →
      s.keyProgrammed = false →
      (finalizeAndRead H (HandleWriteRequestFrames H s req) 1).length = 512 ∧
      frameReqResp (finalizeAndRead H (HandleWriteRequestFrames H s req) 1) = 0x0200 ∧
      frameResult (finalizeAndRead H (HandleWriteRequestFrames H s req) 1)
        = RPMB_RES_NO_KEY) ∧
    (HasPendingRead s = false → frameReqResp req = RPMB_REQ_PROGRAM_KEY →
      s.keyProgrammed = true → s.opt.allowRekey = false →
      (finalizeAndRead H (HandleWriteRequestFrames H s req) 1).length = 512 ∧
      frameReqResp (finalizeAndRead H (HandleWriteRequestFrames H s req) 1) = 0x0100 ∧
      frameResult (finalizeAndRead H (HandleWriteRequestFrames H s req) 1)
        = RPMB_RES_GENERAL_FAIL) := by
  rw [HandleWriteRequestFrames_single H s req hlen]
  refine ⟨fun ht hfail => ?_, fun hp ht hres => ?_, fun hp ht hk => ?_,
    fun hp ht hk hr => ?_⟩
  · rw [ProcessRequest_data_read H s req req 1 ht]
    have hpv : HasPendingRead (StartPendingRead { s with respQueue := [] } req) = true := rfl
    have hnl : (StartPendingRead { s with respQueue := [] } req).pendingRead.nonce.length
        = 16 := by
      show ((req.drop OFF_NONCE).take 16).length = 16
      simp only [List.length_take, List.length_drop, OFF_NONCE]
      omega
    obtain ⟨-, e1, e2, -⟩ := finalize_error_fields H
      (StartPendingRead { s with respQueue := [] } req) 1 hpv hnl
    have hout : finalizeAndRead H (StartPendingRead { s with respQueue := [] } req) 1
        = (FinalizePendingRead H (StartPendingRead { s with respQueue := [] } req)
            1).respQueue := by
      have hl : (FinalizePendingRead H (StartPendingRead { s with respQueue := [] } req)
          1).respQueue.length = 512 := by
        by_cases hk : s.keyProgrammed = false
        · exact (e1 hk).1
        · rcases hfail with h | h
          · exact absurd h hk
          · exact (e2 (by simpa using hk) h).1
      simp only [finalizeAndRead]
      rw [if_pos hpv, ReadResponseFrames_all _ (1 * 512) hl]
    rw [hout]
    by_cases hk : s.keyProgrammed = false
    · obtain ⟨a, b, c, -⟩ := e1 hk
      rw [if_pos hk]
      exact ⟨a, b, c⟩
    · rcases hfail with h | h
      · exact absurd h hk
      · obtain ⟨a, b, c, -⟩ := e2 (by simpa using hk) h
        rw [if_neg hk]
        exact ⟨a, b, c⟩
  · rw [ProcessRequest_data_write H s req req 1 ht]
    obtain ⟨h1, h2, h3, h4, -⟩ :=
      HandleDataWrite_respQueue H { s with respQueue := [] } req req 1
    have hq : (HandleDataWrite H { s with respQueue := [] } req req 1).respQueue
        = dataWriteResponse H { s with respQueue := [] } req req 1 := by
      rw [h1]; rfl
    rw [finalizeAndRead_idle H _
      (by rw [(HandleDataWrite_core H { s with respQueue := [] } req req 1).2.2.2.1]; exact hp)
      (by rw [hq]; exact h2), hq]
    exact ⟨h2, h3, h4⟩
  · obtain ⟨h1, h2, -, -, -, -, -, h8, -⟩ :=
      get_counter_response_fields H s req req 1 (by omega) ht
    have hpend : (ProcessRequest H s req req 1).pendingRead.valid = false := by
      rw [ProcessRequest_get_counter H s req req 1 ht]
      simp only [HandleGetCounter, MakeResponse]
      split_ifs <;> exact hp
    rw [finalizeAndRead_idle H _ hpend h1]
    exact ⟨h1, h2, (h8 hk).1⟩
  · rw [ProcessRequest_program_key H s req req 1 ht,
      HandleProgramKey_locked H { s with respQueue := [] } req hk hr]
    obtain ⟨e, l, -, -, -, -, -, -, -, r, t, -⟩ :=
      MakeResponse_on_empty H { s with respQueue := [] } RPMB_RESP_PROGRAM_KEY
        RPMB_RES_GENERAL_FAIL s.writeCounter 0 0 none false rfl
    rw [finalizeAndRead_idle H _ (by rw [e]; exact hp) l]
    exact ⟨l, t, r⟩

/-- An instance of the amended claim C19: a DATA_READ without a key, and a DATA_READ for
block 4 on `exState` (`max_blocks = 4`), each read back with one block. -/
theorem error_response_delivered_witness :
    frameResult (finalizeAndRead sampleHmac
      (HandleWriteRequestFrames sampleHmac exFresh (exRequest 4 0)) 1) = RPMB_RES_NO_KEY ∧
    frameResult (finalizeAndRead sampleHmac
      (HandleWriteRequestFrames sampleHmac exState (exRequest 4 4)) 1) = RPMB_RES_ADDR_FAIL :=
  ⟨((error_response_delivered sampleHmac exFresh (exRequest 4 0) (by decide)).1 (by decide)
      (Or.inl (by decide))).2.2,
    ((error_response_delivered sampleHmac exState (exRequest 4 4) (by decide)).1 (by decide)
      (Or.inr (by decide))).2.2⟩

/-! ## State file -/

theorem writeAt_zero_full (buf src : List Nat) (h : buf.length ≤ src.length) :
    writeAt buf 0 src = src := by
  unfold writeAt
  rw [List.take_zero, List.nil_append, Nat.zero_add, List.drop_eq_nil_of_le h,
    List.append_nil]

theorem IfStream_read_append (a rest buf : List Nat) (n : Nat) (ha : a.length = n)
    (hb : buf.length ≤ n) :
    IfStream.read { rest := a ++ rest, failed := false } buf n
      = (a, { rest := rest, failed := false }) := by
  unfold IfStream.read
  have h1 : n ≤ (a ++ rest).length := by rw [List.length_append]; omega
  have h2 : (a ++ rest).take n = a := by
    rw [← ha, List.take_left]
  have h3 : (a ++ rest).drop n = rest := by
    rw [← ha, List.drop_left]
  simp only [Bool.false_eq_true, if_false]
  rw [if_pos h1, h2, h3, writeAt_zero_full buf a (by omega)]

theorem hostValue32_hostBytes32 (v : Nat) (h : v < 4294967296) :
    hostValue32 (hostBytes32 v) = v := by
  unfold hostValue32 hostBytes32
  simp only [List.getD_cons_zero, List.getD_cons_succ]
  omega

theorem resize_self (v : List Nat) : resize v v.length = v := by
  unfold resize
  rw [List.take_length, Nat.sub_self, List.replicate_zero, List.append_nil]

/-- Loading a complete record: the five header fields are taken from the file, and the
storage too when the stored block count is the configured one. -/
theorem LoadState_record (s0 : State) (junk : List Nat) (kp : Nat)
    (key wcb mbb st : List Nat) (hj : junk.length = 8) (hk0 : s0.key.length = 32)
    (hkey : key.length = 32) (hwcb : wcb.length = 4) (hmbb : mbb.length = 4) :
    LoadState s0 (some (magicBytes ++ ([kp] ++ (key ++ (wcb ++ (mbb ++ st)))))) junk
      = if hostValue32 mbb != s0.opt.maxBlocks then
          { s0 with
            keyProgrammed := (kp != 0), key := key, writeCounter := hostValue32 wcb
            storage := List.replicate ((s0.opt.maxBlocks * 256) % 4294967296) 0 }
        else
          { s0 with
            keyProgrammed := (kp != 0), key := key, writeCounter := hostValue32 wcb
            storage :=
              (IfStream.read { rest := st, failed := false }
                (resize s0.storage ((s0.opt.maxBlocks * 256) % 4294967296))
                (resize s0.storage ((s0.opt.maxBlocks * 256) % 4294967296)).length).1 } := by
  unfold LoadState
  simp only []
  rw [IfStream_read_append magicBytes _ junk 8 rfl (by omega)]
  simp only []
  rw [if_neg (by simp)]
  rw [IfStream_read_append [kp] _ [0] 1 rfl (by simp)]
  simp only []
  rw [IfStream_read_append key _ s0.key 32 hkey (by omega)]
  simp only []
  rw [IfStream_read_append wcb _ (hostBytes32 s0.writeCounter) 4 hwcb (by simp [hostBytes32])]
  simp only []
  rw [IfStream_read_append mbb _ (hostBytes32 0) 4 hmbb (by simp [hostBytes32])]
  simp only [List.getD_cons_zero]

theorem SaveState_length (s : State) (hkey : s.key.length = 32) :
    (SaveState s).length = 49 + s.storage.length := by
  unfold SaveState readAt
  simp only [List.length_append, List.length_take, List.drop_zero, hkey, magicBytes,
    hostBytes32, List.length_cons, List.length_nil]
  omega

theorem readAt_zero_full (p : List Nat) (n : Nat) (h : p.length = n) : readAt p 0 n = p := by
  unfold readAt
  rw [List.drop_zero, ← h, List.take_length]

/-- Loading the file written for `s` into a state with the same block count. -/
theorem LoadState_SaveState (s s0 : State) (junk : List Nat) (hj : junk.length = 8)
    (hk0 : s0.key.length = 32) (hm : s0.opt.maxBlocks = s.opt.maxBlocks)
    (hmb : s.opt.maxBlocks < 4294967296) (hkey : s.key.length = 32)
    (hwc : s.writeCounter < 4294967296) (hl0 : s0.storage.length = s.storage.length)
    (hst : s.storage.length = (s.opt.maxBlocks * 256) % 4294967296) :
    LoadState s0 (some (SaveState s)) junk
      = { s0 with
          keyProgrammed := s.keyProgrammed, key := s.key, writeCounter := s.writeCounter
          storage := s.storage } := by
  unfold SaveState
  rw [LoadState_record s0 junk _ _ _ _ _ hj hk0
    (by rw [readAt_zero_full _ _ hkey]; exact hkey) (by simp [hostBytes32])
    (by simp [hostBytes32])]
  rw [hostValue32_hostBytes32 _ hmb, hostValue32_hostBytes32 _ hwc,
    readAt_zero_full _ _ hkey, hm]
  rw [if_neg (by simp)]
  have hr : resize s0.storage ((s.opt.maxBlocks * 256) % 4294967296) = s0.storage := by
    rw [← hst, ← hl0]; exact resize_self _
  rw [hr]
  have hread := IfStream_read_append s.storage [] s0.storage s0.storage.length hl0.symm
    (Nat.le_refl _)
  rw [List.append_nil] at hread
  rw [hread]
  cases s.keyProgrammed <;> simp

/-- Claim C20 as stated fails. A new engine configured with `max_blocks = 16777216` and no
state file has an empty storage (the size `max_blocks * 256` is a 32-bit product), and
the file it saves is 49 bytes long, not `49 + 16777216 * 256`. -/
theorem SaveState_length_wraps :
    (construct { maxBlocks := 16777216, allowRekey := false } none []).opt.maxBlocks
        = 16777216
      ∧ (construct { maxBlocks := 16777216, allowRekey := false } none []).storage = []
      ∧ (SaveState (construct { maxBlocks := 16777216, allowRekey := false } none [])).length
          = 49
      ∧ 49 ≠ 49 + 16777216 * 256 := by
  decide

/-- Claim C20, amended. Let `s` be an engine state with `max_blocks = m < 2^32`, a 32-byte
key, a 32-bit write counter and a storage of `(m * 256) mod 2^32` bytes. Constructing an
engine with the same `max_blocks` on the file `SaveState s` yields the same
`key_programmed`, key, write counter and storage, and saving again yields the same bytes.
The file is `49 + |storage|` bytes, which is `49 + m * 256` when `m < 2^24`: the 8-byte
magic (the characters `RPMBDv1` and a zero byte), one byte `key_programmed` (0 or 1), the
32 key bytes, the write counter and `max_blocks` as 4 bytes each in host order, then the
storage. -/
theorem SaveState_LoadState_roundtrip (s : State) (opt : Options) (junk : List Nat)
    (hj : junk.length = 8) (hm : opt.maxBlocks = s.opt.maxBlocks)
    (hmb : s.opt.maxBlocks < 4294967296) (hkey : s.key.length = 32)
    (hwc : s.writeCounter < 4294967296)
    (hst : s.storage.length = (s.opt.maxBlocks * 256) % 4294967296) :
    (construct opt (some (SaveState s)) junk).keyProgrammed = s.keyProgrammed
      ∧ (construct opt (some (SaveState s)) junk).key = s.key
      ∧ (construct opt (some (SaveState s)) junk).writeCounter = s.writeCounter
      ∧ (construct opt (some (SaveState s)) junk).storage = s.storage
      ∧ SaveState (construct opt (some (SaveState s)) junk) = SaveState s
      ∧ (SaveState s).length = 49 + s.storage.length
      ∧ (s.opt.maxBlocks < 16777216 → (SaveState s).length = 49 + s.opt.maxBlocks * 256)
      ∧ readAt (SaveState s) 0 8 = ['R', 'P', 'M', 'B', 'D', 'v', '1'].map Char.toNat ++ [0]
      ∧ readAt (SaveState s) 8 1 = [if s.keyProgrammed then 1 else 0]
      ∧ readAt (SaveState s) 9 32 = s.key
      ∧ readAt (SaveState s) 41 4 = hostBytes32 s.writeCounter
      ∧ readAt (SaveState s) 45 4 = hostBytes32 s.opt.maxBlocks
      ∧ (SaveState s).drop 49 = s.storage := by
  have hload : construct opt (some (SaveState s)) junk
      = { initState opt with
          keyProgrammed := s.keyProgrammed, key := s.key, writeCounter := s.writeCounter
          storage := s.storage } := by
    unfold construct
    exact LoadState_SaveState s (initState opt) junk hj
      (by simp [initState]) hm hmb hkey hwc
      (by rw [hst, ← hm]; simp only [initState]; rw [List.length_replicate]) hst
  have hS : SaveState s = [82, 80, 77, 66, 68, 118, 49, 0] ++
      ([if s.keyProgrammed = true then 1 else 0] ++ (s.key ++
        (hostBytes32 s.writeCounter ++ (hostBytes32 s.opt.maxBlocks ++ s.storage)))) := by
    unfold SaveState
    rw [readAt_zero_full _ _ hkey]
    rfl
  refine ⟨by rw [hload], by rw [hload], by rw [hload], by rw [hload], ?_,
    SaveState_length s hkey, ?_, ?_, ?_, ?_, ?_, ?_, ?_⟩
  · rw [hload]
    unfold SaveState
    simp only [initState, hm]
  · intro hlt
    rw [SaveState_length s hkey, hst, Nat.mod_eq_of_lt (by omega)]
  · rw [hS]; rfl
  · rw [hS]; rfl
  · rw [hS]
    show List.take 32 (s.key ++ _) = s.key
    rw [← hkey, List.take_left]
  · rw [hS]
    show List.take 4 (List.drop 32 (s.key ++ _)) = _
    rw [← hkey, List.drop_left]
    rfl
  · rw [hS]
    show List.take 4 (List.drop (32 + 4) (s.key ++ _)) = _
    rw [← List.drop_drop, ← hkey, List.drop_left]
    rfl
  · rw [hS]
    show List.drop (32 + 8) (s.key ++ _) = _
    rw [← List.drop_drop, ← hkey, List.drop_left]
    rfl

theorem SaveState_LoadState_roundtrip_witness :
    (construct { maxBlocks := 4, allowRekey := true } (some (SaveState exCounter7))
        [9, 9, 9, 9, 9, 9, 9, 9]).writeCounter = 7
      ∧ (SaveState exCounter7).length = 49 + 4 * 256 :=
  have h := SaveState_LoadState_roundtrip exCounter7 { maxBlocks := 4, allowRekey := true }
    [9, 9, 9, 9, 9, 9, 9, 9] (by decide) (by decide) (by decide) (by decide) (by decide)
    (by decide)
  ⟨h.2.2.1, h.2.2.2.2.2.2.1 (by decide)⟩

/-! ## No-op finalize and the `READ_FAIL` branch -/

/-- Claim C23. For every engine state with no pending read and every `blk_cnt`,
`FinalizePendingRead(blk_cnt)` leaves the entire engine state unchanged, including the
response queue. -/
theorem FinalizePendingRead_no_pending (H : HmacSha256) (s : State) (blkCnt : Nat)
    (hp : HasPendingRead s = false) :
    FinalizePendingRead H s blkCnt = s ∧
    (FinalizePendingRead H s blkCnt).respQueue = s.respQueue := by
  have h : FinalizePendingRead H s blkCnt = s := FinalizePendingRead_none H s blkCnt hp
  exact ⟨h, by rw [h]⟩

theorem FinalizePendingRead_no_pending_witness :
    FinalizePendingRead sampleHmac { exState with respQueue := [1, 2, 3] } 2
      = { exState with respQueue := [1, 2, 3] } :=
  (FinalizePendingRead_no_pending sampleHmac { exState with respQueue := [1, 2, 3] } 2
    (by decide)).1

/-- A block of a valid range, its address taken as a 16-bit value, is a valid block. -/
theorem truncated_block_valid (s : State) (addr cnt i : Nat) (ha : addr < 65536)
    (hc : cnt < 65536) (hv : StorageAddrValid s addr cnt = true) (hi : i < cnt) :
    (addr + i) % 65536 + 1 ≤ s.opt.maxBlocks ∧ addr + cnt ≤ s.opt.maxBlocks := by
  obtain ⟨_, h2⟩ := (StorageAddrValid_iff s addr cnt).1 hv
  rw [Nat.mod_eq_of_lt (by omega)] at h2
  have : (addr + i) % 65536 ≤ addr + i := Nat.mod_le _ _
  omega

/-- Every frame of a response queue made of one `MakeResponse` frame carries its result. -/
theorem MakeResponse_single_result (H : HmacSha256) (s : State) (typ res wc addr cnt : Nat)
    (nonce16 : Option (List Nat)) (hq : s.respQueue = []) (i : Nat)
    (hi : i * 512 < (MakeResponse H s typ res wc none addr cnt nonce16 false).respQueue.length) :
    frameResult (frameAt (MakeResponse H s typ res wc none addr cnt nonce16 false).respQueue i)
      = res % 65536 := by
  obtain ⟨r, e, hl, _, _, _, _, _, _, _, hres, _⟩ :=
    MakeResponse_fields H s typ res wc addr cnt nonce16 false
  rw [e] at hi ⊢
  simp only [hq, List.nil_append] at hi ⊢
  have hi0 : i = 0 := by omega
  subst hi0
  have : frameAt r 0 = r := by
    unfold frameAt readAt
    rw [Nat.zero_mul, List.drop_zero, ← hl, List.take_length]
  rw [this, hres]

/-- Claim C27. The `READ_FAIL` branch of `FinalizePendingRead` is unreachable. For every
`max_blocks`, every 16-bit `addr` and `blk_cnt` with `StorageAddrValid(addr, blk_cnt)` and
every `i < blk_cnt`, `ReadBlock` applied to the 16-bit truncation of `addr + i` succeeds and
its byte range lies inside the storage (of `max_blocks * 256` bytes); the frame loop of
`FinalizePendingRead` therefore never takes the `READ_FAIL` return, and no frame of the
response that `FinalizePendingRead` queues for a pending read carries result `READ_FAIL`. -/
theorem READ_FAIL_unreachable (H : HmacSha256) (s : State)
    (hwf : s.storage.length = s.opt.maxBlocks * 256) :
    (∀ addr cnt i, addr < 65536 → cnt < 65536 → StorageAddrValid s addr cnt = true →
      i < cnt →
      ReadBlock s ((addr + i) % 65536) = some (storageBlock s.storage ((addr + i) % 65536)) ∧
      (addr + i) % 65536 * 256 + 256 ≤ s.storage.length) ∧
    (∀ addr cnt nonce, addr < 65536 → cnt < 65536 → StorageAddrValid s addr cnt = true →
      FinalizePendingRead.fillFrames s addr cnt nonce (List.replicate (cnt * 512) 0) ≠ none) ∧
    (∀ blkCnt, HasPendingRead s = true → s.pendingRead.addr < 65536 → blkCnt < 65536 →
      ∀ i, i * 512 < (FinalizePendingRead H s blkCnt).respQueue.length →
        frameResult (frameAt (FinalizePendingRead H s blkCnt).respQueue i)
          ≠ RPMB_RES_READ_FAIL) := by
  refine ⟨?_, ?_, ?_⟩
  · intro addr cnt i ha hc hv hi
    obtain ⟨h1, _⟩ := truncated_block_valid s addr cnt i ha hc hv hi
    refine ⟨ReadBlock_ok s _ h1 (Nat.mod_lt _ (by decide)), ?_⟩
    rw [hwf]
    omega
  · intro addr cnt nonce ha hc hv
    obtain ⟨_, h2⟩ := (StorageAddrValid_iff s addr cnt).1 hv
    rw [Nat.mod_eq_of_lt (by omega)] at h2
    obtain ⟨fr, e, _⟩ := fillLoop_spec s addr cnt nonce (cnt * 512) cnt hwf h2 (Nat.le_refl _)
    unfold FinalizePendingRead.fillFrames
    rw [e]
    exact Option.some_ne_none _
  · intro blkCnt hp ha hc i hi
    have hp' : s.pendingRead.valid = true := hp
    cases hk : s.keyProgrammed
    · rw [FinalizePendingRead_no_key H s blkCnt hp' hk] at hi ⊢
      rw [MakeResponse_single_result H _ _ _ _ _ _ _ rfl i hi]
      decide
    · cases hv : StorageAddrValid s s.pendingRead.addr (if blkCnt == 0 then 1 else blkCnt)
      · rw [FinalizePendingRead_addr_fail H s blkCnt hp' hk hv] at hi ⊢
        rw [MakeResponse_single_result H _ _ _ _ _ _ _ rfl i hi]
        decide
      · have hz : FinalizePendingRead H s blkCnt
            = FinalizePendingRead H s (if blkCnt == 0 then 1 else blkCnt) := by
          by_cases h0 : blkCnt = 0
          · subst h0
            exact FinalizePendingRead_zero H s
          · rw [if_neg (by simpa using h0)]
        rw [hz] at hi ⊢
        have hc' : (if blkCnt == 0 then 1 else blkCnt) < 65536 := by
          split <;> omega
        have hb' : 0 < (if blkCnt == 0 then 1 else blkCnt) := by
          split
          · omega
          · rename_i h; simp at h; omega
        generalize (if blkCnt == 0 then 1 else blkCnt) = n at hv hz hi hc' hb' ⊢
        obtain ⟨_, h2⟩ := (StorageAddrValid_iff s _ n).1 hv
        rw [Nat.mod_eq_of_lt (by omega)] at h2
        obtain ⟨_, hl, hfr, _⟩ := FinalizePendingRead_batch H s n hp' hk hwf hb' h2 (by omega)
        rw [hl] at hi
        have hin : i < n := by omega
        rw [(IsReadFrame_fields _ i _ _ _ _ _ (hfr i hin)).2.2.2.2.2.2.1]
        decide

theorem READ_FAIL_unreachable_witness :
    ReadBlock exState ((1 + 1) % 65536) = some (storageBlock exState.storage ((1 + 1) % 65536)) :=
  ((READ_FAIL_unreachable sampleHmac exState (by decide)).1 1 2 1 (by decide)
    (by decide) (by decide) (by decide)).1

/-! ## A pending read across other requests -/

theorem WriteBlock_storage_length (s : State) (a : Nat) (d : List Nat) (ha : a < 65536)
    (hl : s.storage.length = s.opt.maxBlocks * 256) :
    (WriteBlock s a d).storage.length = s.storage.length := by
  unfold WriteBlock
  cases hv : StorageAddrValid s a 1
  · simp
  · obtain ⟨_, h2⟩ := (StorageAddrValid_iff s a 1).1 hv
    rw [Nat.mod_eq_of_lt (by omega)] at h2
    simp only [Bool.not_true, Bool.false_eq_true, if_false, memcpy]
    refine length_writeAt _ _ _ ?_
    have : (d.take 256).length ≤ 256 := by rw [List.length_take]; omega
    rw [hl]
    omega

theorem writtenStorage_storage_length (s : State) (allFrames : List Nat) (addr blkCnt : Nat)
    (hl : s.storage.length = s.opt.maxBlocks * 256) :
    (writtenStorage s allFrames addr blkCnt).storage.length = s.storage.length := by
  induction blkCnt with
  | zero => rfl
  | succ k ih =>
    rw [writtenStorage_succ, WriteBlock_storage_length _ _ _ (Nat.mod_lt _ (by decide))
      (by rw [ih, (writtenStorage_fields s allFrames addr k).1]; exact hl), ih]

theorem HandleDataWrite_storage_length (H : HmacSha256) (s : State) (f all : List Nat)
    (n : Nat) (hl : s.storage.length = s.opt.maxBlocks * 256) :
    (HandleDataWrite H s f all n).storage.length = s.storage.length := by
  rw [HandleDataWrite_eq]
  split
  · exact writtenStorage_storage_length s all _ _ hl
  · rfl

/-- A request that is neither DATA_READ nor RESULT_READ keeps the pending read, the
configuration and the size of the storage. -/
theorem ProcessRequest_keeps_pending (H : HmacSha256) (s : State) (f all : List Nat) (n : Nat)
    (h4 : frameReqResp f ≠ RPMB_REQ_DATA_READ) (h5 : frameReqResp f ≠ RPMB_REQ_RESULT_READ) :
    (ProcessRequest H s f all n).pendingRead = s.pendingRead ∧
    (ProcessRequest H s f all n).opt = s.opt ∧
    (s.storage.length = s.opt.maxBlocks * 256 →
      (ProcessRequest H s f all n).storage.length = s.storage.length) ∧
    (ProcessRequest H s f all n).respQueue.length = 512 := by
  by_cases h1 : frameReqResp f = RPMB_REQ_PROGRAM_KEY
  · rw [ProcessRequest_program_key H s f all n h1]
    obtain ⟨a1, _, a3, a4, _⟩ := HandleProgramKey_core H { s with respQueue := [] } f
    refine ⟨a4, a1, fun _ => by rw [a3], ?_⟩
    unfold HandleProgramKey
    split <;> rw [MakeResponse_respQueue_length] <;> rfl
  · by_cases h2 : frameReqResp f = RPMB_REQ_GET_COUNTER
    · rw [ProcessRequest_get_counter H s f all n h2]
      unfold HandleGetCounter
      split
      · exact ⟨rfl, rfl, fun _ => rfl, by rw [MakeResponse_respQueue_length]; rfl⟩
      · exact ⟨rfl, rfl, fun _ => rfl, by rw [MakeResponse_respQueue_length]; rfl⟩
    · by_cases h3 : frameReqResp f = RPMB_REQ_DATA_WRITE
      · rw [ProcessRequest_data_write H s f all n h3]
        obtain ⟨a1, _, _, a4, _⟩ := HandleDataWrite_core H { s with respQueue := [] } f all n
        refine ⟨a4, a1, fun hl => HandleDataWrite_storage_length H _ f all n hl, ?_⟩
        rw [HandleDataWrite_eq]
        split <;> rw [MakeResponse_respQueue_length]
        · rw [(writtenStorage_fields _ _ _ _).2.2.2.2.1]; rfl
        · rfl
      · rw [ProcessRequest_unknown H s f all n h1 h2 h3 h4 h5]
        exact ⟨rfl, rfl, fun _ => rfl, by rw [MakeResponse_respQueue_length]; rfl⟩

/-- The state after `FinalizePendingRead` does not depend on the content of the queue. -/
theorem FinalizePendingRead_clears_queue (H : HmacSha256) (s : State) (blkCnt : Nat)
    (hp : s.pendingRead.valid = true) :
    FinalizePendingRead H s blkCnt = FinalizePendingRead H { s with respQueue := [] } blkCnt := by
  simp only [FinalizePendingRead, hp, Bool.not_true, Bool.false_eq_true, if_false]

theorem frameAt_zero_of_length (q : List Nat) (h : q.length = 512) : frameAt q 0 = q := by
  unfold frameAt readAt
  rw [Nat.zero_mul, List.drop_zero, ← h, List.take_length]

/-- The first frame of the response queued for a pending read is a DATA_READ response that
carries the latched nonce. -/
theorem FinalizePendingRead_first_frame (H : HmacSha256) (s : State) (blkCnt : Nat)
    (hp : s.pendingRead.valid = true) (hwf : s.storage.length = s.opt.maxBlocks * 256)
    (ha : s.pendingRead.addr < 65536) (hc : blkCnt < 65536)
    (hn : s.pendingRead.nonce.length = 16) :
    512 ≤ (FinalizePendingRead H s blkCnt).respQueue.length ∧
    frameReqResp (frameAt (FinalizePendingRead H s blkCnt).respQueue 0) = 0x0400 ∧
    frameNonce (frameAt (FinalizePendingRead H s blkCnt).respQueue 0)
      = s.pendingRead.nonce := by
  obtain ⟨_, e1, e2, _⟩ := finalize_error_fields H s blkCnt hp hn
  cases hk : s.keyProgrammed
  · obtain ⟨l, r, _, nn, _⟩ := e1 hk
    rw [frameAt_zero_of_length _ l]
    exact ⟨by omega, r, nn⟩
  · cases hv : StorageAddrValid s s.pendingRead.addr (if blkCnt = 0 then 1 else blkCnt)
    · obtain ⟨l, r, _, nn, _⟩ := e2 hk hv
      rw [frameAt_zero_of_length _ l]
      exact ⟨by omega, r, nn⟩
    · have hz : FinalizePendingRead H s blkCnt
          = FinalizePendingRead H s (if blkCnt = 0 then 1 else blkCnt) := by
        by_cases h0 : blkCnt = 0
        · subst h0
          exact FinalizePendingRead_zero H s
        · rw [if_neg h0]
      rw [hz]
      have hc' : (if blkCnt = 0 then 1 else blkCnt) < 65536 := by
        split <;> omega
      have hb' : 0 < (if blkCnt = 0 then 1 else blkCnt) := by
        split <;> omega
      generalize (if blkCnt = 0 then 1 else blkCnt) = m at hv hc' hb' ⊢
      obtain ⟨_, h2⟩ := (StorageAddrValid_iff s _ m).1 hv
      rw [Nat.mod_eq_of_lt (by omega)] at h2
      obtain ⟨_, hl, hfr, _⟩ := FinalizePendingRead_batch H s m hp hk hwf hb' h2 (by omega)
      obtain ⟨_, _, f3, _, _, _, _, f8⟩ := IsReadFrame_fields _ 0 _ _ _ _ _ (hfr 0 hb')
      refine ⟨by rw [hl]; omega, f8, ?_⟩
      rw [f3 (by omega), ← hn, List.take_length]

/-- Claim C28. For every engine state with a pending read `{addr, nonce}` and every request
frame of type PROGRAM_KEY, GET_COUNTER, DATA_WRITE or unknown type (any type but DATA_READ
and RESULT_READ), processing the request queues that request's 512-byte response and
leaves the pending read latched with the same `addr` and nonce. A following
`FinalizePendingRead(m)` gives the state it gives on an empty queue: the queued response
is discarded and the queue holds the response of the latched read, whose first frame has
req/resp `0x0400` and the latched nonce (storage of `max_blocks * 256` bytes, 16-bit
`addr` and `m`, 16-byte nonce). -/
theorem pending_read_survives_request (H : HmacSha256) (s : State) (f all : List Nat)
    (n : Nat) (hp : HasPendingRead s = true)
    (h4 : frameReqResp f ≠ RPMB_REQ_DATA_READ) (h5 : frameReqResp f ≠ RPMB_REQ_RESULT_READ) :
    (ProcessRequest H s f all n).pendingRead = s.pendingRead ∧
    HasPendingRead (ProcessRequest H s f all n) = true ∧
    (ProcessRequest H s f all n).respQueue.length = 512 ∧
    (∀ m, FinalizePendingRead H (ProcessRequest H s f all n) m
      = FinalizePendingRead H { ProcessRequest H s f all n with respQueue := [] } m) ∧
    (∀ m, s.storage.length = s.opt.maxBlocks * 256 → s.pendingRead.addr < 65536 →
      m < 65536 → s.pendingRead.nonce.length = 16 →
      HasPendingRead (FinalizePendingRead H (ProcessRequest H s f all n) m) = false ∧
      512 ≤ (FinalizePendingRead H (ProcessRequest H s f all n) m).respQueue.length ∧
      frameReqResp (frameAt (FinalizePendingRead H (ProcessRequest H s f all n) m).respQueue 0)
        = 0x0400 ∧
      frameNonce (frameAt (FinalizePendingRead H (ProcessRequest H s f all n) m).respQueue 0)
        = s.pendingRead.nonce) := by
  obtain ⟨k1, k2, k3, k4⟩ := ProcessRequest_keeps_pending H s f all n h4 h5
  have hp' : (ProcessRequest H s f all n).pendingRead.valid = true := by
    rw [k1]; exact hp
  refine ⟨k1, hp', k4, fun m => FinalizePendingRead_clears_queue H _ m hp', ?_⟩
  intro m hwf ha hm hn
  have hwf' : (ProcessRequest H s f all n).storage.length
      = (ProcessRequest H s f all n).opt.maxBlocks * 256 := by
    rw [k3 hwf, k2]; exact hwf
  obtain ⟨g1, g2, g3⟩ := FinalizePendingRead_first_frame H (ProcessRequest H s f all n) m hp'
    hwf' (by rw [k1]; exact ha) hm (by rw [k1]; exact hn)
  refine ⟨?_, g1, g2, by rw [g3, k1]⟩
  show (FinalizePendingRead H (ProcessRequest H s f all n) m).pendingRead.valid = false
  rw [(FinalizePendingRead_pending H _ m hp').1]

theorem pending_read_survives_request_witness :
    (ProcessRequest sampleHmac exPending (exRequest 2 0) (exRequest 2 0) 1).pendingRead
      = exPending.pendingRead :=
  (pending_read_survives_request sampleHmac exPending (exRequest 2 0) (exRequest 2 0) 1
    (by decide) (by decide) (by decide)).1

/-! ## Batches of request frames -/

theorem readAt_take (f : List Nat) (m off n : Nat) (h : off + n ≤ m) :
    readAt (f.take m) off n = readAt f off n := by
  have e : f.take m = readAt f 0 m := by simp [readAt]
  rw [e, readAt_readAt _ _ _ _ _ h, Nat.zero_add]

theorem readAt_congr_take (f g : List Nat) (m off n : Nat) (hfg : f.take m = g.take m)
    (h : off + n ≤ m) : readAt f off n = readAt g off n := by
  rw [← readAt_take f m off n h, ← readAt_take g m off n h, hfg]

theorem Be16_drop_readAt (f : List Nat) (off : Nat) :
    Be16 (f.drop off) = Be16 (readAt f off 2) := by
  simp [Be16, readAt, List.getD_eq_getElem?_getD, List.getElem?_take]

theorem Be32_drop_readAt (f : List Nat) (off : Nat) :
    Be32 (f.drop off) = Be32 (readAt f off 4) := by
  simp [Be32, readAt, List.getD_eq_getElem?_getD, List.getElem?_take]

theorem Be16_drop_congr (f g : List Nat) (off : Nat) (hfg : f.take 512 = g.take 512)
    (h : off + 2 ≤ 512) : Be16 (f.drop off) = Be16 (g.drop off) := by
  rw [Be16_drop_readAt f, Be16_drop_readAt g, readAt_congr_take f g 512 off 2 hfg h]

theorem Be32_drop_congr (f g : List Nat) (off : Nat) (hfg : f.take 512 = g.take 512)
    (h : off + 4 ≤ 512) : Be32 (f.drop off) = Be32 (g.drop off) := by
  rw [Be32_drop_readAt f, Be32_drop_readAt g, readAt_congr_take f g 512 off 4 hfg h]

theorem HandleProgramKey_congr (H : HmacSha256) (s : State) (f g : List Nat)
    (hfg : f.take 512 = g.take 512) : HandleProgramKey H s f = HandleProgramKey H s g := by
  have h : (f.drop OFF_MAC).take 32 = (g.drop OFF_MAC).take 32 :=
    readAt_congr_take f g 512 OFF_MAC 32 hfg (by decide)
  unfold HandleProgramKey
  simp only [h]

theorem HandleGetCounter_congr (H : HmacSha256) (s : State) (f g : List Nat)
    (hfg : f.take 512 = g.take 512) : HandleGetCounter H s f = HandleGetCounter H s g := by
  have h : (f.drop OFF_NONCE).take 16 = (g.drop OFF_NONCE).take 16 :=
    readAt_congr_take f g 512 OFF_NONCE 16 hfg (by decide)
  unfold HandleGetCounter MakeResponse MakeResponseFrame memcpy
  simp only [h]

theorem StartPendingRead_congr (s : State) (f g : List Nat)
    (hfg : f.take 512 = g.take 512) : StartPendingRead s f = StartPendingRead s g := by
  have h : (f.drop OFF_NONCE).take 16 = (g.drop OFF_NONCE).take 16 :=
    readAt_congr_take f g 512 OFF_NONCE 16 hfg (by decide)
  unfold StartPendingRead
  simp only [h, Be16_drop_congr f g OFF_ADDR hfg (by decide)]

theorem frameAt_zero_congr (f g : List Nat) (hfg : f.take 512 = g.take 512) :
    frameAt f 0 = frameAt g 0 := by
  simp only [frameAt, readAt, Nat.zero_mul, List.drop_zero]
  exact hfg

theorem specDataWriteResult_congr (H : HmacSha256) (s : State) (f g : List Nat)
    (hfg : f.take 512 = g.take 512) :
    specDataWriteResult H s f f 1 = specDataWriteResult H s g g 1 := by
  have e1 : frameBlockCount f = frameBlockCount g :=
    Be16_drop_congr f g OFF_BLOCK_COUNT hfg (by decide)
  have e2 : frameAddr f = frameAddr g := Be16_drop_congr f g OFF_ADDR hfg (by decide)
  have e3 : frameWCounter f = frameWCounter g :=
    Be32_drop_congr f g OFF_WCOUNTER hfg (by decide)
  have e4 : (∃ i, i < 1 ∧ frameMac (frameAt f i) ≠ H.hmac s.key (macRegion (frameAt f i))) ↔
      (∃ i, i < 1 ∧ frameMac (frameAt g i) ≠ H.hmac s.key (macRegion (frameAt g i))) := by
    constructor
    · rintro ⟨i, hi, h⟩
      have : i = 0 := by omega
      subst this
      exact ⟨0, hi, by rw [← frameAt_zero_congr f g hfg]; exact h⟩
    · rintro ⟨i, hi, h⟩
      have : i = 0 := by omega
      subst this
      exact ⟨0, hi, by rw [frameAt_zero_congr f g hfg]; exact h⟩
  unfold specDataWriteResult
  simp only [e1, e2, e3, e4]

theorem writtenStorage_one_congr (s : State) (f g : List Nat) (addr : Nat)
    (hfg : f.take 512 = g.take 512) :
    writtenStorage s f addr 1 = writtenStorage s g addr 1 := by
  have h : (f.drop OFF_DATA).take 256 = (g.drop OFF_DATA).take 256 :=
    readAt_congr_take f g 512 OFF_DATA 256 hfg (by decide)
  have hr : List.range 1 = [0] := rfl
  simp only [writtenStorage, hr, List.foldl_cons, List.foldl_nil, Nat.zero_mul,
    List.drop_zero, WriteBlock, memcpy, h]

theorem HandleDataWrite_congr (H : HmacSha256) (s : State) (f g : List Nat)
    (hfg : f.take 512 = g.take 512) :
    HandleDataWrite H s f f 1 = HandleDataWrite H s g g 1 := by
  have e1 : frameBlockCount f = frameBlockCount g :=
    Be16_drop_congr f g OFF_BLOCK_COUNT hfg (by decide)
  have e2 : frameAddr f = frameAddr g := Be16_drop_congr f g OFF_ADDR hfg (by decide)
  rw [HandleDataWrite_eq, HandleDataWrite_eq, specDataWriteResult_congr H s f g hfg, e1, e2]
  by_cases hok : specDataWriteResult H s g g 1 = RPMB_RES_OK
  · rw [if_pos hok, if_pos hok]
    have hc : frameBlockCount g = 1 := ((specDataWriteResult_ok_iff H s g g 1).1 hok).2.2.1
    rw [hc, writtenStorage_one_congr s f g _ hfg]
  · rw [if_neg hok, if_neg hok]

/-- With `framesTotal = 1` the dispatcher reads nothing beyond the first 512 bytes at the
frame pointer. -/
theorem ProcessRequest_congr (H : HmacSha256) (s : State) (f g : List Nat)
    (hfg : f.take 512 = g.take 512) :
    ProcessRequest H s f f 1 = ProcessRequest H s g g 1 := by
  have et : Be16 (f.drop OFF_REQRESP) = Be16 (g.drop OFF_REQRESP) :=
    Be16_drop_congr f g OFF_REQRESP hfg (by decide)
  unfold ProcessRequest
  simp only [et, HandleProgramKey_congr H _ f g hfg, HandleGetCounter_congr H _ f g hfg,
    HandleDataWrite_congr H _ f g hfg, StartPendingRead_congr _ f g hfg, HandleResultRead]

theorem length_frameAt (data : List Nat) (i : Nat) (h : (i + 1) * 512 ≤ data.length) :
    (frameAt data i).length = 512 := by
  simp only [frameAt, readAt, List.length_take, List.length_drop]
  omega

/-- Claim C24. For every engine state and every request buffer of `k ≥ 1` frames whose
first frame's req/resp is not DATA_WRITE, `HandleWriteRequestFrames` on the whole buffer
yields the same engine state as `HandleWriteRequestFrames` called on each of the `k` frames
separately, in order, as single-frame buffers; a buffer whose first frame is DATA_WRITE is
dispatched once, to `HandleDataWrite` (after the queue is cleared) with
`frames_total = len / 512`. -/
theorem HandleWriteRequestFrames_batch (H : HmacSha256) (s : State) (data : List Nat) (k : Nat)
    (_hk : 1 ≤ k) (hlen : data.length = k * 512) :
    (frameReqResp data ≠ RPMB_REQ_DATA_WRITE →
      HandleWriteRequestFrames H s data
        = (List.range k).foldl (fun st i => HandleWriteRequestFrames H st (frameAt data i)) s) ∧
    (frameReqResp data = RPMB_REQ_DATA_WRITE →
      HandleWriteRequestFrames H s data
        = ProcessRequest H s data data (data.length / 512) ∧
      HandleWriteRequestFrames H s data
        = HandleDataWrite H { s with respQueue := [] } data data (data.length / 512) ∧
      data.length / 512 = k) := by
  have hmod : data.length % 512 = 0 := by rw [hlen]; exact Nat.mul_mod_left _ _
  have hdiv : data.length / 512 = k := by rw [hlen]; exact Nat.mul_div_left _ (by decide)
  constructor
  · intro ht
    have ht' : Be16 (data.drop OFF_REQRESP) ≠ RPMB_REQ_DATA_WRITE := ht
    have e : HandleWriteRequestFrames H s data
        = (List.range k).foldl
            (fun st i => ProcessRequest H st (data.drop (i * 512)) (data.drop (i * 512)) 1)
            s := by
      simp only [HandleWriteRequestFrames]
      rw [if_neg (by simp [hmod]), if_neg (by simpa using ht'), hdiv]
    rw [e]
    refine List.foldl_ext _ _ _ ?_
    intro st i hi
    have hi' : i < k := List.mem_range.1 hi
    have hl : (frameAt data i).length = 512 := length_frameAt data i (by rw [hlen]; nlinarith)
    rw [HandleWriteRequestFrames_single H st _ hl]
    refine ProcessRequest_congr H st _ _ ?_
    simp only [frameAt, readAt, List.take_take, Nat.min_self]
  · intro ht
    have ht' : Be16 (data.drop OFF_REQRESP) = RPMB_REQ_DATA_WRITE := ht
    have e : HandleWriteRequestFrames H s data
        = ProcessRequest H s data data (data.length / 512) := by
      simp only [HandleWriteRequestFrames]
      rw [if_neg (by simp [hmod]), if_pos (by simpa using ht')]
    exact ⟨e, by rw [e, ProcessRequest_data_write H s data data _ ht], hdiv⟩

theorem HandleWriteRequestFrames_batch_witness :
    HandleWriteRequestFrames sampleHmac exState (exRequest 2 0 ++ exWriteFrame 0)
      = (List.range 2).foldl
          (fun st i =>
            HandleWriteRequestFrames sampleHmac st (frameAt (exRequest 2 0 ++ exWriteFrame 0) i))
          exState :=
  (HandleWriteRequestFrames_batch sampleHmac exState (exRequest 2 0 ++ exWriteFrame 0) 2
    (by decide) (by decide)).1 (by decide)

/-- A request that is not RESULT_READ starts by clearing the queue. -/
theorem ProcessRequest_clears_queue (H : HmacSha256) (s : State) (f all : List Nat) (n : Nat)
    (h5 : frameReqResp f ≠ RPMB_REQ_RESULT_READ) :
    ProcessRequest H s f all n = ProcessRequest H { s with respQueue := [] } f all n := by
  have h5' : Be16 (f.drop OFF_REQRESP) ≠ RPMB_REQ_RESULT_READ := h5
  unfold ProcessRequest
  simp only [h5', if_false]

/-- Claim C25 as stated fails. After a GET_COUNTER request the queue of `exState` holds its
512-byte response; a RESULT_READ batch then leaves the state as it is, queue included,
whereas from the same state with the queue emptied it queues a `GENERAL_FAIL` frame. -/
theorem result_read_keeps_queue :
    (exRequest 5 0).length = 512 ∧
    (HandleWriteRequestFrames sampleHmac exState (exRequest 2 0)).respQueue.length = 512 ∧
    HandleWriteRequestFrames sampleHmac
        (HandleWriteRequestFrames sampleHmac exState (exRequest 2 0)) (exRequest 5 0)
      = HandleWriteRequestFrames sampleHmac exState (exRequest 2 0) ∧
    frameResult (HandleWriteRequestFrames sampleHmac
        { HandleWriteRequestFrames sampleHmac exState (exRequest 2 0) with respQueue := [] }
        (exRequest 5 0)).respQueue = RPMB_RES_GENERAL_FAIL ∧
    HandleWriteRequestFrames sampleHmac
        (HandleWriteRequestFrames sampleHmac exState (exRequest 2 0)) (exRequest 5 0)
      ≠ HandleWriteRequestFrames sampleHmac
        { HandleWriteRequestFrames sampleHmac exState (exRequest 2 0) with respQueue := [] }
        (exRequest 5 0) := by
  decide

/-- Claim C25, amended. For every engine state `s` and every request buffer whose length is
a nonzero multiple of 512 and whose first frame is not a RESULT_READ request,
`HandleWriteRequestFrames` gives the same resulting state from `s` as from `s` with its
response queue emptied, so no byte queued before the batch survives it. A single
RESULT_READ frame that arrives on a non-empty queue leaves the whole state, queue included,
as it is. -/
theorem HandleWriteRequestFrames_clears_queue (H : HmacSha256) (s : State) (data : List Nat)
    (k : Nat) (hk : 1 ≤ k) (hlen : data.length = k * 512) :
    (frameReqResp data ≠ RPMB_REQ_RESULT_READ →
      HandleWriteRequestFrames H s data
        = HandleWriteRequestFrames H { s with respQueue := [] } data) ∧
    (frameReqResp data = RPMB_REQ_RESULT_READ → k = 1 → s.respQueue ≠ [] →
      HandleWriteRequestFrames H s data = s) := by
  constructor
  · intro h5
    simp only [HandleWriteRequestFrames]
    split
    · rename_i hm
      rw [hlen] at hm
      simp at hm
    · split
      · exact ProcessRequest_clears_queue H s data data _ h5
      · have hdiv : data.length / 512 = (k - 1) + 1 := by
          rw [hlen, Nat.mul_div_left _ (by decide)]; omega
        rw [hdiv, List.range_succ_eq_map, List.foldl_cons, List.foldl_cons]
        have h0 : frameReqResp (data.drop (0 * 512)) ≠ RPMB_REQ_RESULT_READ := by
          rw [Nat.zero_mul, List.drop_zero]; exact h5
        rw [ProcessRequest_clears_queue H s _ _ 1 h0]
  · intro h5 h1 hq
    subst h1
    rw [HandleWriteRequestFrames_single H s data (by rw [hlen]),
      ProcessRequest_result_read H s data data 1 h5]
    have he : s.respQueue.isEmpty = false := by
      cases hs : s.respQueue with
      | nil => exact absurd hs hq
      | cons a l => rfl
    rw [he, Bool.and_false]
    simp only [Bool.false_eq_true, if_false, HandleResultRead, he, Bool.not_false, if_true]
    split <;> rfl

theorem HandleWriteRequestFrames_clears_queue_witness :
    HandleWriteRequestFrames sampleHmac { exState with respQueue := [1, 2, 3] }
        (exRequest 2 0 ++ exRequest 5 0)
      = HandleWriteRequestFrames sampleHmac
        { ({ exState with respQueue := [1, 2, 3] } : State) with respQueue := [] }
        (exRequest 2 0 ++ exRequest 5 0) :=
  (HandleWriteRequestFrames_clears_queue sampleHmac { exState with respQueue := [1, 2, 3] }
    (exRequest 2 0 ++ exRequest 5 0) 2 (by decide) (by decide)).1 (by decide)

/-! ## Loading short, foreign and mismatching state files -/

theorem writeAt_zero_nil (buf : List Nat) : writeAt buf 0 [] = buf := by
  simp [writeAt]

/-- A stream that has failed or is at its end stores nothing, and stays so. -/
theorem IfStream_read_exhausted (f : IfStream) (buf : List Nat) (n : Nat)
    (h : f.failed = true ∨ f.rest = []) :
    (f.read buf n).1 = buf ∧ ((f.read buf n).2.failed = true ∨ (f.read buf n).2.rest = []) := by
  unfold IfStream.read
  cases hf : f.failed
  · have hr : f.rest = [] := by
      rcases h with h | h
      · rw [hf] at h; exact absurd h (by decide)
      · exact h
    simp only [Bool.false_eq_true, if_false, hr, List.length_nil, List.take_nil, List.drop_nil,
      writeAt_zero_nil]
    split <;> simp
  · simp [hf]

/-- The first read of `LoadState` on a file of at most 8 bytes leaves the stream failed or
at its end. -/
theorem IfStream_read_short (bytes junk : List Nat) (h : bytes.length ≤ 8) :
    (IfStream.read { rest := bytes, failed := false } junk 8).2.failed = true ∨
    (IfStream.read { rest := bytes, failed := false } junk 8).2.rest = [] := by
  unfold IfStream.read
  simp only [Bool.false_eq_true, if_false]
  split
  · right
    exact List.drop_eq_nil_of_le h
  · left
    rfl

/-- The magic read from a file of at least 7 bytes starts with the first 7 bytes of the
file. -/
theorem IfStream_read_magic (bytes junk : List Nat) (h : 7 ≤ bytes.length) :
    readAt (IfStream.read { rest := bytes, failed := false } junk 8).1 0 7 = bytes.take 7 := by
  unfold IfStream.read
  simp only [Bool.false_eq_true, if_false]
  split
  · simp only [readAt, writeAt, List.take_zero, List.nil_append, List.drop_zero,
      List.append_assoc]
    rw [List.take_append_of_le_length (by rw [List.length_take]; omega), List.take_take]
    rfl
  · simp only [readAt, writeAt, List.take_zero, List.nil_append, List.drop_zero,
      List.append_assoc]
    rw [List.take_append_of_le_length h]

/-- Once the stream is failed or at its end after the magic, `LoadState` leaves a new
engine as the constructor initialised it. -/
theorem LoadState_exhausted (opt : Options) (bytes junk : List Nat)
    (h : (IfStream.read { rest := bytes, failed := false } junk 8).2.failed = true ∨
      (IfStream.read { rest := bytes, failed := false } junk 8).2.rest = []) :
    LoadState (initState opt) (some bytes) junk = initState opt := by
  unfold LoadState
  simp only []
  split
  · rfl
  · generalize (IfStream.read { rest := bytes, failed := false } junk 8).2 = f1 at h ⊢
    obtain ⟨a1, h1⟩ := IfStream_read_exhausted f1 [0] 1 h
    rw [a1]
    generalize (f1.read [0] 1).2 = f2 at h1 ⊢
    obtain ⟨a2, h2⟩ := IfStream_read_exhausted f2 (initState opt).key 32 h1
    rw [a2]
    generalize (f2.read (initState opt).key 32).2 = f3 at h2 ⊢
    obtain ⟨a3, h3⟩ := IfStream_read_exhausted f3 (hostBytes32 (initState opt).writeCounter) 4 h2
    rw [a3]
    generalize (f3.read (hostBytes32 (initState opt).writeCounter) 4).2 = f4 at h3 ⊢
    obtain ⟨a4, h4⟩ := IfStream_read_exhausted f4 (hostBytes32 0) 4 h3
    rw [a4]
    generalize (f4.read (hostBytes32 0) 4).2 = f5 at h4 ⊢
    have hr : resize (initState opt).storage
        (((initState opt).opt.maxBlocks * 256) % 4294967296) = (initState opt).storage := by
      have hl : (initState opt).storage.length
          = ((initState opt).opt.maxBlocks * 256) % 4294967296 := by
        simp only [initState]
        rw [List.length_replicate]
      rw [← hl]
      exact resize_self _
    have hwc : hostValue32 (hostBytes32 (initState opt).writeCounter) = 0 := by
      show hostValue32 (hostBytes32 0) = 0
      decide
    have hkp : ([0].getD 0 0 != 0) = false := by decide
    rw [hwc, hkp]
    split
    · rfl
    · rw [hr, (IfStream_read_exhausted f5 _ _ h4).1]
      rfl

/-- Claim C21 as stated fails. (1) The file saved for `exCounter7` (4 blocks, key `exKey`,
counter 7) cut after its write counter field is 45 bytes long, shorter than the full record
of `49 + 4 * 256` bytes, and has the right magic; an engine with 4 blocks constructed on it
has `key_programmed` true, the key `exKey` and write counter 7. (2) A new engine configured
with `max_blocks = 16777216` and no state file has an empty storage. -/
theorem truncated_file_loads_key :
    ((SaveState exCounter7).take 45).length = 45 ∧
    45 < 49 + 4 * 256 ∧
    readAt ((SaveState exCounter7).take 45) 0 8 = magicBytes ∧
    (construct { maxBlocks := 4, allowRekey := false } (some ((SaveState exCounter7).take 45))
      [0, 0, 0, 0, 0, 0, 0, 0]).keyProgrammed = true ∧
    (construct { maxBlocks := 4, allowRekey := false } (some ((SaveState exCounter7).take 45))
      [0, 0, 0, 0, 0, 0, 0, 0]).key = exKey ∧
    (construct { maxBlocks := 4, allowRekey := false } (some ((SaveState exCounter7).take 45))
      [0, 0, 0, 0, 0, 0, 0, 0]).writeCounter = 7 ∧
    (construct { maxBlocks := 16777216, allowRekey := false } none
      [0, 0, 0, 0, 0, 0, 0, 0]).storage.length = 0 ∧
    0 ≠ 16777216 * 256 := by
  decide

/-- Claim C21, amended. For every state-file content that is absent, at most 8 bytes long,
or whose first 7 bytes are not `RPMBDv1`, engine construction yields the fresh state:
`key_programmed` false, key all zero, write counter 0, and a storage of
`(max_blocks * 256) mod 2^32` zero bytes, which is `max_blocks * 256` zero bytes when
`max_blocks < 2^24`. -/
theorem construct_fresh (opt : Options) (junk : List Nat) :
    construct opt none junk = initState opt ∧
    (∀ bytes : List Nat, bytes.length ≤ 8 → construct opt (some bytes) junk = initState opt) ∧
    (∀ bytes : List Nat, 7 ≤ bytes.length →
      bytes.take 7 ≠ ['R', 'P', 'M', 'B', 'D', 'v', '1'].map Char.toNat →
      construct opt (some bytes) junk = initState opt) ∧
    (initState opt).keyProgrammed = false ∧
    (initState opt).key = List.replicate 32 0 ∧
    (initState opt).writeCounter = 0 ∧
    (initState opt).storage = List.replicate ((opt.maxBlocks * 256) % 4294967296) 0 ∧
    (opt.maxBlocks < 16777216 →
      (initState opt).storage = List.replicate (opt.maxBlocks * 256) 0) := by
  refine ⟨rfl, ?_, ?_, rfl, rfl, rfl, rfl, ?_⟩
  · intro bytes hb
    exact LoadState_exhausted opt bytes junk (IfStream_read_short bytes junk hb)
  · intro bytes hb hne
    unfold construct LoadState
    simp only []
    rw [if_pos]
    rw [IfStream_read_magic bytes junk hb]
    exact hne
  · intro hm
    show List.replicate ((opt.maxBlocks * 256) % 4294967296) 0 = _
    rw [Nat.mod_eq_of_lt (by omega)]

theorem construct_fresh_witness :
    construct { maxBlocks := 4, allowRekey := false } (some [0x52, 0x50, 0x4D, 0x42, 0x44])
        [9, 9, 9, 9, 9, 0x76, 0x31, 0]
      = initState { maxBlocks := 4, allowRekey := false } :=
  (construct_fresh { maxBlocks := 4, allowRekey := false } [9, 9, 9, 9, 9, 0x76, 0x31, 0]).2.1
    [0x52, 0x50, 0x4D, 0x42, 0x44] (by decide)

/-- Claim C22 as stated fails. The file saved for `exCounter7` (stored `max_blocks = 4`)
loaded by an engine configured with `max_blocks = 16777216` keeps the key and the counter,
but the storage is empty, not `16777216 * 256` zero bytes. -/
theorem mismatch_storage_size_wraps :
    readAt (SaveState exCounter7) 45 4 = hostBytes32 4 ∧
    (SaveState exCounter7).length = 49 + 4 * 256 ∧
    (construct { maxBlocks := 16777216, allowRekey := false } (some (SaveState exCounter7))
      [0, 0, 0, 0, 0, 0, 0, 0]).writeCounter = 7 ∧
    (construct { maxBlocks := 16777216, allowRekey := false } (some (SaveState exCounter7))
      [0, 0, 0, 0, 0, 0, 0, 0]).key = exKey ∧
    (construct { maxBlocks := 16777216, allowRekey := false } (some (SaveState exCounter7))
      [0, 0, 0, 0, 0, 0, 0, 0]).storage.length = 0 ∧
    0 ≠ 16777216 * 256 := by
  decide

/-- Claim C22, amended. For every complete state file (magic, `key_programmed` byte `kp`,
32-byte key, write counter `wc`, stored `max_blocks` `mb`, then any storage bytes) whose
stored `max_blocks` differs from the configured `max_blocks`, engine construction yields
`key_programmed = (kp ≠ 0)`, the persisted key and write counter, and a storage of
`(max_blocks * 256) mod 2^32` zero bytes, which is `max_blocks * 256` zero bytes when the
configured `max_blocks < 2^24`. -/
theorem construct_maxBlocks_mismatch (opt : Options) (junk : List Nat) (kp wc mb : Nat)
    (key st : List Nat) (hj : junk.length = 8) (hkey : key.length = 32)
    (hwc : wc < 4294967296) (hmb : mb < 4294967296) (hne : mb ≠ opt.maxBlocks) :
    (construct opt
      (some (magicBytes ++ ([kp] ++ (key ++ (hostBytes32 wc ++ (hostBytes32 mb ++ st))))))
      junk).keyProgrammed = (kp != 0) ∧
    (construct opt
      (some (magicBytes ++ ([kp] ++ (key ++ (hostBytes32 wc ++ (hostBytes32 mb ++ st))))))
      junk).key = key ∧
    (construct opt
      (some (magicBytes ++ ([kp] ++ (key ++ (hostBytes32 wc ++ (hostBytes32 mb ++ st))))))
      junk).writeCounter = wc ∧
    (construct opt
      (some (magicBytes ++ ([kp] ++ (key ++ (hostBytes32 wc ++ (hostBytes32 mb ++ st))))))
      junk).storage = List.replicate ((opt.maxBlocks * 256) % 4294967296) 0 ∧
    (opt.maxBlocks < 16777216 →
      (construct opt
        (some (magicBytes ++ ([kp] ++ (key ++ (hostBytes32 wc ++ (hostBytes32 mb ++ st))))))
        junk).storage = List.replicate (opt.maxBlocks * 256) 0) := by
  have e := LoadState_record (initState opt) junk kp key (hostBytes32 wc) (hostBytes32 mb) st hj
    (by simp [initState]) hkey (by simp [hostBytes32]) (by simp [hostBytes32])
  rw [hostValue32_hostBytes32 _ hmb, hostValue32_hostBytes32 _ hwc,
    if_pos (by simpa [initState] using hne)] at e
  unfold construct
  rw [e]
  refine ⟨rfl, rfl, rfl, rfl, ?_⟩
  intro hm
  show List.replicate ((opt.maxBlocks * 256) % 4294967296) 0 = _
  rw [Nat.mod_eq_of_lt (by omega)]

theorem construct_maxBlocks_mismatch_witness :
    (construct { maxBlocks := 2, allowRekey := false }
      (some (magicBytes ++ ([1] ++ (exKey ++ (hostBytes32 7 ++ (hostBytes32 4 ++
        List.replicate 1024 5))))))
      [0, 0, 0, 0, 0, 0, 0, 0]).storage = List.replicate (2 * 256) 0 :=
  (construct_maxBlocks_mismatch { maxBlocks := 2, allowRekey := false }
    [0, 0, 0, 0, 0, 0, 0, 0] 1 7 4 exKey (List.replicate 1024 5) (by decide) (by decide)
    (by decide) (by decide) (by decide)).2.2.2.2 (by decide)

/-! ## Transport errors and the core -/

theorem cb_ioctl_loop_append {M : Type} (C : Caller M) (H : HmacSha256) (pre rest : List mmc_ioc_cmd)
    (core st : State) (mem mem1 : M) (h : cb_ioctl.loop C H core mem pre = (st, mem1, none)) :
    cb_ioctl.loop C H core mem (pre ++ rest) = cb_ioctl.loop C H st mem1 rest := by
  induction pre generalizing core mem with
  | nil =>
    simp only [cb_ioctl.loop, Prod.mk.injEq] at h
    obtain ⟨h1, h2, _⟩ := h
    subst h1 h2
    rfl
  | cons c cs ih =>
    simp only [List.cons_append, cb_ioctl.loop] at h ⊢
    rcases hx : cb_ioctl.exec C H core mem c with ⟨a, b, e⟩
    rw [hx] at h
    cases e with
    | none => exact ih a b h
    | some e =>
      simp only [Prod.mk.injEq] at h
      exact absurd h.2.2 (by simp)

/-- A pass that fails before it calls the core leaves it as it is. -/
theorem cb_ioctl_exec_rejects {M : Type} (C : Caller M) (H : HmacSha256) (core : State) (mem : M)
    (c : mmc_ioc_cmd)
    (h : ((c.opcode = 25 ∨ c.opcode = 18) ∧ (CmdDataLen c = 0 ∨ c.data_ptr = 0)) ∨
      (c.opcode = 25 ∧ C.read mem c.data_ptr (CmdDataLen c) = none) ∨
      (c.opcode ≠ 23 ∧ c.opcode ≠ 25 ∧ c.opcode ≠ 18 ∧ c.opcode ≠ 12)) :
    cb_ioctl.exec C H core mem c = (core, mem, some EIO) := by
  unfold cb_ioctl.exec
  rcases h with ⟨h1 | h1, h2⟩ | ⟨h1, h2⟩ | ⟨h1, h2, h3, h4⟩
  · simp only [h1, h2]
    simp
  · simp only [h1, h2]
    simp
  · simp only [h1, h2]
    simp
  · simp only [h1, h2, h3, h4, if_false]

/-- The passes for CMD23 and CMD12 touch neither the core nor the caller. -/
theorem cb_ioctl_loop_ignored {M : Type} (C : Caller M) (H : HmacSha256) (core : State) (mem : M)
    (pre : List mmc_ioc_cmd) (h : ∀ x ∈ pre, x.opcode = 23 ∨ x.opcode = 12) :
    cb_ioctl.loop C H core mem pre = (core, mem, none) := by
  induction pre with
  | nil => rfl
  | cons c cs ih =>
    have hc : cb_ioctl.exec C H core mem c = (core, mem, none) := by
      unfold cb_ioctl.exec
      rcases h c (List.mem_cons_self _ _) with h1 | h1
      · simp only [h1, if_true]
      · simp only [h1]
        simp
    simp only [cb_ioctl.loop, hc]
    exact ih (fun x hx => h x (List.mem_cons_of_mem _ hx))

/-- Claim C26 as stated fails. (1) On the engine `exFresh` the ioctl of
`exWriteThenBadOpcode` (a CMD25 with a PROGRAM_KEY frame, then opcode 99) is answered with
`EIO`, and the key is programmed: the core is not the one before the ioctl. (2) On an
engine whose queue holds a GET_COUNTER response, the ioctl of `exReadIntoUnmapped` (a
CMD18 whose buffer cannot be written) is answered with `EIO`, and the response has left the
queue. -/
theorem failed_ioctl_changes_core :
    (cb_ioctl sampleCaller sampleHmac exFresh exWriteThenBadOpcode 1 1).2.2 = Reply.err EIO ∧
    exFresh.keyProgrammed = false ∧
    (cb_ioctl sampleCaller sampleHmac exFresh exWriteThenBadOpcode 1 1).1.keyProgrammed
      = true ∧
    (cb_ioctl sampleCaller sampleHmac exFresh exWriteThenBadOpcode 1 1).1 ≠ exFresh ∧
    (cb_ioctl sampleCaller sampleHmac
      (HandleWriteRequestFrames sampleHmac exState (exRequest 2 0)) exReadIntoUnmapped 1 1).2.2
      = Reply.err EIO ∧
    (HandleWriteRequestFrames sampleHmac exState (exRequest 2 0)).respQueue.length = 512 ∧
    (cb_ioctl sampleCaller sampleHmac
      (HandleWriteRequestFrames sampleHmac exState (exRequest 2 0)) exReadIntoUnmapped 1
      1).1.respQueue = [] := by
  decide

/-- Claim C26, amended. When the transport fails a multi-command ioctl before the command
loop (null argument or invalid pid, unreadable header, `num_of_cmds == 0` or `> 16`,
unreadable command list), the core engine state after the ioctl equals the state before it.
When it fails at a sub-command that is a CMD25 or CMD18 with zero payload length or null
data pointer, a CMD25 whose payload cannot be read from caller memory, or an opcode other
than 23, 25, 18, 12, the reply is `EIO` and the core engine state after the ioctl equals the
state reached by the sub-commands before the failing one; that is the state before the
ioctl when those sub-commands are only CMD23 and CMD12 (or there are none). -/
theorem cb_ioctl_error_core {M : Type} (C : Caller M) (H : HmacSha256) (core : State) (mem : M)
    (arg : Nat) (pid : Int) :
    ((arg = 0 ∨ pid ≤ 0 ∨ C.header mem arg = none ∨
        ∃ n, C.header mem arg = some n ∧ (n = 0 ∨ n > 16 ∨ C.cmdlist mem arg n = none)) →
      (cb_ioctl C H core mem arg pid).1 = core ∧
      ∃ e, (cb_ioctl C H core mem arg pid).2.2 = Reply.err e) ∧
    (∀ n pre c post st mem1, arg ≠ 0 → 0 < pid → C.header mem arg = some n → n ≠ 0 →
      n ≤ 16 → C.cmdlist mem arg n = some (pre ++ c :: post) →
      cb_ioctl.loop C H core mem pre = (st, mem1, none) →
      (((c.opcode = 25 ∨ c.opcode = 18) ∧ (CmdDataLen c = 0 ∨ c.data_ptr = 0)) ∨
        (c.opcode = 25 ∧ C.read mem1 c.data_ptr (CmdDataLen c) = none) ∨
        (c.opcode ≠ 23 ∧ c.opcode ≠ 25 ∧ c.opcode ≠ 18 ∧ c.opcode ≠ 12)) →
      (cb_ioctl C H core mem arg pid).1 = st ∧
      (cb_ioctl C H core mem arg pid).2.2 = Reply.err EIO) ∧
    (∀ pre, (∀ x ∈ pre, x.opcode = 23 ∨ x.opcode = 12) →
      cb_ioctl.loop C H core mem pre = (core, mem, none)) := by
  refine ⟨?_, ?_, fun pre h => cb_ioctl_loop_ignored C H core mem pre h⟩
  · intro h
    unfold cb_ioctl
    by_cases h0 : arg = 0 ∨ pid ≤ 0
    · rw [if_pos h0]
      exact ⟨rfl, _, rfl⟩
    · rw [if_neg h0]
      have h' : C.header mem arg = none ∨
          ∃ n, C.header mem arg = some n ∧ (n = 0 ∨ n > 16 ∨ C.cmdlist mem arg n = none) := by
        rcases h with h | h | h
        · exact absurd (Or.inl h) h0
        · exact absurd (Or.inr h) h0
        · exact h
      rcases h' with h1 | ⟨n, h1, h2⟩
      · rw [h1]
        exact ⟨rfl, _, rfl⟩
      · rw [h1]
        simp only []
        by_cases hn : n = 0 ∨ n > 16
        · rw [if_pos hn]
          exact ⟨rfl, _, rfl⟩
        · rw [if_neg hn]
          have h3 : C.cmdlist mem arg n = none := by
            rcases h2 with h2 | h2 | h2
            · exact absurd (Or.inl h2) hn
            · exact absurd (Or.inr h2) hn
            · exact h2
          rw [h3]
          exact ⟨rfl, _, rfl⟩
  · intro n pre c post st mem1 ha hpid hh hn0 hn16 hl hpre hc
    have hloop : cb_ioctl.loop C H core mem (pre ++ c :: post) = (st, mem1, some EIO) := by
      rw [cb_ioctl_loop_append C H pre (c :: post) core st mem mem1 hpre]
      simp only [cb_ioctl.loop, cb_ioctl_exec_rejects C H st mem1 c hc]
    unfold cb_ioctl
    rw [if_neg (by omega), hh]
    simp only []
    rw [if_neg (by omega), hl]
    simp only [hloop, and_self]

theorem cb_ioctl_error_core_witness :
    (cb_ioctl sampleCaller sampleHmac exFresh
      { cmds := [{ opcode := 23, blocks := 1, blksz := 0, data_ptr := 0 },
          { opcode := 99, blocks := 0, blksz := 0, data_ptr := 0 }]
        ram := [] } 1 1).1 = exFresh :=
  ((cb_ioctl_error_core sampleCaller sampleHmac exFresh
    { cmds := [{ opcode := 23, blocks := 1, blksz := 0, data_ptr := 0 },
        { opcode := 99, blocks := 0, blksz := 0, data_ptr := 0 }]
      ram := [] } 1 1).2.1 2
    [{ opcode := 23, blocks := 1, blksz := 0, data_ptr := 0 }]
    { opcode := 99, blocks := 0, blksz := 0, data_ptr := 0 } [] exFresh
    { cmds := [{ opcode := 23, blocks := 1, blksz := 0, data_ptr := 0 },
        { opcode := 99, blocks := 0, blksz := 0, data_ptr := 0 }]
      ram := [] }
    (by decide) (by decide) (by decide) (by decide) (by decide) (by decide) (by decide)
    (by decide)).1

end Rpmbd
